import Mathlib

/-!
# go-breakout: a shallow embedding of `src/main.go`

The simulation core of the game (`NewGame`, `resetLevel`, `Update`) is
translated block by block, in two readings of the numeric types.

* The exact model (namespace `Breakout`) reads `float64` as exact rationals
  `ℚ` and Go `int` as `Int`. It carries the properties that involve neither
  rounding nor overflow: the state machine, the brick grid, the lives, and the
  paddle, whose values are small integers and hence exact in binary64.
* The machine model (namespace `Breakout.Machine`) reads `float64` as
  binary64 (round to nearest, ties to even, infinities, NaN) and Go `int` as
  64-bit integers that wrap around. It carries the properties of the ball
  position and velocity, of the score and of the level counter, where
  rounding, NaN or wrap-around decide what the code does.
* `*rand.Rand` is modelled as a stream of raw outcomes with a read position;
  every call consumes one outcome, so quantifying over the stream quantifies
  over all RNG outcomes.
* The key state read through `ebiten.IsKeyPressed` is the `Input` argument of
  `Update`.
* `ballImage` and `Draw` only concern rendering and are not modelled.
-/

set_option autoImplicit false

namespace Breakout

/-! ## Constants (`src/main.go`, lines 14-27) -/

def screenWidth : Nat := 640
def screenHeight : Nat := 480
def ballRadius : Nat := 8
def initialPaddleW : Nat := 96
def paddleHeight : Nat := 16
def brickRows : Nat := 5
def brickCols : Nat := 10
def brickW : Nat := 56
def brickH : Nat := 24
def brickGap : Nat := 4

/-! ## Data model (`src/main.go`, lines 29-51) -/

/-- The `color.RGBA` value of a brick: four `uint8` channels. -/
structure RGBA where
  R : Nat
  G : Nat
  B : Nat
  A : Nat
  deriving DecidableEq, Repr

/-- The `Brick` struct. -/
structure Brick where
  Visible : Bool
  Color : RGBA
  deriving DecidableEq, Repr

/-- The random source `*rand.Rand`: the raw outcomes it is going to deliver
and the number of outcomes consumed so far. -/
structure Rng where
  outcomes : Nat → Nat
  pos : Nat

/-- The call `rng.Float64()`: a value in `[0, 1)` on the 53-bit grid, and the
advanced source. -/
def Rng.Float64 (r : Rng) : ℚ × Rng :=
  (((r.outcomes r.pos % 2 ^ 53 : Nat) : ℚ) / 2 ^ 53, { r with pos := r.pos + 1 })

/-- The call `rng.Intn(n)`: a value in `[0, n)`, and the advanced source. -/
def Rng.Intn (r : Rng) (n : Nat) : Nat × Rng :=
  (r.outcomes r.pos % n, { r with pos := r.pos + 1 })

/-- The `Game` struct (without the rendering-only `ballImage`). -/
structure Game where
  ballX : ℚ
  ballY : ℚ
  ballVX : ℚ
  ballVY : ℚ
  paddleX : ℚ
  paddleW : ℚ
  bricks : List (List Brick)
  score : Int
  lives : Int
  level : Int
  status : String
  rng : Rng

/-- The held-key state polled by `Update`: `KeyLeft`, `KeyRight`, `KeySpace`. -/
structure Input where
  left : Bool
  right : Bool
  space : Bool
  deriving DecidableEq, Repr

/-! ## `resetLevel` (`src/main.go`, lines 76-112) -/

/-- The inner loop of lines 80-91: fills the `n` remaining cells of one row. -/
def fillRow (level : Int) : Nat → Rng → List Brick × Rng
  | 0, r => ([], r)
  | n + 1, r =>
    let u := r.Float64
    let visible : Bool := decide (u.1 > 0.2) || decide (level = 1)
    let cr := u.2.Intn 256
    let cg := cr.2.Intn 256
    let cb := cg.2.Intn 256
    let rest := fillRow level n cb.2
    ({ Visible := visible,
       Color := { R := cr.1 % 256, G := cg.1 % 256, B := cb.1 % 256, A := 255 } } :: rest.1,
     rest.2)

/-- The outer loop of lines 78-92: fills the `m` remaining rows. -/
def fillGrid (level : Int) : Nat → Rng → List (List Brick) × Rng
  | 0, r => ([], r)
  | m + 1, r =>
    let row := fillRow level brickCols r
    let rest := fillGrid level m row.2
    (row.1 :: rest.1, rest.2)

/-- The loop of lines 104-108, `for l := 2; l <= g.level; l += 2`, started at
counter `l` with current paddle width `w`. -/
def shrinkLoop (level : Int) (l : Int) (w : ℚ) : ℚ :=
  if l ≤ level then
    shrinkLoop level (l + 2) (if w > ((ballRadius * 2 * 3 : Nat) : ℚ) then w - 8 else w)
  else w
termination_by (level + 1 - l).toNat
decreasing_by omega

/-- The paddle width `resetLevel` computes for a level (lines 100-108). -/
def paddleWidthAt (level : Int) : ℚ :=
  shrinkLoop level 2 (initialPaddleW : ℚ)

/-- The speed factor `speedIncrease` of line 97. -/
def speedIncrease (level : Int) : ℚ :=
  1 + ((level - 1 : Int) : ℚ) * 0.2

/-- The method `resetLevel`. -/
def resetLevel (g : Game) : Game :=
  let grid := fillGrid g.level brickRows g.rng
  let w := paddleWidthAt g.level
  { g with
    bricks := grid.1
    rng := grid.2
    ballX := ((screenWidth / 2 : Nat) : ℚ)
    ballY := ((screenHeight / 2 : Nat) : ℚ)
    ballVX := 3 * speedIncrease g.level
    ballVY := -3 * speedIncrease g.level
    paddleW := w
    paddleX := ((screenWidth / 2 : Nat) : ℚ) - w / 2
    status := "playing" }

/-- The constructor `NewGame` (lines 53-74), for a given freshly seeded source. -/
def NewGame (rng : Rng) : Game :=
  resetLevel
    { ballX := ((screenWidth / 2 : Nat) : ℚ)
      ballY := ((screenHeight / 2 : Nat) : ℚ)
      ballVX := 3
      ballVY := -3
      paddleX := ((screenWidth / 2 - initialPaddleW / 2 : Nat) : ℚ)
      paddleW := (initialPaddleW : ℚ)
      bricks := []
      score := 0
      lives := 3
      level := 1
      status := "playing"
      rng := rng }

/-! ## `Update` (`src/main.go`, lines 114-228) -/

/-- Paddle movement, lines 129-141. -/
def paddleStep (inp : Input) (g : Game) : Game :=
  let g1 : Game :=
    if inp.left then
      let h : Game := { g with paddleX := g.paddleX - 5 }
      if h.paddleX < 0 then { h with paddleX := 0 } else h
    else g
  if inp.right then
    let h : Game := { g1 with paddleX := g1.paddleX + 5 }
    if h.paddleX + h.paddleW > (screenWidth : ℚ) then
      { h with paddleX := (screenWidth : ℚ) - h.paddleW }
    else h
  else g1

/-- Ball movement, lines 143-145. -/
def moveStep (g : Game) : Game :=
  { g with ballX := g.ballX + g.ballVX, ballY := g.ballY + g.ballVY }

/-- Wall bounces, lines 147-159. -/
def wallStep (g : Game) : Game :=
  let g1 : Game :=
    if g.ballX - (ballRadius : ℚ) < 0 then
      { g with ballX := (ballRadius : ℚ), ballVX := -g.ballVX }
    else g
  let g2 : Game :=
    if g1.ballX + (ballRadius : ℚ) > (screenWidth : ℚ) then
      { g1 with ballX := (screenWidth : ℚ) - (ballRadius : ℚ), ballVX := -g1.ballVX }
    else g1
  if g2.ballY - (ballRadius : ℚ) < 0 then
    { g2 with ballY := (ballRadius : ℚ), ballVY := -g2.ballVY }
  else g2

/-- Paddle collision, lines 161-171. -/
def paddleHitStep (g : Game) : Game :=
  if g.ballY + (ballRadius : ℚ) > ((screenHeight - paddleHeight : Nat) : ℚ) ∧
      g.ballX > g.paddleX ∧ g.ballX < g.paddleX + g.paddleW then
    let paddleCenter := g.paddleX + g.paddleW / 2
    let delta := g.ballX - paddleCenter
    { g with
      ballY := ((screenHeight - paddleHeight : Nat) : ℚ) - (ballRadius : ℚ)
      ballVY := -g.ballVY
      ballVX := g.ballVX + delta * 0.1 }
  else g

/-- Miss detection, lines 173-186. -/
def missStep (g : Game) : Game :=
  if g.ballY - (ballRadius : ℚ) > (screenHeight : ℚ) then
    let g1 : Game := { g with lives := g.lives - 1 }
    if g1.lives ≤ 0 then
      { g1 with status := "gameover" }
    else
      { g1 with
        ballX := ((screenWidth / 2 : Nat) : ℚ)
        ballY := ((screenHeight / 2 : Nat) : ℚ)
        ballVX := 3 + ((g1.level - 1 : Int) : ℚ) * 0.2
        ballVY := -3 - ((g1.level - 1 : Int) : ℚ) * 0.2
        paddleX := ((screenWidth / 2 : Nat) : ℚ) - g1.paddleW / 2 }
  else g

/-- The left edge `brickX` of the bricks of column `j` (line 195). -/
def brickX (j : Nat) : ℚ := ((j * (brickW + brickGap) + brickGap : Nat) : ℚ)

/-- The top edge `brickY` of the bricks of row `i` (line 196). -/
def brickY (i : Nat) : ℚ := ((i * (brickH + brickGap) + brickGap : Nat) : ℚ)

/-- The overlap test of lines 198-201 for a ball centred at `(x, y)` and the
cell `(i, j)`. -/
def overlaps (x y : ℚ) (i j : Nat) : Bool :=
  decide (x + (ballRadius : ℚ) > brickX j ∧
    x - (ballRadius : ℚ) < brickX j + (brickW : ℚ) ∧
    y + (ballRadius : ℚ) > brickY i ∧
    y - (ballRadius : ℚ) < brickY i + (brickH : ℚ))

/-- The inner loop of lines 190-207 over the cells of row `i` from column `j`
on; it carries the row, `ballVY` and `score`. -/
def brickRowLoop (x y : ℚ) (i : Nat) : Nat → List Brick → ℚ → Int → List Brick × ℚ × Int
  | _, [], vy, sc => ([], vy, sc)
  | j, b :: bs, vy, sc =>
    if !b.Visible then
      let r := brickRowLoop x y i (j + 1) bs vy sc
      (b :: r.1, r.2)
    else if overlaps x y i j then
      let r := brickRowLoop x y i (j + 1) bs (-vy) (sc + 10)
      ({ b with Visible := false } :: r.1, r.2)
    else
      let r := brickRowLoop x y i (j + 1) bs vy sc
      (b :: r.1, r.2)

/-- The outer loop of lines 189-208 over the rows from row `i` on. -/
def brickGridLoop (x y : ℚ) : Nat → List (List Brick) → ℚ → Int → List (List Brick) × ℚ × Int
  | _, [], vy, sc => ([], vy, sc)
  | i, row :: rows, vy, sc =>
    let r := brickRowLoop x y i 0 row vy sc
    let rs := brickGridLoop x y (i + 1) rows r.2.1 r.2.2
    (r.1 :: rs.1, rs.2)

/-- Brick collisions, lines 188-208. -/
def brickStep (g : Game) : Game :=
  let r := brickGridLoop g.ballX g.ballY 0 g.bricks g.ballVY g.score
  { g with bricks := r.1, ballVY := r.2.1, score := r.2.2 }

/-- The inner loop of lines 213-218: `true` when it ends without `break`. -/
def rowCleared : List Brick → Bool
  | [] => true
  | b :: bs => if b.Visible then false else rowCleared bs

/-- The loops of lines 211-222: the final value of `allCleared`. -/
def allCleared : List (List Brick) → Bool
  | [] => true
  | row :: rows => if rowCleared row then allCleared rows else false

/-- Win check, lines 210-225. -/
def winStep (g : Game) : Game :=
  if allCleared g.bricks then { g with status := "win" } else g

/-- The state at the start of the brick-collision loop: after the paddle,
move, wall, paddle-collision and miss blocks (lines 129-186). -/
def preBrick (inp : Input) (g : Game) : Game :=
  missStep (paddleHitStep (wallStep (moveStep (paddleStep inp g))))

/-- The method `Update`; the returned `error` is always `nil` and is left out. -/
def Update (inp : Input) (g : Game) : Game :=
  if g.status == "gameover" || g.status == "win" then
    if inp.space then
      if g.status == "win" then
        resetLevel { g with level := g.level + 1 }
      else
        resetLevel { g with level := 1, score := 0, lives := 3 }
    else g
  else
    winStep (brickStep (preBrick inp g))

/-- States reachable from `NewGame` by `Update` calls, for any freshly seeded
random source and any held-key inputs. -/
inductive Reachable : Game → Prop
  | init (rng : Rng) : Reachable (NewGame rng)
  | step (inp : Input) (g : Game) : Reachable g → Reachable (Update inp g)

/-! ## Well-formedness and sample states -/

/-- The fixed shape of the brick grid: `brickRows` rows of `brickCols` bricks. -/
def GridShape (grid : List (List Brick)) : Prop :=
  grid.length = brickRows ∧ ∀ row ∈ grid, row.length = brickCols

/-- The brick stored at cell `(i, j)`, if the grid has such a cell. -/
def cellAt (grid : List (List Brick)) (i j : Nat) : Option Brick :=
  (grid.getD i []).get? j

/-- The brick of cell `(i, j)` after the collision test against a ball centred
at `(x, y)`: a visible overlapped brick becomes invisible, any other brick is
unchanged. -/
def afterHit (x y : ℚ) (i j : Nat) (b : Brick) : Brick :=
  if b.Visible && overlaps x y i j then { b with Visible := false } else b

/-- Whether the content of cell `(i, j)` is a visible brick whose box overlaps
the box of a ball centred at `(x, y)`. -/
def hitAt (x y : ℚ) (i j : Nat) : Option Brick → Bool
  | some b => b.Visible && overlaps x y i j
  | none => false

/-- Whether cell `(i, j)` of the grid holds a visible brick whose box overlaps
the box of a ball centred at `(x, y)`. -/
def isHit (x y : ℚ) (grid : List (List Brick)) (i j : Nat) : Bool :=
  hitAt x y i j (cellAt grid i j)

/-- The number of visible bricks of the grid overlapped by a ball centred at
`(x, y)`. -/
def hitCount (x y : ℚ) (grid : List (List Brick)) : Nat :=
  ∑ i ∈ Finset.range grid.length, ∑ j ∈ Finset.range (grid.getD i []).length,
    if isHit x y grid i j then 1 else 0

/-- The number of hit bricks the inner collision loop meets from column `j`
on (recursive form of the count, used to reason about the loop). -/
def rowHitsFrom (x y : ℚ) (i : Nat) : Nat → List Brick → Nat
  | _, [] => 0
  | j, b :: bs => (if b.Visible && overlaps x y i j then 1 else 0) + rowHitsFrom x y i (j + 1) bs

/-- The number of hit bricks the outer collision loop meets from row `i` on. -/
def gridHitsFrom (x y : ℚ) : Nat → List (List Brick) → Nat
  | _, [] => 0
  | i, row :: rows => rowHitsFrom x y i 0 row + gridHitsFrom x y (i + 1) rows

/-- The paddle lies inside the screen and its width is one that `resetLevel`
can produce. -/
def PaddleInv (g : Game) : Prop :=
  48 ≤ g.paddleW ∧ g.paddleW ≤ 96 ∧ 0 ≤ g.paddleX ∧ g.paddleX + g.paddleW ≤ (screenWidth : ℚ)

/-- The uniform draw `resetLevel` takes for cell `(i, j)` when started on the
source `r`: every cell consumes four outcomes, the first being its draw. -/
def cellDraw (r : Rng) (i j : Nat) : ℚ :=
  (Rng.Float64 { r with pos := r.pos + 4 * (brickCols * i + j) }).1

/-- The state after the paddle, move and wall blocks (lines 129-159). -/
def afterWall (inp : Input) (g : Game) : Game :=
  wallStep (moveStep (paddleStep inp g))

/-- The test of the paddle-collision block (lines 162-163). -/
def paddleCollides (g : Game) : Prop :=
  g.ballY + (ballRadius : ℚ) > ((screenHeight - paddleHeight : Nat) : ℚ) ∧
    g.ballX > g.paddleX ∧ g.ballX < g.paddleX + g.paddleW

/-- The test of the miss block (line 174). -/
def ballMissed (g : Game) : Prop :=
  g.ballY - (ballRadius : ℚ) > (screenHeight : ℚ)

/-- The invariant behind the bounds on `lives`: the counters are in range, the
grid has its fixed shape, the status is one of the three values, and a Playing
state without visible brick is a freshly reset one, whose ball cannot be
missed in the next tick. -/
def LivesInv (g : Game) : Prop :=
  0 ≤ g.lives ∧ g.lives ≤ 3 ∧ 1 ≤ g.level ∧ GridShape g.bricks ∧
  (g.status = "playing" ∨ g.status = "gameover" ∨ g.status = "win") ∧
  (g.status = "playing" → 1 ≤ g.lives) ∧
  (g.status = "gameover" → g.lives = 0) ∧
  (g.status = "win" → 1 ≤ g.lives) ∧
  (g.status = "playing" → allCleared g.bricks = true →
    g.ballY + g.ballVY - (ballRadius : ℚ) ≤ (screenHeight : ℚ))

/-- A random source delivering the raw outcomes 0, 1, 2, ... -/
def sampleRng : Rng := { outcomes := fun n => n, pos := 0 }

/-- A grid of 5 x 10 bricks that all have the given visibility. -/
def uniformGrid (visible : Bool) : List (List Brick) :=
  List.replicate brickRows
    (List.replicate brickCols { Visible := visible, Color := { R := 200, G := 30, B := 30, A := 255 } })

/-- A level-1 state as it is right after `NewGame`, with every brick visible. -/
def sampleGame : Game :=
  { ballX := 320
    ballY := 240
    ballVX := 3
    ballVY := -3
    paddleX := 272
    paddleW := 96
    bricks := uniformGrid true
    score := 0
    lives := 3
    level := 1
    status := "playing"
    rng := sampleRng }

/-- The input with no key held. -/
def noKeys : Input := { left := false, right := false, space := false }

/-- A grid whose only visible brick is the one of cell `(0, 0)`. -/
def lastBrickGrid : List (List Brick) :=
  ({ Visible := true, Color := { R := 200, G := 30, B := 30, A := 255 } } ::
      List.replicate 9 { Visible := false, Color := { R := 200, G := 30, B := 30, A := 255 } }) ::
    List.replicate 4
      (List.replicate brickCols { Visible := false, Color := { R := 200, G := 30, B := 30, A := 255 } })

/-- A level-1 state one tick before the ball reaches the last visible brick. -/
def lastBrickGame : Game :=
  { sampleGame with ballX := 27, ballY := 23, bricks := lastBrickGrid, score := 490 }

/-- A level-1 state with every brick visible, one tick before the ball reaches
the brick of cell `(0, 0)`. -/
def cornerGame : Game := { sampleGame with ballX := 27, ballY := 23 }

/-- A level-2 state with three lives whose ball falls past the paddle. -/
def missGame : Game :=
  { sampleGame with
    level := 2
    ballX := 500
    ballY := 490
    ballVX := 3.6
    ballVY := 3.6
    paddleX := 276
    paddleW := 88
    score := 120 }

/-- A last-life state whose ball, already below the screen edge after the
move, has the paddle slide under it in the same tick (left key held). -/
def caughtGame : Game :=
  { sampleGame with ballX := 314, ballY := 486, ballVX := 3, ballVY := 3, paddleX := 320, lives := 1 }

/-- The state `caughtGame` with all three lives left. -/
def caughtGameFull : Game := { caughtGame with lives := 3 }

/-- A random source whose raw outcomes are all 0. -/
def zeroRng : Rng := { outcomes := fun _ => 0, pos := 0 }

/-- The input with only the space key held. -/
def spaceKey : Input := { left := false, right := false, space := true }

/-- The input with only the left key held. -/
def leftKey : Input := { left := true, right := false, space := false }

/-- A last-life level-2 state with no visible brick whose ball falls past the
paddle. -/
def clearedGame : Game :=
  { sampleGame with
    level := 2
    ballX := 100
    ballY := 490
    ballVX := 3.6
    ballVY := 3.6
    paddleX := 276
    paddleW := 88
    bricks := uniformGrid false
    lives := 1 }

/-! ## The machine model: binary64 arithmetic and wrapping integers

The definitions above read `float64` as exact rationals and `int` as unbounded
integers. That is exact for the paddle (all its values are small integers) and
for everything that involves no arithmetic. The definitions of this section
repeat the translation of `src/main.go` with the arithmetic of the machine:

* `float64` is `F64`: NaN, the two infinities, or a finite value; every
  operation rounds its exact result to the nearest binary64 value, ties to
  even, with gradual underflow and overflow to infinity. Operations are
  rounded one by one (no fused multiply-add). The two zeros are identified:
  the code never divides by a variable and never inspects a sign bit.
* Go `int` is 64-bit two-complement: `wrapInt` is applied to every integer
  operation of the code. The only exception is the counter of the paddle loop
  of `resetLevel`, which Go would wrap only for `level >= MaxInt64 - 1`.
-/

namespace Machine

/-! ### 64-bit integers -/

/-- The largest Go `int`, `MaxInt64`. -/
def maxInt : Int := 2 ^ 63 - 1

/-- The smallest Go `int`, `MinInt64`. -/
def minInt : Int := -(2 ^ 63)

/-- The result of a Go `int` operation whose exact result is `n`. -/
def wrapInt (n : Int) : Int := (n + 2 ^ 63) % 2 ^ 64 - 2 ^ 63

/-! ### binary64 -/

/-- Round a rational to the nearest integer, ties to the even one. -/
def halfEven (x : ℚ) : Int :=
  if x - ⌊x⌋ < 1 / 2 then ⌊x⌋
  else if 1 / 2 < x - ⌊x⌋ then ⌊x⌋ + 1
  else if ⌊x⌋ % 2 = 0 then ⌊x⌋ else ⌊x⌋ + 1

/-- The exponent of the binary64 quantum at `q`: 53 significant bits, and
`2 ^ (-1074)` in the subnormal range. -/
def quantum (q : ℚ) : Int := max (Int.log 2 |q| - 52) (-1074)

/-- Round to the binary64 grid with unbounded exponent (nearest, ties to even). -/
def roundQ (q : ℚ) : ℚ := (halfEven (q / 2 ^ quantum q) : ℚ) * 2 ^ quantum q

/-- A binary64 value: NaN, an infinity, or a finite value. -/
inductive F64 where
  | nan : F64
  | inf (negative : Bool) : F64
  | fin (q : ℚ) : F64
  deriving DecidableEq

/-- Round an exact result to binary64; a magnitude that rounds to `2 ^ 1024`
or more overflows to an infinity. -/
def F64.round (q : ℚ) : F64 :=
  if (2 : ℚ) ^ (1024 : ℤ) ≤ |roundQ q| then F64.inf (decide (q < 0)) else F64.fin (roundQ q)

/-- The conversion `float64(n)` of an `int`. -/
def F64.ofInt (n : Int) : F64 := F64.round (n : ℚ)

/-- Negation. -/
def F64.neg : F64 → F64
  | F64.nan => F64.nan
  | F64.inf s => F64.inf (!s)
  | F64.fin q => F64.fin (-q)

/-- Addition. -/
def F64.add : F64 → F64 → F64
  | F64.fin a, F64.fin b => F64.round (a + b)
  | F64.fin _, F64.inf t => F64.inf t
  | F64.inf s, F64.fin _ => F64.inf s
  | F64.inf s, F64.inf t => if s = t then F64.inf s else F64.nan
  | _, _ => F64.nan

/-- Subtraction. -/
def F64.sub (a b : F64) : F64 := F64.add a (F64.neg b)

/-- Multiplication. -/
def F64.mul : F64 → F64 → F64
  | F64.fin a, F64.fin b => F64.round (a * b)
  | F64.fin a, F64.inf t => if a = 0 then F64.nan else F64.inf (t != decide (a < 0))
  | F64.inf s, F64.fin b => if b = 0 then F64.nan else F64.inf (s != decide (b < 0))
  | F64.inf s, F64.inf t => F64.inf (s != t)
  | _, _ => F64.nan

/-- Division by a non-zero constant (the code only divides by 2). -/
def F64.divConst (a : F64) (c : ℚ) : F64 :=
  match a with
  | F64.fin q => F64.round (q / c)
  | F64.inf s => F64.inf (s != decide (c < 0))
  | F64.nan => F64.nan

/-- The comparison `a < b`; false when a side is NaN. -/
def F64.lt : F64 → F64 → Bool
  | F64.fin a, F64.fin b => decide (a < b)
  | F64.fin _, F64.inf t => !t
  | F64.inf s, F64.fin _ => s
  | F64.inf s, F64.inf t => s && !t
  | _, _ => false

/-- The comparison `a > b`. -/
def F64.gt (a b : F64) : Bool := F64.lt b a

/-- The order `a <= b`; false when a side is NaN. -/
def F64.le : F64 → F64 → Bool
  | F64.fin a, F64.fin b => decide (a ≤ b)
  | F64.fin _, F64.inf t => !t
  | F64.inf s, F64.fin _ => s
  | F64.inf s, F64.inf t => s || !t
  | _, _ => false

/-- The value is finite (neither NaN nor an infinity). -/
def F64.isFinite : F64 → Bool
  | F64.fin _ => true
  | _ => false

/-! ### Data model -/

/-- The `Game` struct with machine arithmetic. -/
structure Game where
  ballX : F64
  ballY : F64
  ballVX : F64
  ballVY : F64
  paddleX : F64
  paddleW : F64
  bricks : List (List Brick)
  score : Int
  lives : Int
  level : Int
  status : String
  rng : Rng

/-! ### `resetLevel` -/

/-- The loop of lines 104-108 on a binary64 paddle width. -/
def shrinkLoop (level : Int) (l : Int) (w : F64) : F64 :=
  if l ≤ level then
    shrinkLoop level (l + 2)
      (if F64.gt w (F64.ofInt (ballRadius * 2 * 3 : Nat)) then F64.sub w (F64.fin 8) else w)
  else w
termination_by (level + 1 - l).toNat
decreasing_by omega

/-- The speed factor `speedIncrease` of line 97: `1 + float64(level-1)*0.2`. -/
def speedIncrease (level : Int) : F64 :=
  F64.add (F64.fin 1) (F64.mul (F64.ofInt (wrapInt (level - 1))) (F64.round 0.2))

/-- The method `resetLevel`. -/
def resetLevel (g : Game) : Game :=
  let grid := fillGrid g.level brickRows g.rng
  let w := shrinkLoop g.level 2 (F64.fin (initialPaddleW : ℚ))
  { g with
    bricks := grid.1
    rng := grid.2
    ballX := F64.fin ((screenWidth / 2 : Nat) : ℚ)
    ballY := F64.fin ((screenHeight / 2 : Nat) : ℚ)
    ballVX := F64.mul (F64.fin 3) (speedIncrease g.level)
    ballVY := F64.mul (F64.fin (-3)) (speedIncrease g.level)
    paddleW := w
    paddleX := F64.sub (F64.fin ((screenWidth / 2 : Nat) : ℚ)) (F64.divConst w 2)
    status := "playing" }

/-- The constructor `NewGame`. -/
def NewGame (rng : Rng) : Game :=
  resetLevel
    { ballX := F64.fin ((screenWidth / 2 : Nat) : ℚ)
      ballY := F64.fin ((screenHeight / 2 : Nat) : ℚ)
      ballVX := F64.fin 3
      ballVY := F64.fin (-3)
      paddleX := F64.fin ((screenWidth / 2 - initialPaddleW / 2 : Nat) : ℚ)
      paddleW := F64.fin (initialPaddleW : ℚ)
      bricks := []
      score := 0
      lives := 3
      level := 1
      status := "playing"
      rng := rng }

/-! ### `Update` -/

/-- Paddle movement, lines 129-141. -/
def paddleStep (inp : Input) (g : Game) : Game :=
  let g1 : Game :=
    if inp.left then
      let h : Game := { g with paddleX := F64.sub g.paddleX (F64.fin 5) }
      if F64.lt h.paddleX (F64.fin 0) then { h with paddleX := F64.fin 0 } else h
    else g
  if inp.right then
    let h : Game := { g1 with paddleX := F64.add g1.paddleX (F64.fin 5) }
    if F64.gt (F64.add h.paddleX h.paddleW) (F64.fin (screenWidth : ℚ)) then
      { h with paddleX := F64.sub (F64.fin (screenWidth : ℚ)) h.paddleW }
    else h
  else g1

/-- Ball movement, lines 143-145. -/
def moveStep (g : Game) : Game :=
  { g with ballX := F64.add g.ballX g.ballVX, ballY := F64.add g.ballY g.ballVY }

/-- Wall bounces, lines 147-159. -/
def wallStep (g : Game) : Game :=
  let g1 : Game :=
    if F64.lt (F64.sub g.ballX (F64.fin (ballRadius : ℚ))) (F64.fin 0) then
      { g with ballX := F64.fin (ballRadius : ℚ), ballVX := F64.neg g.ballVX }
    else g
  let g2 : Game :=
    if F64.gt (F64.add g1.ballX (F64.fin (ballRadius : ℚ))) (F64.fin (screenWidth : ℚ)) then
      { g1 with
        ballX := F64.fin ((screenWidth - ballRadius : Nat) : ℚ)
        ballVX := F64.neg g1.ballVX }
    else g1
  if F64.lt (F64.sub g2.ballY (F64.fin (ballRadius : ℚ))) (F64.fin 0) then
    { g2 with ballY := F64.fin (ballRadius : ℚ), ballVY := F64.neg g2.ballVY }
  else g2

/-- The test of the paddle-collision block (lines 162-163). -/
def paddleCollides (g : Game) : Bool :=
  F64.gt (F64.add g.ballY (F64.fin (ballRadius : ℚ)))
      (F64.fin ((screenHeight - paddleHeight : Nat) : ℚ)) &&
    F64.gt g.ballX g.paddleX && F64.lt g.ballX (F64.add g.paddleX g.paddleW)

/-- Paddle collision, lines 161-171. -/
def paddleHitStep (g : Game) : Game :=
  if paddleCollides g then
    let paddleCenter := F64.add g.paddleX (F64.divConst g.paddleW 2)
    let delta := F64.sub g.ballX paddleCenter
    { g with
      ballY := F64.sub (F64.fin ((screenHeight - paddleHeight : Nat) : ℚ)) (F64.fin (ballRadius : ℚ))
      ballVY := F64.neg g.ballVY
      ballVX := F64.add g.ballVX (F64.mul delta (F64.round 0.1)) }
  else g

/-- The test of the miss block (line 174). -/
def ballMissed (g : Game) : Bool :=
  F64.gt (F64.sub g.ballY (F64.fin (ballRadius : ℚ))) (F64.fin (screenHeight : ℚ))

/-- Miss detection, lines 173-186. -/
def missStep (g : Game) : Game :=
  if ballMissed g then
    let g1 : Game := { g with lives := wrapInt (g.lives - 1) }
    if g1.lives ≤ 0 then
      { g1 with status := "gameover" }
    else
      { g1 with
        ballX := F64.fin ((screenWidth / 2 : Nat) : ℚ)
        ballY := F64.fin ((screenHeight / 2 : Nat) : ℚ)
        ballVX := F64.add (F64.fin 3) (F64.mul (F64.ofInt (wrapInt (g1.level - 1))) (F64.round 0.2))
        ballVY := F64.sub (F64.fin (-3)) (F64.mul (F64.ofInt (wrapInt (g1.level - 1))) (F64.round 0.2))
        paddleX := F64.sub (F64.fin ((screenWidth / 2 : Nat) : ℚ)) (F64.divConst g1.paddleW 2) }
  else g

/-- The left edge `brickX` of the bricks of column `j` (line 195). -/
def brickX (j : Nat) : F64 := F64.ofInt (wrapInt ((j : Int) * (brickW + brickGap : Nat) + (brickGap : Nat)))

/-- The top edge `brickY` of the bricks of row `i` (line 196). -/
def brickY (i : Nat) : F64 := F64.ofInt (wrapInt ((i : Int) * (brickH + brickGap : Nat) + (brickGap : Nat)))

/-- The overlap test of lines 198-201 for a ball centred at `(x, y)` and the
cell `(i, j)`, as the code computes it. -/
def overlaps (x y : F64) (i j : Nat) : Bool :=
  F64.gt (F64.add x (F64.fin (ballRadius : ℚ))) (brickX j) &&
    F64.lt (F64.sub x (F64.fin (ballRadius : ℚ))) (F64.add (brickX j) (F64.fin (brickW : ℚ))) &&
    F64.gt (F64.add y (F64.fin (ballRadius : ℚ))) (brickY i) &&
    F64.lt (F64.sub y (F64.fin (ballRadius : ℚ))) (F64.add (brickY i) (F64.fin (brickH : ℚ)))

/-- The inner loop of lines 190-207 over the cells of row `i` from column `j`
on; it carries the row, `ballVY` and `score`. -/
def brickRowLoop (x y : F64) (i : Nat) : Nat → List Brick → F64 → Int → List Brick × F64 × Int
  | _, [], vy, sc => ([], vy, sc)
  | j, b :: bs, vy, sc =>
    if !b.Visible then
      let r := brickRowLoop x y i (j + 1) bs vy sc
      (b :: r.1, r.2)
    else if overlaps x y i j then
      let r := brickRowLoop x y i (j + 1) bs (F64.neg vy) (wrapInt (sc + 10))
      ({ b with Visible := false } :: r.1, r.2)
    else
      let r := brickRowLoop x y i (j + 1) bs vy sc
      (b :: r.1, r.2)

/-- The outer loop of lines 189-208 over the rows from row `i` on. -/
def brickGridLoop (x y : F64) : Nat → List (List Brick) → F64 → Int → List (List Brick) × F64 × Int
  | _, [], vy, sc => ([], vy, sc)
  | i, row :: rows, vy, sc =>
    let r := brickRowLoop x y i 0 row vy sc
    let rs := brickGridLoop x y (i + 1) rows r.2.1 r.2.2
    (r.1 :: rs.1, rs.2)

/-- Brick collisions, lines 188-208. -/
def brickStep (g : Game) : Game :=
  let r := brickGridLoop g.ballX g.ballY 0 g.bricks g.ballVY g.score
  { g with bricks := r.1, ballVY := r.2.1, score := r.2.2 }

/-- Win check, lines 210-225. -/
def winStep (g : Game) : Game :=
  if allCleared g.bricks then { g with status := "win" } else g

/-- The state after the paddle, move and wall blocks (lines 129-159). -/
def afterWall (inp : Input) (g : Game) : Game :=
  wallStep (moveStep (paddleStep inp g))

/-- The state at the start of the brick-collision loop (after lines 129-186). -/
def preBrick (inp : Input) (g : Game) : Game :=
  missStep (paddleHitStep (afterWall inp g))

/-- The method `Update`. -/
def Update (inp : Input) (g : Game) : Game :=
  if g.status == "gameover" || g.status == "win" then
    if inp.space then
      if g.status == "win" then
        resetLevel { g with level := wrapInt (g.level + 1) }
      else
        resetLevel { g with level := 1, score := 0, lives := 3 }
    else g
  else
    winStep (brickStep (preBrick inp g))

/-! ### Counting the hit bricks -/

/-- The brick of cell `(i, j)` after the collision test against a ball centred
at `(x, y)`. -/
def afterHit (x y : F64) (i j : Nat) (b : Brick) : Brick :=
  if b.Visible && overlaps x y i j then { b with Visible := false } else b

/-- Whether the content of cell `(i, j)` is a visible brick for which the
overlap test of the code holds. -/
def hitAt (x y : F64) (i j : Nat) : Option Brick → Bool
  | some b => b.Visible && overlaps x y i j
  | none => false

/-- Whether cell `(i, j)` of the grid holds a visible brick for which the
overlap test of the code holds. -/
def isHit (x y : F64) (grid : List (List Brick)) (i j : Nat) : Bool :=
  hitAt x y i j (cellAt grid i j)

/-- The number of visible bricks of the grid for which the overlap test of the
code holds. -/
def hitCount (x y : F64) (grid : List (List Brick)) : Nat :=
  ∑ i ∈ Finset.range grid.length, ∑ j ∈ Finset.range (grid.getD i []).length,
    if isHit x y grid i j then 1 else 0

/-- The number of hit bricks the inner collision loop meets from column `j` on. -/
def rowHitsFrom (x y : F64) (i : Nat) : Nat → List Brick → Nat
  | _, [] => 0
  | j, b :: bs => (if b.Visible && overlaps x y i j then 1 else 0) + rowHitsFrom x y i (j + 1) bs

/-- The number of hit bricks the outer collision loop meets from row `i` on. -/
def gridHitsFrom (x y : F64) : Nat → List (List Brick) → Nat
  | _, [] => 0
  | i, row :: rows => rowHitsFrom x y i 0 row + gridHitsFrom x y (i + 1) rows

/-! ### Sample states of the machine model -/

/-- A level-1 state as it is right after `NewGame`, with every brick visible. -/
def sampleGame : Game :=
  { ballX := F64.fin 320
    ballY := F64.fin 240
    ballVX := F64.fin 3
    ballVY := F64.fin (-3)
    paddleX := F64.fin 272
    paddleW := F64.fin 96
    bricks := uniformGrid true
    score := 0
    lives := 3
    level := 1
    status := "playing"
    rng := sampleRng }

/-- A Win state at the largest level an `int` can hold. -/
def winMaxGame : Game :=
  { sampleGame with status := "win", level := maxInt, score := 470, lives := 2 }

/-- A level-1 state whose ball reaches the paddle in the next move, 17 units
left of the paddle centre. -/
def paddleGame : Game :=
  { sampleGame with ballX := F64.fin 300, ballY := F64.fin 455, ballVX := F64.fin 3, ballVY := F64.fin 3 }

/-- A state whose ball touches the left wall and moves left by `2 ^ (-60)`. -/
def absorbGame : Game :=
  { sampleGame with
    ballX := F64.fin 8
    ballY := F64.fin 300
    ballVX := F64.fin (-(2 ^ (-60 : ℤ)))
    ballVY := F64.fin (-3) }

/-- A level-1 state whose ball passes the left wall in the next move. -/
def leftWallGame : Game :=
  { sampleGame with
    ballX := F64.fin 10
    ballY := F64.fin 300
    ballVX := F64.fin (-3)
    ballVY := F64.fin (-3) }

/-- A level-1 state with every brick visible whose ball moves to `(30, 20)`,
where it overlaps the brick of cell `(0, 0)` only. -/
def cornerGame : Game := { sampleGame with ballX := F64.fin 27, ballY := F64.fin 23 }

/-- A level-1 state whose ball moves to `(56 + 2 ^ (-47), 20)`: its right edge
is `64 + 2 ^ (-47)` exactly, and 64 after rounding. -/
def edgeGame : Game :=
  { sampleGame with ballX := F64.fin (53 + 2 ^ (-47 : ℤ)), ballY := F64.fin 23 }

/-- The state `cornerGame` with a score 5 below `MaxInt64`. -/
def richGame : Game := { cornerGame with score := maxInt - 5 }

/-- A state whose `ballX` is NaN. -/
def nanGame : Game := { sampleGame with ballX := F64.nan }

/-- A level-1 state whose ball overlaps the bricks of the cells `(0, 0)` and
`(1, 0)` after the move. -/
def twoHitGame : Game := { sampleGame with ballX := F64.fin 27, ballY := F64.fin 29 }

end Machine

end Breakout

/-! # Theorems -/

namespace Breakout

/-! ## Paddle width of a level -/

/-- Closed form of the shrink loop started on a width of the form `48 + 8 * m`. -/
theorem shrinkLoop_eq (level : Int) : ∀ (n : Nat) (l : Int) (m : Nat),
    (level + 1 - l).toNat = n →
    shrinkLoop level l (48 + 8 * (m : ℚ)) = 48 + 8 * ((m - ((level + 2 - l) / 2).toNat : Nat) : ℚ) := by
  intro n
  induction n using Nat.strong_induction_on with
  | _ n ih =>
    intro l m hn
    rw [shrinkLoop]
    by_cases hl : l ≤ level
    · rw [if_pos hl]
      have hlt : (level + 1 - (l + 2)).toNat < n := by omega
      cases m with
      | zero =>
        have h0 := ih _ hlt (l + 2) 0 rfl
        simp only [ballRadius] at *
        norm_num at *
        rw [h0]
      | succ k =>
        have h0 := ih _ hlt (l + 2) k rfl
        have hw : (48 + 8 * (((k + 1 : Nat)) : ℚ)) > ((ballRadius * 2 * 3 : Nat) : ℚ) := by
          simp only [ballRadius]; push_cast; norm_num; positivity
        rw [if_pos hw]
        have e : (48 + 8 * (((k + 1 : Nat)) : ℚ)) - 8 = 48 + 8 * (k : ℚ) := by push_cast; ring
        rw [e, h0]
        have : k - ((level + 2 - (l + 2)) / 2).toNat = k + 1 - ((level + 2 - l) / 2).toNat := by omega
        rw [this]
    · rw [if_neg hl]
      have : ((level + 2 - l) / 2).toNat = 0 := by omega
      rw [this]; simp

/-- Closed form of the paddle width of a level. -/
theorem paddleWidthAt_eq (level : Int) :
    paddleWidthAt level = 48 + 8 * ((6 - (level / 2).toNat : Nat) : ℚ) := by
  have h := shrinkLoop_eq level _ 2 6 rfl
  have e : (level + 2 - 2) / 2 = level / 2 := by congr 1; omega
  rw [e] at h
  unfold paddleWidthAt
  simp only [initialPaddleW]
  have e2 : ((96 : Nat) : ℚ) = 48 + 8 * ((6 : Nat) : ℚ) := by norm_num
  rw [e2, h]

/-- The paddle width of every level lies between 48 and 96. -/
theorem paddleWidthAt_bounds (level : Int) :
    48 ≤ paddleWidthAt level ∧ paddleWidthAt level ≤ 96 := by
  rw [paddleWidthAt_eq]
  have h : ((6 - (level / 2).toNat : Nat) : ℚ) ≤ 6 := by
    have : 6 - (level / 2).toNat ≤ 6 := by omega
    exact_mod_cast this
  have h0 : (0 : ℚ) ≤ ((6 - (level / 2).toNat : Nat) : ℚ) := by positivity
  constructor <;> linarith

/-- The paddle width does not grow with the level. -/
theorem paddleWidthAt_antitone (l1 l2 : Int) (h : l1 ≤ l2) :
    paddleWidthAt l2 ≤ paddleWidthAt l1 := by
  rw [paddleWidthAt_eq, paddleWidthAt_eq]
  have : 6 - (l2 / 2).toNat ≤ 6 - (l1 / 2).toNat := by omega
  have h' : ((6 - (l2 / 2).toNat : Nat) : ℚ) ≤ ((6 - (l1 / 2).toNat : Nat) : ℚ) := by
    exact_mod_cast this
  linarith

/-- From level 1 on the paddle width is `max 48 (96 - 8 * floor (level / 2))`. -/
theorem paddleWidthAt_max (level : Int) (h : 1 ≤ level) :
    paddleWidthAt level = max 48 (96 - 8 * ((level / 2 : Int) : ℚ)) := by
  rw [paddleWidthAt_eq]
  by_cases hc : level / 2 ≤ 6
  · have hn : ((6 - (level / 2).toNat : Nat) : Int) = 6 - level / 2 := by omega
    have hq : ((6 - (level / 2).toNat : Nat) : ℚ) = 6 - ((level / 2 : Int) : ℚ) := by
      have := congrArg (fun z : Int => (z : ℚ)) hn
      simpa using this
    have hc' : ((level / 2 : Int) : ℚ) ≤ 6 := by exact_mod_cast hc
    rw [hq, max_eq_right (by linarith)]
    ring
  · have hn : 6 - (level / 2).toNat = 0 := by omega
    have hc' : (6 : ℚ) < ((level / 2 : Int) : ℚ) := by
      have : (6 : Int) < level / 2 := by omega
      exact_mod_cast this
    rw [hn, max_eq_left (by linarith)]
    simp

/-! ## Fields that a block of `Update` leaves alone -/

@[simp] theorem paddleStep_ballX (inp : Input) (g : Game) : (paddleStep inp g).ballX = g.ballX := by
  simp only [paddleStep]; split_ifs <;> rfl

@[simp] theorem paddleStep_ballY (inp : Input) (g : Game) : (paddleStep inp g).ballY = g.ballY := by
  simp only [paddleStep]; split_ifs <;> rfl

@[simp] theorem paddleStep_ballVX (inp : Input) (g : Game) : (paddleStep inp g).ballVX = g.ballVX := by
  simp only [paddleStep]; split_ifs <;> rfl

@[simp] theorem paddleStep_ballVY (inp : Input) (g : Game) : (paddleStep inp g).ballVY = g.ballVY := by
  simp only [paddleStep]; split_ifs <;> rfl

@[simp] theorem paddleStep_paddleW (inp : Input) (g : Game) : (paddleStep inp g).paddleW = g.paddleW := by
  simp only [paddleStep]; split_ifs <;> rfl

@[simp] theorem paddleStep_bricks (inp : Input) (g : Game) : (paddleStep inp g).bricks = g.bricks := by
  simp only [paddleStep]; split_ifs <;> rfl

@[simp] theorem paddleStep_score (inp : Input) (g : Game) : (paddleStep inp g).score = g.score := by
  simp only [paddleStep]; split_ifs <;> rfl

@[simp] theorem paddleStep_lives (inp : Input) (g : Game) : (paddleStep inp g).lives = g.lives := by
  simp only [paddleStep]; split_ifs <;> rfl

@[simp] theorem paddleStep_level (inp : Input) (g : Game) : (paddleStep inp g).level = g.level := by
  simp only [paddleStep]; split_ifs <;> rfl

@[simp] theorem paddleStep_status (inp : Input) (g : Game) : (paddleStep inp g).status = g.status := by
  simp only [paddleStep]; split_ifs <;> rfl

@[simp] theorem paddleStep_rng (inp : Input) (g : Game) : (paddleStep inp g).rng = g.rng := by
  simp only [paddleStep]; split_ifs <;> rfl

@[simp] theorem moveStep_ballVX (g : Game) : (moveStep g).ballVX = g.ballVX := rfl

@[simp] theorem moveStep_ballVY (g : Game) : (moveStep g).ballVY = g.ballVY := rfl

@[simp] theorem moveStep_paddleX (g : Game) : (moveStep g).paddleX = g.paddleX := rfl

@[simp] theorem moveStep_paddleW (g : Game) : (moveStep g).paddleW = g.paddleW := rfl

@[simp] theorem moveStep_bricks (g : Game) : (moveStep g).bricks = g.bricks := rfl

@[simp] theorem moveStep_score (g : Game) : (moveStep g).score = g.score := rfl

@[simp] theorem moveStep_lives (g : Game) : (moveStep g).lives = g.lives := rfl

@[simp] theorem moveStep_level (g : Game) : (moveStep g).level = g.level := rfl

@[simp] theorem moveStep_status (g : Game) : (moveStep g).status = g.status := rfl

@[simp] theorem moveStep_rng (g : Game) : (moveStep g).rng = g.rng := rfl

@[simp] theorem wallStep_paddleX (g : Game) : (wallStep g).paddleX = g.paddleX := by
  simp only [wallStep]; split_ifs <;> rfl

@[simp] theorem wallStep_paddleW (g : Game) : (wallStep g).paddleW = g.paddleW := by
  simp only [wallStep]; split_ifs <;> rfl

@[simp] theorem wallStep_bricks (g : Game) : (wallStep g).bricks = g.bricks := by
  simp only [wallStep]; split_ifs <;> rfl

@[simp] theorem wallStep_score (g : Game) : (wallStep g).score = g.score := by
  simp only [wallStep]; split_ifs <;> rfl

@[simp] theorem wallStep_lives (g : Game) : (wallStep g).lives = g.lives := by
  simp only [wallStep]; split_ifs <;> rfl

@[simp] theorem wallStep_level (g : Game) : (wallStep g).level = g.level := by
  simp only [wallStep]; split_ifs <;> rfl

@[simp] theorem wallStep_status (g : Game) : (wallStep g).status = g.status := by
  simp only [wallStep]; split_ifs <;> rfl

@[simp] theorem wallStep_rng (g : Game) : (wallStep g).rng = g.rng := by
  simp only [wallStep]; split_ifs <;> rfl

@[simp] theorem paddleHitStep_ballX (g : Game) : (paddleHitStep g).ballX = g.ballX := by
  simp only [paddleHitStep]; split_ifs <;> rfl

@[simp] theorem paddleHitStep_paddleX (g : Game) : (paddleHitStep g).paddleX = g.paddleX := by
  simp only [paddleHitStep]; split_ifs <;> rfl

@[simp] theorem paddleHitStep_paddleW (g : Game) : (paddleHitStep g).paddleW = g.paddleW := by
  simp only [paddleHitStep]; split_ifs <;> rfl

@[simp] theorem paddleHitStep_bricks (g : Game) : (paddleHitStep g).bricks = g.bricks := by
  simp only [paddleHitStep]; split_ifs <;> rfl

@[simp] theorem paddleHitStep_score (g : Game) : (paddleHitStep g).score = g.score := by
  simp only [paddleHitStep]; split_ifs <;> rfl

@[simp] theorem paddleHitStep_lives (g : Game) : (paddleHitStep g).lives = g.lives := by
  simp only [paddleHitStep]; split_ifs <;> rfl

@[simp] theorem paddleHitStep_level (g : Game) : (paddleHitStep g).level = g.level := by
  simp only [paddleHitStep]; split_ifs <;> rfl

@[simp] theorem paddleHitStep_status (g : Game) : (paddleHitStep g).status = g.status := by
  simp only [paddleHitStep]; split_ifs <;> rfl

@[simp] theorem paddleHitStep_rng (g : Game) : (paddleHitStep g).rng = g.rng := by
  simp only [paddleHitStep]; split_ifs <;> rfl

@[simp] theorem missStep_paddleW (g : Game) : (missStep g).paddleW = g.paddleW := by
  simp only [missStep]; split_ifs <;> rfl

@[simp] theorem missStep_bricks (g : Game) : (missStep g).bricks = g.bricks := by
  simp only [missStep]; split_ifs <;> rfl

@[simp] theorem missStep_score (g : Game) : (missStep g).score = g.score := by
  simp only [missStep]; split_ifs <;> rfl

@[simp] theorem missStep_level (g : Game) : (missStep g).level = g.level := by
  simp only [missStep]; split_ifs <;> rfl

@[simp] theorem missStep_rng (g : Game) : (missStep g).rng = g.rng := by
  simp only [missStep]; split_ifs <;> rfl

@[simp] theorem brickStep_ballX (g : Game) : (brickStep g).ballX = g.ballX := rfl

@[simp] theorem brickStep_ballY (g : Game) : (brickStep g).ballY = g.ballY := rfl

@[simp] theorem brickStep_ballVX (g : Game) : (brickStep g).ballVX = g.ballVX := rfl

@[simp] theorem brickStep_paddleX (g : Game) : (brickStep g).paddleX = g.paddleX := rfl

@[simp] theorem brickStep_paddleW (g : Game) : (brickStep g).paddleW = g.paddleW := rfl

@[simp] theorem brickStep_lives (g : Game) : (brickStep g).lives = g.lives := rfl

@[simp] theorem brickStep_level (g : Game) : (brickStep g).level = g.level := rfl

@[simp] theorem brickStep_status (g : Game) : (brickStep g).status = g.status := rfl

@[simp] theorem brickStep_rng (g : Game) : (brickStep g).rng = g.rng := rfl

@[simp] theorem winStep_ballX (g : Game) : (winStep g).ballX = g.ballX := by
  simp only [winStep]; split_ifs <;> rfl

@[simp] theorem winStep_ballY (g : Game) : (winStep g).ballY = g.ballY := by
  simp only [winStep]; split_ifs <;> rfl

@[simp] theorem winStep_ballVX (g : Game) : (winStep g).ballVX = g.ballVX := by
  simp only [winStep]; split_ifs <;> rfl

@[simp] theorem winStep_ballVY (g : Game) : (winStep g).ballVY = g.ballVY := by
  simp only [winStep]; split_ifs <;> rfl

@[simp] theorem winStep_paddleX (g : Game) : (winStep g).paddleX = g.paddleX := by
  simp only [winStep]; split_ifs <;> rfl

@[simp] theorem winStep_paddleW (g : Game) : (winStep g).paddleW = g.paddleW := by
  simp only [winStep]; split_ifs <;> rfl

@[simp] theorem winStep_bricks (g : Game) : (winStep g).bricks = g.bricks := by
  simp only [winStep]; split_ifs <;> rfl

@[simp] theorem winStep_score (g : Game) : (winStep g).score = g.score := by
  simp only [winStep]; split_ifs <;> rfl

@[simp] theorem winStep_lives (g : Game) : (winStep g).lives = g.lives := by
  simp only [winStep]; split_ifs <;> rfl

@[simp] theorem winStep_level (g : Game) : (winStep g).level = g.level := by
  simp only [winStep]; split_ifs <;> rfl

@[simp] theorem winStep_rng (g : Game) : (winStep g).rng = g.rng := by
  simp only [winStep]; split_ifs <;> rfl

/-! ## The brick-collision loops -/

/-- One iteration of the inner collision loop. -/
theorem brickRowLoop_cons (x y : ℚ) (i j : Nat) (b : Brick) (bs : List Brick) (vy : ℚ) (sc : Int) :
    brickRowLoop x y i j (b :: bs) vy sc =
      (afterHit x y i j b ::
        (brickRowLoop x y i (j + 1) bs
          (if b.Visible && overlaps x y i j then -vy else vy)
          (if b.Visible && overlaps x y i j then sc + 10 else sc)).1,
       (brickRowLoop x y i (j + 1) bs
          (if b.Visible && overlaps x y i j then -vy else vy)
          (if b.Visible && overlaps x y i j then sc + 10 else sc)).2) := by
  cases hv : b.Visible <;> cases ho : overlaps x y i j <;> simp [brickRowLoop, afterHit, hv, ho]

/-- Result of the inner collision loop: every cell is tested once against the
fixed ball position; each hit flips `ballVY` and adds 10 to the score. -/
theorem brickRowLoop_spec (x y : ℚ) (i : Nat) : ∀ (row : List Brick) (j : Nat) (vy : ℚ) (sc : Int),
    (∀ n, (brickRowLoop x y i j row vy sc).1.get? n = (row.get? n).map (afterHit x y i (j + n))) ∧
    (brickRowLoop x y i j row vy sc).2.1 = (-1) ^ rowHitsFrom x y i j row * vy ∧
    (brickRowLoop x y i j row vy sc).2.2 = sc + 10 * (rowHitsFrom x y i j row : Int) := by
  intro row
  induction row with
  | nil => intro j vy sc; simp [brickRowLoop, rowHitsFrom]
  | cons b bs ih =>
    intro j vy sc
    rw [brickRowLoop_cons]
    obtain ⟨h1, h2, h3⟩ := ih (j + 1) (if b.Visible && overlaps x y i j then -vy else vy)
      (if b.Visible && overlaps x y i j then sc + 10 else sc)
    refine ⟨?_, ?_, ?_⟩
    · intro n
      cases n with
      | zero => simp
      | succ k =>
        simp only [List.get?_cons_succ]
        rw [h1 k]
        have e : j + 1 + k = j + (k + 1) := by omega
        rw [e]
    · simp only [rowHitsFrom]
      rw [h2]
      split_ifs <;> simp [pow_add]
    · simp only [rowHitsFrom]
      rw [h3]
      split_ifs <;> simp; ring

/-- Result of the nested collision loops over the rows from row `i` on. -/
theorem brickGridLoop_spec (x y : ℚ) : ∀ (rows : List (List Brick)) (i : Nat) (vy : ℚ) (sc : Int),
    (brickGridLoop x y i rows vy sc).1.length = rows.length ∧
    (∀ m n, ((brickGridLoop x y i rows vy sc).1.getD m []).get? n =
      ((rows.getD m []).get? n).map (afterHit x y (i + m) n)) ∧
    (brickGridLoop x y i rows vy sc).2.1 = (-1) ^ gridHitsFrom x y i rows * vy ∧
    (brickGridLoop x y i rows vy sc).2.2 = sc + 10 * (gridHitsFrom x y i rows : Int) := by
  intro rows
  induction rows with
  | nil => intro i vy sc; simp [brickGridLoop, gridHitsFrom]
  | cons row rows ih =>
    intro i vy sc
    obtain ⟨r1, r2, r3⟩ := brickRowLoop_spec x y i row 0 vy sc
    obtain ⟨h0, h1, h2, h3⟩ := ih (i + 1) (brickRowLoop x y i 0 row vy sc).2.1
      (brickRowLoop x y i 0 row vy sc).2.2
    simp only [brickGridLoop, gridHitsFrom]
    refine ⟨?_, ?_, ?_, ?_⟩
    · simp [h0]
    · intro m n
      cases m with
      | zero =>
        simp only [List.getD_cons_zero, Nat.add_zero]
        rw [r1 n, Nat.zero_add]
      | succ k =>
        simp only [List.getD_cons_succ]
        rw [h1 k n]
        have e : i + 1 + k = i + (k + 1) := by omega
        rw [e]
    · rw [h2, r2, pow_add]; ring
    · rw [h3, r3]; push_cast; ring

/-- The recursive hit count of a row as a sum over its columns. -/
theorem rowHitsFrom_eq_sum (x y : ℚ) (i : Nat) : ∀ (row : List Brick) (j : Nat),
    rowHitsFrom x y i j row = ∑ n ∈ Finset.range row.length,
      if hitAt x y i (j + n) (row.get? n) then 1 else 0 := by
  intro row
  induction row with
  | nil => intro j; simp [rowHitsFrom]
  | cons b bs ih =>
    intro j
    simp only [rowHitsFrom, List.length_cons]
    rw [Finset.sum_range_succ', ih (j + 1)]
    simp only [List.get?_cons_succ, List.get?_cons_zero, Nat.add_zero, hitAt]
    have e : ∀ n, j + 1 + n = j + (n + 1) := fun n => by omega
    simp only [e]
    exact add_comm _ _

/-- The recursive hit count of a grid as a sum over its cells. -/
theorem gridHitsFrom_eq_sum (x y : ℚ) : ∀ (rows : List (List Brick)) (i : Nat),
    gridHitsFrom x y i rows = ∑ m ∈ Finset.range rows.length,
      ∑ n ∈ Finset.range (rows.getD m []).length,
        if hitAt x y (i + m) n ((rows.getD m []).get? n) then 1 else 0 := by
  intro rows
  induction rows with
  | nil => intro i; simp [gridHitsFrom]
  | cons row rows ih =>
    intro i
    simp only [gridHitsFrom, List.length_cons]
    rw [Finset.sum_range_succ', ih (i + 1), rowHitsFrom_eq_sum]
    simp only [List.getD_cons_succ, List.getD_cons_zero, Nat.add_zero, Nat.zero_add]
    have e : ∀ m, i + 1 + m = i + (m + 1) := fun m => by omega
    simp only [e]
    exact add_comm _ _

/-- The hit count met by the loops is the number of hit cells of the grid. -/
theorem gridHitsFrom_zero (x y : ℚ) (grid : List (List Brick)) :
    gridHitsFrom x y 0 grid = hitCount x y grid := by
  rw [gridHitsFrom_eq_sum]
  simp only [hitCount, isHit, cellAt, Nat.zero_add]

/-! ## The win check -/

/-- The inner win-check loop ends without `break` exactly when the row has no
visible brick. -/
theorem rowCleared_iff (row : List Brick) :
    rowCleared row = true ↔ ∀ b ∈ row, b.Visible = false := by
  induction row with
  | nil => simp [rowCleared]
  | cons b bs ih =>
    cases hv : b.Visible <;> simp [rowCleared, hv, ih]

/-- The flag `allCleared` stays `true` exactly when no brick is visible. -/
theorem allCleared_iff (grid : List (List Brick)) :
    allCleared grid = true ↔ ∀ row ∈ grid, ∀ b ∈ row, b.Visible = false := by
  induction grid with
  | nil => simp [allCleared]
  | cons row rows ih =>
    by_cases hr : rowCleared row = true
    · simp only [allCleared, hr, if_true, ih, List.mem_cons, forall_eq_or_imp]
      exact ⟨fun h => ⟨(rowCleared_iff row).1 hr, h⟩, fun h => h.2⟩
    · have hr' : ¬ ∀ b ∈ row, b.Visible = false := fun h => hr ((rowCleared_iff row).2 h)
      simp only [allCleared, hr, List.mem_cons, forall_eq_or_imp]
      simp [hr']

/-! ## The blocks before the brick loop -/

/-- The blocks before the brick loop keep the grid. -/
theorem preBrick_bricks (inp : Input) (g : Game) : (preBrick inp g).bricks = g.bricks := by
  simp [preBrick]

/-- The blocks before the brick loop keep the score. -/
theorem preBrick_score (inp : Input) (g : Game) : (preBrick inp g).score = g.score := by
  simp [preBrick]

/-- The blocks before the brick loop keep the level. -/
theorem preBrick_level (inp : Input) (g : Game) : (preBrick inp g).level = g.level := by
  simp [preBrick]

/-- The blocks before the brick loop keep the paddle width. -/
theorem preBrick_paddleW (inp : Input) (g : Game) : (preBrick inp g).paddleW = g.paddleW := by
  simp [preBrick]

/-- The miss block keeps the status or sets it to GameOver. -/
theorem missStep_status_cases (g : Game) :
    (missStep g).status = g.status ∨ (missStep g).status = "gameover" := by
  simp only [missStep]
  split_ifs
  · right; rfl
  · left; rfl
  · left; rfl

/-- The blocks before the brick loop keep the status or set it to GameOver. -/
theorem preBrick_status_cases (inp : Input) (g : Game) :
    (preBrick inp g).status = g.status ∨ (preBrick inp g).status = "gameover" := by
  have h := missStep_status_cases (paddleHitStep (wallStep (moveStep (paddleStep inp g))))
  simpa [preBrick] using h

/-- In a Playing state `Update` runs the seven blocks of the simulation step. -/
theorem Update_playing (inp : Input) (g : Game) (hs : g.status = "playing") :
    Update inp g = winStep (brickStep (preBrick inp g)) := by
  unfold Update
  simp [hs]

/-! ## No brick is reached from below the grid -/

/-- A ball whose top edge is at or below `y = 140` overlaps no brick of the
five rows. -/
theorem overlaps_low (x y : ℚ) (i j : Nat) (hi : i < brickRows) (hy : 140 ≤ y - (ballRadius : ℚ)) :
    overlaps x y i j = false := by
  simp only [overlaps, decide_eq_false_iff_not, not_and, not_lt]
  intro _ _ _
  have h1 : (i : ℚ) ≤ 4 := by
    have : i ≤ 4 := by simp only [brickRows] at hi; omega
    exact_mod_cast this
  simp only [brickY, brickH, brickGap]
  push_cast
  linarith

/-- The inner collision loop changes nothing when no cell of the row overlaps. -/
theorem brickRowLoop_noHit (x y : ℚ) (i : Nat) (h : ∀ j, overlaps x y i j = false) :
    ∀ (row : List Brick) (j : Nat) (vy : ℚ) (sc : Int),
      brickRowLoop x y i j row vy sc = (row, vy, sc) := by
  intro row
  induction row with
  | nil => intro j vy sc; rfl
  | cons b bs ih =>
    intro j vy sc
    rw [brickRowLoop_cons]
    simp [h j, ih, afterHit]

/-- The nested collision loops change nothing when no cell overlaps. -/
theorem brickGridLoop_noHit (x y : ℚ) :
    ∀ (rows : List (List Brick)) (i : Nat) (vy : ℚ) (sc : Int),
      (∀ m, m < rows.length → ∀ j, overlaps x y (i + m) j = false) →
      brickGridLoop x y i rows vy sc = (rows, vy, sc) := by
  intro rows
  induction rows with
  | nil => intro i vy sc _; rfl
  | cons row rows ih =>
    intro i vy sc h
    have h0 : ∀ j, overlaps x y i j = false := fun j => by
      have := h 0 (by simp) j
      simpa using this
    have hs : ∀ m, m < rows.length → ∀ j, overlaps x y (i + 1 + m) j = false := fun m hm j => by
      have := h (m + 1) (by simpa using hm) j
      have e : i + 1 + m = i + (m + 1) := by omega
      rw [e]; exact this
    simp only [brickGridLoop]
    rw [brickRowLoop_noHit x y i h0, ih (i + 1) vy sc hs]

/-- The brick block changes nothing when the ball is below the grid. -/
theorem brickStep_low (g : Game) (hr : g.bricks.length ≤ brickRows)
    (hy : 140 ≤ g.ballY - (ballRadius : ℚ)) : brickStep g = g := by
  have h := brickGridLoop_noHit g.ballX g.ballY g.bricks 0 g.ballVY g.score
    (fun m hm j => overlaps_low _ _ _ _ (by omega) hy)
  simp only [brickStep, h]

/-! ## The paddle stays on the screen -/

/-- The paddle is on the screen after `resetLevel`. -/
theorem resetLevel_paddleInv (g : Game) : PaddleInv (resetLevel g) := by
  obtain ⟨h1, h2⟩ := paddleWidthAt_bounds g.level
  simp only [PaddleInv, resetLevel, screenWidth]
  norm_num
  refine ⟨h1, h2, ?_, ?_⟩ <;> linarith

/-- Paddle movement keeps the paddle on the screen. -/
theorem paddleStep_paddleInv (inp : Input) (g : Game) (h : PaddleInv g) :
    PaddleInv (paddleStep inp g) := by
  obtain ⟨h1, h2, h3, h4⟩ := h
  simp only [screenWidth] at h4
  simp only [PaddleInv, paddleStep, screenWidth]
  push_cast
  push_cast at h4
  split_ifs <;> (try dsimp only at *) <;> refine ⟨h1, h2, ?_, ?_⟩ <;> linarith

/-- The miss block keeps the paddle on the screen. -/
theorem missStep_paddleInv (g : Game) (h : PaddleInv g) : PaddleInv (missStep g) := by
  obtain ⟨h1, h2, h3, h4⟩ := h
  simp only [PaddleInv, missStep, screenWidth] at *
  push_cast at *
  split_ifs <;> (try dsimp only at *) <;> refine ⟨h1, h2, ?_, ?_⟩ <;> linarith

/-- Every `Update` keeps the paddle on the screen. -/
theorem Update_paddleInv (inp : Input) (g : Game) (h : PaddleInv g) :
    PaddleInv (Update inp g) := by
  unfold Update
  split_ifs
  · exact resetLevel_paddleInv _
  · exact resetLevel_paddleInv _
  · exact h
  · have hp : PaddleInv (preBrick inp g) := by
      have h1 := paddleStep_paddleInv inp g h
      have h2 : PaddleInv (paddleHitStep (wallStep (moveStep (paddleStep inp g)))) := by
        simpa [PaddleInv] using h1
      exact missStep_paddleInv _ h2
    simpa [PaddleInv] using hp

/-! ## Evaluation of the sample states -/

/-- A full or empty 5 x 10 grid has the fixed grid shape. -/
theorem gridShape_uniformGrid (v : Bool) : GridShape (uniformGrid v) := by
  simp [GridShape, uniformGrid]

/-- The wall block keeps `ballY` when the ball is not past the top wall. -/
theorem wallStep_ballY_of_ge (g : Game) (h : 0 ≤ g.ballY - (ballRadius : ℚ)) :
    (wallStep g).ballY = g.ballY := by
  simp only [wallStep]
  split_ifs <;> (try dsimp only at *) <;> first | rfl | linarith

/-- The ball of `lastBrickGame` moves to `(30, 20)` without any bounce. -/
theorem preBrick_lastBrickGame : preBrick noKeys lastBrickGame =
    { lastBrickGame with ballX := 30, ballY := 20 } := by
  simp [preBrick, missStep, paddleHitStep, wallStep, moveStep, paddleStep, noKeys, lastBrickGame,
    sampleGame, screenWidth, screenHeight, ballRadius, paddleHeight]
  norm_num

/-- The collision loops of that tick destroy the last brick. -/
theorem brickStep_lastBrickGame :
    (brickStep (preBrick noKeys lastBrickGame)).bricks = uniformGrid false := by
  rw [preBrick_lastBrickGame]
  simp [brickStep, brickGridLoop, brickRowLoop, lastBrickGame, lastBrickGrid, uniformGrid, overlaps,
    brickX, brickY, brickRows, brickCols, brickW, brickH, brickGap, ballRadius, List.replicate]
  norm_num

/-! ## The claims -/

/-- C1. In every state reachable from `NewGame` by any sequence of `Update`
calls, for any held keys and any outcomes of the random source, the paddle
lies on the screen: `0 <= paddleX` and `paddleX + paddleW <= screenWidth`. -/
theorem reachable_paddle_on_screen (g : Game) (h : Reachable g) :
    0 ≤ g.paddleX ∧ g.paddleX + g.paddleW ≤ (screenWidth : ℚ) := by
  have hinv : PaddleInv g := by
    induction h with
    | init rng => exact resetLevel_paddleInv _
    | step inp g _ ih => exact Update_paddleInv inp g ih
  exact ⟨hinv.2.2.1, hinv.2.2.2⟩

/-- Witness of C1: the state after one `Update` with the right key held. -/
theorem reachable_paddle_on_screen_witness :
    Reachable (Update { left := false, right := true, space := false } (NewGame sampleRng)) ∧
    0 ≤ (Update { left := false, right := true, space := false } (NewGame sampleRng)).paddleX ∧
    (Update { left := false, right := true, space := false } (NewGame sampleRng)).paddleX +
      (Update { left := false, right := true, space := false } (NewGame sampleRng)).paddleW ≤
        (screenWidth : ℚ) :=
  ⟨Reachable.step _ _ (Reachable.init sampleRng),
   reachable_paddle_on_screen _ (Reachable.step _ _ (Reachable.init sampleRng))⟩

/-- C2. For every Playing state and every input, `Update` leaves the grid as
the brick-collision block produced it, and the status after `Update` is Win
if and only if no brick of that grid is visible. In particular a tick that
destroys the last visible brick ends with status Win, also when the miss block
set GameOver earlier in the tick. -/
theorem Update_win_iff (inp : Input) (g : Game) (hs : g.status = "playing") :
    (Update inp g).bricks = (brickStep (preBrick inp g)).bricks ∧
    ((Update inp g).status = "win" ↔
      ∀ row ∈ (brickStep (preBrick inp g)).bricks, ∀ b ∈ row, b.Visible = false) := by
  rw [Update_playing inp g hs]
  refine ⟨by simp, ?_⟩
  rw [← allCleared_iff]
  by_cases hc : allCleared (brickStep (preBrick inp g)).bricks = true
  · simp [winStep, hc]
  · have hne : (preBrick inp g).status ≠ "win" := by
      rcases preBrick_status_cases inp g with h | h <;> rw [h]
      · rw [hs]; decide
      · decide
    simp [winStep, hc, hne]

/-- Witness of C2: the ball reaches the last visible brick and the tick ends
with status Win. -/
theorem Update_win_iff_witness :
    lastBrickGame.status = "playing" ∧
    (∃ row ∈ lastBrickGame.bricks, ∃ b ∈ row, b.Visible = true) ∧
    (Update noKeys lastBrickGame).status = "win" := by
  refine ⟨rfl, ⟨_, List.mem_cons_self _ _, _, List.mem_cons_self _ _, rfl⟩, ?_⟩
  apply (Update_win_iff noKeys lastBrickGame rfl).2.2
  rw [brickStep_lastBrickGame]
  decide

/-- C4, evaluated at a failing input. At level 2 with three lives the respawn
after a miss sets the velocity `(3.2, -3.2)`, whereas `resetLevel` sets
`(3.6, -3.6)` for the same level. -/
theorem respawn_velocity_level2 :
    missGame.status = "playing" ∧ missGame.level = 2 ∧ missGame.lives = 3 ∧
    (moveStep (paddleStep noKeys missGame)).ballY - (ballRadius : ℚ) > (screenHeight : ℚ) ∧
    (Update noKeys missGame).lives = 2 ∧
    (Update noKeys missGame).ballVX = 16 / 5 ∧ (Update noKeys missGame).ballVY = -16 / 5 ∧
    (resetLevel missGame).ballVX = 18 / 5 ∧ (resetLevel missGame).ballVY = -18 / 5 := by
  have hp : preBrick noKeys missGame =
      { missGame with ballX := 320, ballY := 240, ballVX := 16 / 5, ballVY := -16 / 5,
                      paddleX := 276, lives := 2 } := by
    simp [preBrick, missStep, paddleHitStep, wallStep, moveStep, paddleStep, noKeys, missGame,
      sampleGame, screenWidth, screenHeight, ballRadius, paddleHeight]
    norm_num
  have hb : brickStep (preBrick noKeys missGame) = preBrick noKeys missGame := by
    apply brickStep_low
    · rw [preBrick_bricks]; decide
    · rw [hp]; simp only [ballRadius]; norm_num
  have hu : Update noKeys missGame = winStep (preBrick noKeys missGame) := by
    rw [Update_playing _ _ rfl, hb]
  refine ⟨rfl, rfl, rfl, ?_, ?_, ?_, ?_, ?_, ?_⟩
  · simp [moveStep, paddleStep, noKeys, missGame, sampleGame, screenHeight, ballRadius]
    norm_num
  · rw [hu, winStep_lives, hp]
  · rw [hu, winStep_ballVX, hp]
  · rw [hu, winStep_ballVY, hp]
  · simp [resetLevel, speedIncrease, missGame, sampleGame]; norm_num
  · simp [resetLevel, speedIncrease, missGame, sampleGame]; norm_num

/-- C6. Writing `W(L)` for the paddle width `resetLevel` produces at level
`L`: for all levels `L1 <= L2` (in particular for `1 <= L1 <= L2`),
`W(L2) <= W(L1)`, and both widths lie between `6 * ballRadius = 48` and 96. -/
theorem resetLevel_paddleW_antitone (g1 g2 : Game) (h12 : g1.level ≤ g2.level) :
    (resetLevel g2).paddleW ≤ (resetLevel g1).paddleW ∧
    ((6 * ballRadius : Nat) : ℚ) ≤ (resetLevel g2).paddleW ∧
    (resetLevel g2).paddleW ≤ 96 ∧
    ((6 * ballRadius : Nat) : ℚ) ≤ (resetLevel g1).paddleW ∧
    (resetLevel g1).paddleW ≤ 96 := by
  have hb1 := paddleWidthAt_bounds g1.level
  have hb2 := paddleWidthAt_bounds g2.level
  have e : ((6 * ballRadius : Nat) : ℚ) = 48 := by simp [ballRadius]
  rw [e]
  exact ⟨paddleWidthAt_antitone _ _ h12, hb2.1, hb2.2, hb1.1, hb1.2⟩

/-- Witness of C6 at the levels 2 and 7. -/
theorem resetLevel_paddleW_antitone_witness :
    ({ sampleGame with level := 2 } : Game).level ≤ ({ sampleGame with level := 7 } : Game).level ∧
    (resetLevel { sampleGame with level := 7 }).paddleW ≤
      (resetLevel { sampleGame with level := 2 }).paddleW ∧
    ((6 * ballRadius : Nat) : ℚ) ≤ (resetLevel { sampleGame with level := 7 }).paddleW ∧
    (resetLevel { sampleGame with level := 2 }).paddleW ≤ 96 :=
  ⟨by decide,
    (resetLevel_paddleW_antitone { sampleGame with level := 2 } { sampleGame with level := 7 }
      (by decide)).1,
    (resetLevel_paddleW_antitone { sampleGame with level := 2 } { sampleGame with level := 7 }
      (by decide)).2.1,
    (resetLevel_paddleW_antitone { sampleGame with level := 2 } { sampleGame with level := 7 }
      (by decide)).2.2.2.2⟩

/-- C7. For every level `L >= 1` the paddle width after `resetLevel` is
`max 48 (96 - 8 * floor (L / 2))`, whatever the paddle width was before. -/
theorem resetLevel_paddleW_max (g : Game) (hL : 1 ≤ g.level) :
    (resetLevel g).paddleW = max 48 (96 - 8 * ((g.level / 2 : Int) : ℚ)) :=
  paddleWidthAt_max g.level hL

/-- Witness of C7 at level 5, started from a paddle of width 10. -/
theorem resetLevel_paddleW_max_witness :
    (1 : Int) ≤ ({ sampleGame with level := 5, paddleW := 10 } : Game).level ∧
    (resetLevel { sampleGame with level := 5, paddleW := 10 }).paddleW =
      max 48 (96 - 8 * (((5 : Int) / 2 : Int) : ℚ)) :=
  ⟨by decide, resetLevel_paddleW_max { sampleGame with level := 5, paddleW := 10 } (by decide)⟩

/-- C8. In a state with status GameOver or Win, an `Update` without the space
key held returns the state unchanged, whatever the left and right keys are. -/
theorem Update_frozen (inp : Input) (g : Game)
    (hs : g.status = "gameover" ∨ g.status = "win") (hk : inp.space = false) :
    Update inp g = g := by
  unfold Update
  rcases hs with h | h <;> simp [h, hk]

/-- Witness of C8: a GameOver state with both arrow keys held. -/
theorem Update_frozen_witness :
    ({ sampleGame with status := "gameover", lives := 0 } : Game).status = "gameover" ∧
    Update { left := true, right := true, space := false }
        { sampleGame with status := "gameover", lives := 0 } =
      { sampleGame with status := "gameover", lives := 0 } :=
  ⟨rfl, Update_frozen _ _ (Or.inl rfl) rfl⟩

/-- C9, counterexample. Two last-life Playing states whose ball is below the
bottom edge after the move. In the first the paddle block lifts the ball back
onto the paddle, so no life is lost and the status stays Playing. In the
second no brick is visible, so the tick ends with status Win, not GameOver. -/
theorem last_life_miss_counterexample :
    (caughtGame.status = "playing" ∧ caughtGame.lives = 1 ∧
      (moveStep (paddleStep leftKey caughtGame)).ballY - (ballRadius : ℚ) > (screenHeight : ℚ) ∧
      (Update leftKey caughtGame).lives = 1 ∧ (Update leftKey caughtGame).status = "playing") ∧
    (clearedGame.status = "playing" ∧ clearedGame.lives = 1 ∧
      (moveStep (paddleStep noKeys clearedGame)).ballY - (ballRadius : ℚ) > (screenHeight : ℚ) ∧
      (Update noKeys clearedGame).lives = 0 ∧ (Update noKeys clearedGame).status = "win") := by
  have hp1 : preBrick leftKey caughtGame =
      { caughtGame with ballX := 317, ballY := 456, ballVX := 3 + (317 - (315 + 96 / 2)) * 0.1,
                        ballVY := -3, paddleX := 315 } := by
    simp [preBrick, missStep, paddleHitStep, wallStep, moveStep, paddleStep, leftKey, caughtGame,
      sampleGame, screenWidth, screenHeight, ballRadius, paddleHeight]
    norm_num
  have hb1 : brickStep (preBrick leftKey caughtGame) = preBrick leftKey caughtGame := by
    apply brickStep_low
    · rw [preBrick_bricks]; decide
    · rw [hp1]; simp only [ballRadius]; norm_num
  have hu1 : Update leftKey caughtGame = preBrick leftKey caughtGame := by
    rw [Update_playing _ _ rfl, hb1]
    have : allCleared (preBrick leftKey caughtGame).bricks = false := by
      rw [preBrick_bricks]; decide
    simp [winStep, this]
  have hp2 : preBrick noKeys clearedGame =
      { clearedGame with ballX := 100 + 3.6, ballY := 490 + 3.6, lives := 0, status := "gameover" } := by
    simp [preBrick, missStep, paddleHitStep, wallStep, moveStep, paddleStep, noKeys, clearedGame,
      sampleGame, screenWidth, screenHeight, ballRadius, paddleHeight]
    norm_num
  have hb2 : brickStep (preBrick noKeys clearedGame) = preBrick noKeys clearedGame := by
    apply brickStep_low
    · rw [preBrick_bricks]; decide
    · rw [hp2]; simp only [ballRadius]; norm_num
  have hu2 : Update noKeys clearedGame = winStep (preBrick noKeys clearedGame) := by
    rw [Update_playing _ _ rfl, hb2]
  have hw2 : allCleared (preBrick noKeys clearedGame).bricks = true := by
    rw [preBrick_bricks]; decide
  refine ⟨⟨rfl, rfl, ?_, ?_, ?_⟩, ⟨rfl, rfl, ?_, ?_, ?_⟩⟩
  · simp [moveStep, paddleStep, leftKey, caughtGame, sampleGame, screenHeight, ballRadius]
    norm_num
  · rw [hu1, hp1]; rfl
  · rw [hu1, hp1]; rfl
  · simp [moveStep, paddleStep, noKeys, clearedGame, sampleGame, screenHeight, ballRadius]
    norm_num
  · rw [hu2, winStep_lives, hp2]
  · rw [hu2]; simp [winStep, hw2]

/-- C9, amended. For every Playing state with the 5 x 10 grid and `lives = 1`
and every input such that after the move `ballY - ballRadius > screenHeight`
and the ball centre is not strictly inside the horizontal span of the paddle
(so the paddle block does not lift the ball back), `Update` yields `lives = 0`
and an unchanged score; the status is GameOver when at least one brick is
visible, and Win when none is. -/
theorem Update_last_life_miss (inp : Input) (g : Game)
    (hs : g.status = "playing") (hl : g.lives = 1) (hg : GridShape g.bricks)
    (hy : g.ballY + g.ballVY - (ballRadius : ℚ) > (screenHeight : ℚ))
    (hc : ¬ ((wallStep (moveStep (paddleStep inp g))).ballX > (paddleStep inp g).paddleX ∧
             (wallStep (moveStep (paddleStep inp g))).ballX <
               (paddleStep inp g).paddleX + g.paddleW)) :
    (Update inp g).lives = 0 ∧ (Update inp g).score = g.score ∧
    ((∃ row ∈ g.bricks, ∃ b ∈ row, b.Visible = true) → (Update inp g).status = "gameover") ∧
    ((∀ row ∈ g.bricks, ∀ b ∈ row, b.Visible = false) → (Update inp g).status = "win") := by
  set m := wallStep (moveStep (paddleStep inp g)) with hm
  have hmy : m.ballY = g.ballY + g.ballVY := by
    have h0 : (moveStep (paddleStep inp g)).ballY = g.ballY + g.ballVY := by
      simp [moveStep]
    rw [hm, wallStep_ballY_of_ge, h0]
    rw [h0]
    simp only [ballRadius, screenHeight] at hy ⊢
    push_cast at hy ⊢
    linarith
  have hmx : m.paddleX = (paddleStep inp g).paddleX := by simp [hm]
  have hmw : m.paddleW = g.paddleW := by simp [hm]
  have hph : paddleHitStep m = m := by
    simp only [paddleHitStep]
    rw [if_neg]
    rintro ⟨_, h2, h3⟩
    rw [hmx] at h2 h3
    rw [hmw] at h3
    exact hc ⟨h2, h3⟩
  have hml : m.lives = 1 := by simp [hm, hl]
  have hp : preBrick inp g = { m with lives := 0, status := "gameover" } := by
    have hcond : m.ballY - (ballRadius : ℚ) > (screenHeight : ℚ) := by rw [hmy]; exact hy
    simp only [preBrick, ← hm, hph, missStep]
    rw [if_pos hcond]
    simp [hml]
  have hb : brickStep (preBrick inp g) = preBrick inp g := by
    apply brickStep_low
    · rw [preBrick_bricks, hg.1]
    · rw [hp]
      show 140 ≤ m.ballY - (ballRadius : ℚ)
      rw [hmy]
      simp only [ballRadius, screenHeight] at hy ⊢
      push_cast at hy ⊢
      linarith
  have hu : Update inp g = winStep (preBrick inp g) := by
    rw [Update_playing inp g hs, hb]
  have hbr : (preBrick inp g).bricks = g.bricks := preBrick_bricks inp g
  refine ⟨?_, ?_, ?_, ?_⟩
  · rw [hu, winStep_lives, hp]
  · rw [hu, winStep_score, preBrick_score]
  · rintro ⟨row, hrow, b, hb', hv⟩
    have hnc : ¬ allCleared (preBrick inp g).bricks = true := by
      rw [hbr, allCleared_iff]
      intro hall
      have := hall row hrow b hb'
      rw [hv] at this
      exact Bool.noConfusion this
    rw [hu]
    simp only [winStep, if_neg hnc]
    rw [hp]
  · intro hall
    have hcl : allCleared (preBrick inp g).bricks = true := by
      rw [hbr, allCleared_iff]; exact hall
    rw [hu]
    simp only [winStep, if_pos hcl]

/-- Witness of C9 (amended): the last life is lost at level 2 with a full grid. -/
theorem Update_last_life_miss_witness :
    ({ missGame with lives := 1 } : Game).status = "playing" ∧
    ({ missGame with lives := 1 } : Game).lives = 1 ∧
    (Update noKeys { missGame with lives := 1 }).lives = 0 ∧
    (Update noKeys { missGame with lives := 1 }).score = 120 ∧
    (Update noKeys { missGame with lives := 1 }).status = "gameover" := by
  have h := Update_last_life_miss noKeys { missGame with lives := 1 } rfl rfl
    (gridShape_uniformGrid true)
    (by simp [missGame, sampleGame, ballRadius, screenHeight]; norm_num)
    (by simp [wallStep, moveStep, paddleStep, noKeys, missGame, sampleGame, ballRadius, screenWidth]
        norm_num)
  refine ⟨rfl, rfl, h.1, h.2.1, h.2.2.1 ?_⟩
  exact ⟨_, List.mem_cons_self _ _, _, List.mem_cons_self _ _, rfl⟩

/-! ## The grid generated by `resetLevel` -/

/-- A draw of `Float64` lies in `[0, 1)`. -/
theorem Float64_range (r : Rng) : 0 ≤ r.Float64.1 ∧ r.Float64.1 < 1 := by
  simp only [Rng.Float64]
  have h : r.outcomes r.pos % 2 ^ 53 < 2 ^ 53 := Nat.mod_lt _ (by positivity)
  have hq : ((r.outcomes r.pos % 2 ^ 53 : Nat) : ℚ) < 2 ^ 53 := by exact_mod_cast h
  constructor
  · positivity
  · rw [div_lt_one (by positivity)]; exact hq

/-- Result of the inner fill loop: `n` bricks, four outcomes consumed per
brick, visibility decided by the first outcome of the cell, alpha 255. -/
theorem fillRow_spec (level : Int) : ∀ (n : Nat) (r : Rng),
    (fillRow level n r).1.length = n ∧
    (fillRow level n r).2 = { r with pos := r.pos + 4 * n } ∧
    ∀ j, j < n → ∃ b, (fillRow level n r).1.get? j = some b ∧
      b.Visible = (decide ((Rng.Float64 { r with pos := r.pos + 4 * j }).1 > 0.2) ||
        decide (level = 1)) ∧
      b.Color.A = 255 := by
  intro n
  induction n with
  | zero => intro r; simp [fillRow]
  | succ n ih =>
    intro r
    obtain ⟨h1, h2, h3⟩ := ih (((r.Float64.2.Intn 256).2.Intn 256).2.Intn 256).2
    have hpos : (((r.Float64.2.Intn 256).2.Intn 256).2.Intn 256).2 =
        { r with pos := r.pos + 4 } := by
      simp [Rng.Float64, Rng.Intn]
    refine ⟨?_, ?_, ?_⟩
    · simp [fillRow, h1]
    · simp only [fillRow]
      rw [h2, hpos]
      simp only [Rng.mk.injEq, true_and]
      omega
    · intro j hj
      cases j with
      | zero =>
        simp only [fillRow, List.get?_cons_zero]
        refine ⟨_, rfl, ?_, rfl⟩
        simp
      | succ k =>
        obtain ⟨b, hb1, hb2, hb3⟩ := h3 k (by omega)
        refine ⟨b, ?_, ?_, hb3⟩
        · simpa [fillRow] using hb1
        · rw [hb2, hpos]
          have e : r.pos + 4 + 4 * k = r.pos + 4 * (k + 1) := by omega
          simp only [e]

/-- Result of the outer fill loop: `m` rows, each filled by the inner loop on
the source advanced by `4 * brickCols` outcomes per earlier row. -/
theorem fillGrid_spec (level : Int) : ∀ (m : Nat) (r : Rng),
    (fillGrid level m r).1.length = m ∧
    (fillGrid level m r).2 = { r with pos := r.pos + 4 * brickCols * m } ∧
    ∀ i, i < m → (fillGrid level m r).1.getD i [] =
      (fillRow level brickCols { r with pos := r.pos + 4 * brickCols * i }).1 := by
  intro m
  induction m with
  | zero => intro r; simp [fillGrid]
  | succ m ih =>
    intro r
    obtain ⟨h1, h2, h3⟩ := ih (fillRow level brickCols r).2
    have hpos := (fillRow_spec level brickCols r).2.1
    refine ⟨?_, ?_, ?_⟩
    · simp [fillGrid, h1]
    · simp only [fillGrid]
      rw [h2, hpos]
      simp only [Rng.mk.injEq, true_and]
      ring
    · intro i hi
      cases i with
      | zero => simp [fillGrid]
      | succ k =>
        simp only [fillGrid, List.getD_cons_succ]
        rw [h3 k (by omega), hpos]
        have e : r.pos + 4 * brickCols + 4 * brickCols * k = r.pos + 4 * brickCols * (k + 1) := by
          ring
        simp only [e]

/-- The grid generated by `resetLevel`, cell by cell. -/
theorem fillGrid_cell (level : Int) (r : Rng) (i j : Nat) (hi : i < brickRows)
    (hj : j < brickCols) :
    ∃ b, cellAt (fillGrid level brickRows r).1 i j = some b ∧
      b.Visible = (decide (cellDraw r i j > 0.2) || decide (level = 1)) ∧
      b.Color.A = 255 := by
  obtain ⟨_, _, h3⟩ := fillGrid_spec level brickRows r
  obtain ⟨_, _, g3⟩ := fillRow_spec level brickCols { r with pos := r.pos + 4 * brickCols * i }
  obtain ⟨b, hb1, hb2, hb3⟩ := g3 j hj
  refine ⟨b, ?_, ?_, hb3⟩
  · simp only [cellAt]
    rw [h3 i hi]; exact hb1
  · rw [hb2]
    simp only [cellDraw]
    have e : r.pos + 4 * brickCols * i + 4 * j = r.pos + 4 * (brickCols * i + j) := by ring
    simp only [e]

/-- The grid generated by `resetLevel` has the fixed 5 x 10 shape. -/
theorem fillGrid_shape (level : Int) (r : Rng) : GridShape (fillGrid level brickRows r).1 := by
  obtain ⟨h1, _, h3⟩ := fillGrid_spec level brickRows r
  refine ⟨h1, ?_⟩
  intro row hrow
  obtain ⟨i, hi, rfl⟩ := List.getElem_of_mem hrow
  have hi' : i < brickRows := by rw [h1] at hi; exact hi
  have := h3 i hi'
  rw [List.getD_eq_getElem _ _ hi] at this
  rw [this]
  exact (fillRow_spec level brickCols _).1

/-- Every brick of a grid sits in one of its cells. -/
theorem mem_grid_cellAt (grid : List (List Brick)) (row : List Brick) (b : Brick)
    (hrow : row ∈ grid) (hb : b ∈ row) :
    ∃ i j, i < grid.length ∧ j < row.length ∧ grid.getD i [] = row ∧ cellAt grid i j = some b := by
  obtain ⟨i, hi, hri⟩ := List.getElem_of_mem hrow
  obtain ⟨j, hj, hbj⟩ := List.getElem_of_mem hb
  have e : grid.getD i [] = row := by rw [List.getD_eq_getElem _ _ hi]; exact hri
  refine ⟨i, j, hi, hj, e, ?_⟩
  simp only [cellAt, e]
  rw [List.get?_eq_getElem?, List.getElem?_eq_getElem hj, hbj]

/-! ## The wall, paddle-collision and miss blocks -/

/-- The paddle-collision block changes nothing when its test fails. -/
theorem paddleHitStep_of_not (g : Game) (h : ¬ paddleCollides g) : paddleHitStep g = g := by
  unfold paddleCollides at h
  simp only [paddleHitStep]
  rw [if_neg h]

/-- The effect of the paddle-collision block when its test holds. -/
theorem paddleHitStep_of_hit (g : Game) (h : paddleCollides g) :
    paddleHitStep g =
      { g with
        ballY := ((screenHeight - paddleHeight : Nat) : ℚ) - (ballRadius : ℚ)
        ballVY := -g.ballVY
        ballVX := g.ballVX + (g.ballX - (g.paddleX + g.paddleW / 2)) * 0.1 } := by
  unfold paddleCollides at h
  simp only [paddleHitStep]
  rw [if_pos h]

/-- The miss block changes nothing when its test fails. -/
theorem missStep_of_not (g : Game) (h : ¬ ballMissed g) : missStep g = g := by
  unfold ballMissed at h
  simp only [missStep]
  rw [if_neg h]

/-- Pointwise related lists have the same length. -/
theorem length_eq_of_pointwise {α β : Type} (l1 : List β) (l2 : List α) (f : Nat → α → β)
    (h : ∀ n, l1.get? n = (l2.get? n).map (f n)) : l1.length = l2.length := by
  apply le_antisymm
  · by_contra hlt
    have hlt' : l2.length < l1.length := by omega
    have h1 := h l2.length
    rw [List.get?_eq_none.2 (le_refl _)] at h1
    rw [List.get?_eq_get hlt'] at h1
    simp at h1
  · by_contra hlt
    have hlt' : l1.length < l2.length := by omega
    have h1 := h l1.length
    rw [List.get?_eq_none.2 (le_refl _)] at h1
    rw [List.get?_eq_get hlt'] at h1
    simp at h1

/-- The grid after `Update` in a Playing state, cell by cell, with the final
`ballVY` and score. -/
theorem Update_playing_bricks (inp : Input) (g : Game) (hs : g.status = "playing") :
    (Update inp g).bricks.length = g.bricks.length ∧
    (∀ i j, cellAt (Update inp g).bricks i j =
      (cellAt g.bricks i j).map (afterHit (preBrick inp g).ballX (preBrick inp g).ballY i j)) ∧
    (Update inp g).ballVY =
      (-1) ^ hitCount (preBrick inp g).ballX (preBrick inp g).ballY g.bricks *
        (preBrick inp g).ballVY := by
  rw [Update_playing inp g hs]
  set p := preBrick inp g with hp
  obtain ⟨h0, h1, h2, _⟩ := brickGridLoop_spec p.ballX p.ballY p.bricks 0 p.ballVY p.score
  have hb : p.bricks = g.bricks := preBrick_bricks inp g
  have e2 : (brickStep p).bricks = (brickGridLoop p.ballX p.ballY 0 p.bricks p.ballVY p.score).1 :=
    rfl
  have e3 : (brickStep p).ballVY =
      (brickGridLoop p.ballX p.ballY 0 p.bricks p.ballVY p.score).2.1 := rfl
  refine ⟨?_, ?_, ?_⟩
  · rw [winStep_bricks, e2, h0, hb]
  · intro i j
    rw [winStep_bricks, e2]
    have := h1 i j
    rw [Nat.zero_add, hb] at this
    simpa [cellAt, hb] using this
  · rw [winStep_ballVY, e3, h2, gridHitsFrom_zero, hb]

/-! ## The ball position at the miss test -/

/-- The wall block leaves `ballY` at the moved value or puts it on the top wall. -/
theorem afterWall_ballY_cases (inp : Input) (g : Game) :
    (afterWall inp g).ballY = g.ballY + g.ballVY ∨
    (afterWall inp g).ballY = (ballRadius : ℚ) := by
  have h0 : (moveStep (paddleStep inp g)).ballY = g.ballY + g.ballVY := by simp [moveStep]
  by_cases h : (moveStep (paddleStep inp g)).ballY - (ballRadius : ℚ) < 0
  · right
    simp only [afterWall, wallStep]
    split_ifs <;> rfl
  · left
    rw [← h0]
    exact wallStep_ballY_of_ge _ (not_lt.1 h)

/-- The blocks before the paddle collision keep the paddle width, the lives,
the level and the status, and only the paddle block moves the paddle. -/
theorem afterWall_frame (inp : Input) (g : Game) :
    (afterWall inp g).paddleX = (paddleStep inp g).paddleX ∧
    (afterWall inp g).paddleW = g.paddleW ∧
    (afterWall inp g).lives = g.lives ∧
    (afterWall inp g).level = g.level ∧
    (afterWall inp g).status = g.status ∧
    (afterWall inp g).score = g.score ∧
    (afterWall inp g).bricks = g.bricks := by
  simp [afterWall]

/-- When the miss test fires, the moved ball was below the bottom edge and the
paddle block did not touch it. -/
theorem missed_imp (inp : Input) (g : Game) (h : ballMissed (paddleHitStep (afterWall inp g))) :
    g.ballY + g.ballVY - (ballRadius : ℚ) > (screenHeight : ℚ) ∧
    paddleHitStep (afterWall inp g) = afterWall inp g := by
  by_cases hc : paddleCollides (afterWall inp g)
  · exfalso
    rw [paddleHitStep_of_hit _ hc] at h
    simp only [ballMissed, screenHeight, paddleHeight, ballRadius] at h
    norm_num at h
  · have hq := paddleHitStep_of_not _ hc
    rw [hq] at h
    refine ⟨?_, hq⟩
    rcases afterWall_ballY_cases inp g with e | e
    · simp only [ballMissed] at h
      rw [e] at h; exact h
    · exfalso
      simp only [ballMissed] at h
      rw [e] at h
      simp only [screenHeight, ballRadius] at h
      norm_num at h

/-- The miss test fires when the moved ball is below the bottom edge and its
centre is not strictly inside the paddle span. -/
theorem missed_of_low (inp : Input) (g : Game)
    (hy : g.ballY + g.ballVY - (ballRadius : ℚ) > (screenHeight : ℚ))
    (hc : ¬ ((afterWall inp g).ballX > (paddleStep inp g).paddleX ∧
             (afterWall inp g).ballX < (paddleStep inp g).paddleX + g.paddleW)) :
    ballMissed (paddleHitStep (afterWall inp g)) ∧
    paddleHitStep (afterWall inp g) = afterWall inp g := by
  obtain ⟨hx, hw, _⟩ := afterWall_frame inp g
  have hnc : ¬ paddleCollides (afterWall inp g) := by
    rintro ⟨_, h2, h3⟩
    rw [hx] at h2 h3
    rw [hw] at h3
    exact hc ⟨h2, h3⟩
  have hq := paddleHitStep_of_not _ hnc
  refine ⟨?_, hq⟩
  rw [hq]
  rcases afterWall_ballY_cases inp g with e | e
  · simp only [ballMissed]; rw [e]; exact hy
  · exfalso
    have h0 : (moveStep (paddleStep inp g)).ballY = g.ballY + g.ballVY := by simp [moveStep]
    have : (afterWall inp g).ballY = g.ballY + g.ballVY := by
      rw [← h0]
      apply wallStep_ballY_of_ge
      rw [h0]
      simp only [screenHeight, ballRadius] at hy ⊢
      push_cast at hy ⊢
      linarith
    rw [this] at e
    rw [e] at hy
    simp only [screenHeight, ballRadius] at hy
    norm_num at hy

/-! ## Evaluation of further sample states -/

/-- The ball of `caughtGameFull` is lifted back onto the paddle. -/
theorem preBrick_caughtGameFull : preBrick leftKey caughtGameFull =
    { caughtGameFull with ballX := 317, ballY := 456,
                          ballVX := 3 + (317 - (315 + 96 / 2)) * 0.1,
                          ballVY := -3, paddleX := 315 } := by
  simp [preBrick, missStep, paddleHitStep, wallStep, moveStep, paddleStep, leftKey, caughtGameFull,
    caughtGame, sampleGame, screenWidth, screenHeight, ballRadius, paddleHeight]
  norm_num

/-! ## A grid without visible bricks -/

/-- The inner collision loop changes nothing on a row without visible brick. -/
theorem brickRowLoop_cleared (x y : ℚ) (i : Nat) :
    ∀ (row : List Brick) (j : Nat) (vy : ℚ) (sc : Int), rowCleared row = true →
      brickRowLoop x y i j row vy sc = (row, vy, sc) := by
  intro row
  induction row with
  | nil => intro j vy sc _; rfl
  | cons b bs ih =>
    intro j vy sc h
    have hb : b.Visible = false := (rowCleared_iff _).1 h b (List.mem_cons_self _ _)
    have hbs : rowCleared bs = true :=
      (rowCleared_iff _).2 (fun c hc => (rowCleared_iff _).1 h c (List.mem_cons_of_mem _ hc))
    rw [brickRowLoop_cons]
    simp [hb, ih (j + 1) vy sc hbs, afterHit]

/-- The nested collision loops change nothing on a grid without visible brick. -/
theorem brickGridLoop_cleared (x y : ℚ) :
    ∀ (rows : List (List Brick)) (i : Nat) (vy : ℚ) (sc : Int), allCleared rows = true →
      brickGridLoop x y i rows vy sc = (rows, vy, sc) := by
  intro rows
  induction rows with
  | nil => intro i vy sc _; rfl
  | cons row rows ih =>
    intro i vy sc h
    have hall := (allCleared_iff _).1 h
    have hr : rowCleared row = true := (rowCleared_iff _).2 (hall row (List.mem_cons_self _ _))
    have hrs : allCleared rows = true :=
      (allCleared_iff _).2 (fun r hr' => hall r (List.mem_cons_of_mem _ hr'))
    simp only [brickGridLoop]
    rw [brickRowLoop_cleared x y i row 0 vy sc hr, ih (i + 1) vy sc hrs]

/-- The brick block changes nothing on a grid without visible brick. -/
theorem brickStep_cleared (g : Game) (h : allCleared g.bricks = true) : brickStep g = g := by
  have e := brickGridLoop_cleared g.ballX g.ballY g.bricks 0 g.ballVY g.score h
  simp only [brickStep, e]

/-! ## The invariant on lives and status -/

/-- In a Playing state `Update` keeps the fixed grid shape. -/
theorem Update_playing_gridShape (inp : Input) (g : Game) (hs : g.status = "playing")
    (hg : GridShape g.bricks) : GridShape (Update inp g).bricks := by
  obtain ⟨h0, h1, _⟩ := Update_playing_bricks inp g hs
  obtain ⟨hr, hc⟩ := hg
  refine ⟨by rw [h0, hr], ?_⟩
  intro row hrow
  obtain ⟨i, hi, rfl⟩ := List.getElem_of_mem hrow
  have hi' : i < g.bricks.length := by rw [← h0]; exact hi
  have e : ((Update inp g).bricks.getD i []).length = (g.bricks.getD i []).length :=
    length_eq_of_pointwise _ _
      (fun j => afterHit (preBrick inp g).ballX (preBrick inp g).ballY i j) (fun j => h1 i j)
  rw [List.getD_eq_getElem _ _ hi, List.getD_eq_getElem _ _ hi'] at e
  rw [e]
  exact hc _ (List.getElem_mem _)

/-- The speed factor of a level from 1 on is at least 1. -/
theorem speedIncrease_ge (level : Int) (h : 1 ≤ level) : 1 ≤ speedIncrease level := by
  have hq : (0 : ℚ) ≤ ((level - 1 : Int) : ℚ) := by
    have : (0 : Int) ≤ level - 1 := by omega
    exact_mod_cast this
  simp only [speedIncrease]
  have : (0 : ℚ) ≤ ((level - 1 : Int) : ℚ) * 0.2 := mul_nonneg hq (by norm_num)
  linarith

/-- After `resetLevel` the invariant holds when lives and level are in range. -/
theorem resetLevel_livesInv (g : Game) (h1 : 1 ≤ g.lives) (h3 : g.lives ≤ 3)
    (hL : 1 ≤ g.level) : LivesInv (resetLevel g) := by
  have hsp := speedIncrease_ge g.level hL
  refine ⟨?_, h3, hL, fillGrid_shape g.level g.rng, Or.inl rfl, fun _ => h1, ?_, fun _ => h1, ?_⟩
  · show 0 ≤ g.lives
    omega
  · intro h
    have h' : ("playing" : String) = "gameover" := h
    exact absurd h' (by decide)
  · intro _ _
    simp only [resetLevel, screenHeight, ballRadius]
    norm_num
    linarith

/-- The miss block on the last life. -/
theorem missStep_last (g : Game) (hm : ballMissed g) (hl : g.lives - 1 ≤ 0) :
    missStep g = { g with lives := g.lives - 1, status := "gameover" } := by
  unfold ballMissed at hm
  simp only [missStep]
  rw [if_pos hm, if_pos hl]

/-- The miss block with lives to spare keeps the status. -/
theorem missStep_spare (g : Game) (hm : ballMissed g) (hl : ¬ g.lives - 1 ≤ 0) :
    (missStep g).lives = g.lives - 1 ∧ (missStep g).status = g.status := by
  unfold ballMissed at hm
  simp only [missStep]
  rw [if_pos hm, if_neg hl]
  exact ⟨rfl, rfl⟩

/-- In a Playing state satisfying the invariant, the blocks before the brick
loop either keep the status Playing with at least one life, or lose the last
life, in which case the rest of the tick changes nothing more. -/
theorem preBrick_lives_cases (inp : Input) (g : Game) (hinv : LivesInv g)
    (hs : g.status = "playing") :
    ((preBrick inp g).status = "playing" ∧ 1 ≤ (preBrick inp g).lives ∧
      (preBrick inp g).lives ≤ 3) ∨
    ((preBrick inp g).status = "gameover" ∧ (preBrick inp g).lives = 0 ∧
      Update inp g = preBrick inp g) := by
  obtain ⟨_, h3, _, hg, _, hp1, _, _, hfresh⟩ := hinv
  have h1 := hp1 hs
  obtain ⟨_, _, hlv, _, hst, _, hbr⟩ := afterWall_frame inp g
  by_cases hm : ballMissed (paddleHitStep (afterWall inp g))
  · obtain ⟨hy, hq⟩ := missed_imp inp g hm
    rw [hq] at hm
    have hp : preBrick inp g = missStep (afterWall inp g) := by
      show missStep (paddleHitStep (afterWall inp g)) = _
      rw [hq]
    by_cases hl : (afterWall inp g).lives - 1 ≤ 0
    · right
      have hpe := missStep_last _ hm hl
      rw [← hp] at hpe
      have hlives : (preBrick inp g).lives = 0 := by
        rw [hpe]
        show (afterWall inp g).lives - 1 = 0
        rw [hlv] at hl ⊢
        omega
      have hbY : (preBrick inp g).ballY = (afterWall inp g).ballY := by rw [hpe]
      have hb : brickStep (preBrick inp g) = preBrick inp g := by
        apply brickStep_low
        · rw [preBrick_bricks, hg.1]
        · rw [hbY]
          unfold ballMissed at hm
          simp only [screenHeight, ballRadius] at hm ⊢
          push_cast at hm ⊢
          linarith
      have hnc : ¬ allCleared (preBrick inp g).bricks = true := by
        rw [preBrick_bricks]
        intro hc
        have := hfresh hs hc
        linarith
      refine ⟨by rw [hpe], hlives, ?_⟩
      rw [Update_playing inp g hs, hb]
      simp only [winStep, if_neg hnc]
    · left
      obtain ⟨e1, e2⟩ := missStep_spare _ hm hl
      rw [← hp] at e1 e2
      refine ⟨by rw [e2, hst, hs], ?_, ?_⟩
      · rw [e1]; omega
      · rw [e1, hlv]; omega
  · left
    have hp : preBrick inp g = paddleHitStep (afterWall inp g) := by
      show missStep (paddleHitStep (afterWall inp g)) = _
      rw [missStep_of_not _ hm]
    refine ⟨?_, ?_, ?_⟩
    · rw [hp, paddleHitStep_status, hst, hs]
    · rw [hp, paddleHitStep_lives, hlv]; exact h1
    · rw [hp, paddleHitStep_lives, hlv]; exact h3

/-- Every `Update` keeps the invariant on lives and status. -/
theorem Update_livesInv (inp : Input) (g : Game) (hinv : LivesInv g) :
    LivesInv (Update inp g) := by
  obtain ⟨h0, h3, hL, hg, hst, hp1, hg0, hw1, hfresh⟩ := hinv
  rcases hst with hs | hs | hs
  · -- Playing
    have hinv : LivesInv g := ⟨h0, h3, hL, hg, Or.inl hs, hp1, hg0, hw1, hfresh⟩
    have hshape := Update_playing_gridShape inp g hs hg
    rcases preBrick_lives_cases inp g hinv hs with ⟨ps, pl1, pl3⟩ | ⟨ps, pl0, hu⟩
    · have hu := Update_playing inp g hs
      have hlv : (Update inp g).lives = (preBrick inp g).lives := by rw [hu]; simp
      have hlev : (Update inp g).level = g.level := by rw [hu]; simp [preBrick_level]
      have hstat : (Update inp g).status = "win" ∨
          ((Update inp g).status = "playing" ∧ allCleared (Update inp g).bricks = false) := by
        rw [hu]
        by_cases hc : allCleared (brickStep (preBrick inp g)).bricks = true
        · left; simp [winStep, hc]
        · right
          simp only [winStep, if_neg hc]
          exact ⟨by rw [brickStep_status, ps], by simpa using hc⟩
      refine ⟨by omega, by omega, by omega, hshape, ?_, fun _ => by omega, ?_, fun _ => by omega, ?_⟩
      · rcases hstat with h | ⟨h, _⟩
        · exact Or.inr (Or.inr h)
        · exact Or.inl h
      · intro h
        rcases hstat with h' | ⟨h', _⟩
        · rw [h'] at h; exact absurd h (by decide)
        · rw [h'] at h; exact absurd h (by decide)
      · intro h hc
        rcases hstat with h' | ⟨_, h'⟩
        · rw [h'] at h; exact absurd h (by decide)
        · rw [h'] at hc; exact absurd hc (by decide)
    · have hlev : (Update inp g).level = g.level := by rw [hu, preBrick_level]
      refine ⟨by rw [hu]; omega, by rw [hu]; omega, by omega, hshape, ?_, ?_, ?_, ?_, ?_⟩
      · exact Or.inr (Or.inl (by rw [hu]; exact ps))
      · intro h; rw [hu, ps] at h; exact absurd h (by decide)
      · intro _; rw [hu]; exact pl0
      · intro h; rw [hu, ps] at h; exact absurd h (by decide)
      · intro h; rw [hu, ps] at h; exact absurd h (by decide)
  · -- GameOver
    have hne : g.status ≠ "win" := by rw [hs]; decide
    by_cases hk : inp.space = true
    · have hu : Update inp g = resetLevel { g with level := 1, score := 0, lives := 3 } := by
        unfold Update; simp [hs, hk]
      rw [hu]
      exact resetLevel_livesInv _ (by show (1 : Int) ≤ 3; decide) (by show (3 : Int) ≤ 3; decide)
        (by show (1 : Int) ≤ 1; decide)
    · have hu : Update inp g = g := by
        unfold Update; simp [hs, hk]
      rw [hu]
      exact ⟨h0, h3, hL, hg, Or.inr (Or.inl hs), hp1, hg0, hw1, hfresh⟩
  · -- Win
    by_cases hk : inp.space = true
    · have hu : Update inp g = resetLevel { g with level := g.level + 1 } := by
        unfold Update; simp [hs, hk]
      rw [hu]
      exact resetLevel_livesInv _ (hw1 hs) h3 (by show 1 ≤ g.level + 1; omega)
    · have hu : Update inp g = g := by
        unfold Update; simp [hs, hk]
      rw [hu]
      exact ⟨h0, h3, hL, hg, Or.inr (Or.inr hs), hp1, hg0, hw1, hfresh⟩

/-! ## A source whose draws are all zero -/

/-- Every draw taken from `zeroRng` is 0. -/
theorem cellDraw_zeroRng (i j : Nat) : cellDraw zeroRng i j = 0 := by
  simp [cellDraw, Rng.Float64, zeroRng]

/-- Above level 1, `resetLevel` on `zeroRng` generates no visible brick. -/
theorem resetLevel_zeroRng_cleared (g : Game) (hl : g.level ≠ 1) :
    ∀ row ∈ (resetLevel { g with rng := zeroRng }).bricks, ∀ b ∈ row, b.Visible = false := by
  intro row hrow b hb
  have hshape : GridShape (resetLevel { g with rng := zeroRng }).bricks :=
    fillGrid_shape g.level zeroRng
  obtain ⟨i, j, hi, hj, _, hc⟩ := mem_grid_cellAt _ row b hrow hb
  rw [hshape.1] at hi
  rw [hshape.2 row hrow] at hj
  obtain ⟨b', hb1, hb2, _⟩ := fillGrid_cell g.level zeroRng i j hi hj
  have hc' : cellAt (fillGrid g.level brickRows zeroRng).1 i j = some b := hc
  rw [hc'] at hb1
  cases hb1
  rw [hb2, cellDraw_zeroRng]
  simp [hl]
  norm_num

/-- The cell `(i, j)` of the grid generated by `resetLevel`. -/
theorem resetLevel_cell (g : Game) (i j : Nat) (hi : i < brickRows) (hj : j < brickCols) :
    ∃ b, cellAt (resetLevel g).bricks i j = some b ∧
      (b.Visible = true ↔ (g.level = 1 ∨ cellDraw g.rng i j > 0.2)) ∧
      b.Color.A = 255 := by
  obtain ⟨b, hb1, hb2, hb3⟩ := fillGrid_cell g.level g.rng i j hi hj
  refine ⟨b, hb1, ?_, hb3⟩
  rw [hb2]
  simp only [Bool.or_eq_true, decide_eq_true_eq]
  exact or_comm

/-- At level 1 `resetLevel` generates visible bricks only. -/
theorem resetLevel_level1_visible (g : Game) (hl : g.level = 1) :
    ∀ row ∈ (resetLevel g).bricks, ∀ b ∈ row, b.Visible = true := by
  intro row hrow b hb
  have hshape : GridShape (resetLevel g).bricks := fillGrid_shape g.level g.rng
  obtain ⟨i, j, hi, hj, _, hc⟩ := mem_grid_cellAt _ row b hrow hb
  rw [hshape.1] at hi
  rw [hshape.2 row hrow] at hj
  obtain ⟨b', hb1, hb2, _⟩ := resetLevel_cell g i j hi hj
  rw [hc] at hb1
  cases hb1
  exact hb2.2 (Or.inl hl)

/-! ## The claims on restart, collisions and lives -/

/-- C11. In a state with status GameOver, an `Update` with the space key held
is `resetLevel` run on level 1, score 0 and lives 3: the result has level 1,
score 0, lives 3, a new 5 x 10 grid in which every brick is visible, and
status Playing. -/
theorem Update_gameover_confirm (inp : Input) (g : Game)
    (hs : g.status = "gameover") (hk : inp.space = true) :
    Update inp g = resetLevel { g with level := 1, score := 0, lives := 3 } ∧
    (Update inp g).level = 1 ∧
    (Update inp g).score = 0 ∧
    (Update inp g).lives = 3 ∧
    GridShape (Update inp g).bricks ∧
    (∀ row ∈ (Update inp g).bricks, ∀ b ∈ row, b.Visible = true) ∧
    (Update inp g).status = "playing" := by
  have h : Update inp g = resetLevel { g with level := 1, score := 0, lives := 3 } := by
    unfold Update
    simp [hs, hk]
  rw [h]
  exact ⟨rfl, rfl, rfl, rfl, fillGrid_shape _ _,
    resetLevel_level1_visible { g with level := 1, score := 0, lives := 3 } rfl, rfl⟩

/-- Witness of C11: a GameOver at level 4 with score 730. -/
theorem Update_gameover_confirm_witness :
    ({ sampleGame with status := "gameover", level := 4, score := 730, lives := 0 } : Game).status
      = "gameover" ∧
    spaceKey.space = true ∧
    (Update spaceKey
      { sampleGame with status := "gameover", level := 4, score := 730, lives := 0 }).lives = 3 ∧
    (Update spaceKey
      { sampleGame with status := "gameover", level := 4, score := 730, lives := 0 }).score = 0 :=
  ⟨rfl, rfl, (Update_gameover_confirm _ _ rfl rfl).2.2.2.1, (Update_gameover_confirm _ _ rfl rfl).2.2.1⟩

/-- C16. For every Playing state and input, `Update` keeps the number of rows
and the length of every row (so a 5 x 10 grid stays 5 x 10), keeps the colour
of every brick, and leaves every invisible brick invisible. -/
theorem Update_grid_monotone (inp : Input) (g : Game) (hs : g.status = "playing") :
    (Update inp g).bricks.length = g.bricks.length ∧
    (∀ i, ((Update inp g).bricks.getD i []).length = (g.bricks.getD i []).length) ∧
    (GridShape g.bricks → GridShape (Update inp g).bricks) ∧
    (∀ i j b, cellAt g.bricks i j = some b →
      ∃ b', cellAt (Update inp g).bricks i j = some b' ∧ b'.Color = b.Color ∧
        (b.Visible = false → b'.Visible = false)) := by
  obtain ⟨h0, h1, _⟩ := Update_playing_bricks inp g hs
  have hlen : ∀ i, ((Update inp g).bricks.getD i []).length = (g.bricks.getD i []).length := by
    intro i
    exact length_eq_of_pointwise _ _
      (fun j => afterHit (preBrick inp g).ballX (preBrick inp g).ballY i j) (fun j => h1 i j)
  refine ⟨h0, hlen, ?_, ?_⟩
  · rintro ⟨hr, hc⟩
    refine ⟨by rw [h0, hr], ?_⟩
    intro row hrow
    obtain ⟨i, hi, rfl⟩ := List.getElem_of_mem hrow
    have hi' : i < g.bricks.length := by rw [← h0]; exact hi
    have e := hlen i
    rw [List.getD_eq_getElem _ _ hi, List.getD_eq_getElem _ _ hi'] at e
    rw [e]
    exact hc _ (List.getElem_mem _)
  · intro i j b hb
    refine ⟨afterHit (preBrick inp g).ballX (preBrick inp g).ballY i j b, ?_, ?_, ?_⟩
    · rw [h1 i j, hb]; rfl
    · simp only [afterHit]; split_ifs <;> rfl
    · intro hv
      simp only [afterHit]; split_ifs
      · rfl
      · exact hv

/-- Witness of C16: a tick that destroys a brick of the full grid. -/
theorem Update_grid_monotone_witness :
    cornerGame.status = "playing" ∧ GridShape cornerGame.bricks ∧
    GridShape (Update noKeys cornerGame).bricks :=
  ⟨rfl, gridShape_uniformGrid true,
    (Update_grid_monotone noKeys cornerGame rfl).2.2.1 (gridShape_uniformGrid true)⟩

/-- C17, counterexample. A Playing state with three lives whose ball is below
the bottom edge after the move (`ballY - ballRadius = 481 > 480`): the paddle,
moved under the ball in the same tick, lifts it back, so no life is lost and
the ball is at `(317, 456)`, not at the screen centre. -/
theorem miss_respawn_counterexample :
    caughtGameFull.status = "playing" ∧ 1 < caughtGameFull.lives ∧
    (moveStep (paddleStep leftKey caughtGameFull)).ballY - (ballRadius : ℚ) >
      (screenHeight : ℚ) ∧
    (Update leftKey caughtGameFull).lives = 3 ∧
    (Update leftKey caughtGameFull).ballX = 317 ∧
    (Update leftKey caughtGameFull).ballY = 456 := by
  have hb1 : brickStep (preBrick leftKey caughtGameFull) = preBrick leftKey caughtGameFull := by
    apply brickStep_low
    · rw [preBrick_bricks]; decide
    · rw [preBrick_caughtGameFull]; simp only [ballRadius]; norm_num
  have hu1 : Update leftKey caughtGameFull = preBrick leftKey caughtGameFull := by
    rw [Update_playing _ _ rfl, hb1]
    have : allCleared (preBrick leftKey caughtGameFull).bricks = false := by
      rw [preBrick_bricks]; decide
    simp [winStep, this]
  refine ⟨rfl, by decide, ?_, ?_, ?_, ?_⟩
  · simp [moveStep, paddleStep, leftKey, caughtGameFull, caughtGame, sampleGame, screenHeight,
      ballRadius]
    norm_num
  · rw [hu1, preBrick_caughtGameFull]; rfl
  · rw [hu1, preBrick_caughtGameFull]
  · rw [hu1, preBrick_caughtGameFull]

/-- C17, amended. For every Playing state with the 5 x 10 grid and `lives > 1`
and every input such that after the move `ballY - ballRadius > screenHeight`
and the ball centre is not strictly inside the horizontal span of the paddle,
`Update` decrements `lives` by exactly 1, keeps grid, score, level and paddle
width, puts the ball at `(320, 240)` and the paddle at `320 - paddleW / 2`,
and keeps the status Playing provided at least one brick is visible. -/
theorem Update_miss_respawn (inp : Input) (g : Game)
    (hs : g.status = "playing") (hl : 1 < g.lives) (hg : GridShape g.bricks)
    (hy : g.ballY + g.ballVY - (ballRadius : ℚ) > (screenHeight : ℚ))
    (hc : ¬ ((afterWall inp g).ballX > (paddleStep inp g).paddleX ∧
             (afterWall inp g).ballX < (paddleStep inp g).paddleX + g.paddleW)) :
    (Update inp g).lives = g.lives - 1 ∧
    (Update inp g).bricks = g.bricks ∧
    (Update inp g).score = g.score ∧
    (Update inp g).level = g.level ∧
    (Update inp g).paddleW = g.paddleW ∧
    (Update inp g).ballX = 320 ∧ (Update inp g).ballY = 240 ∧
    (Update inp g).paddleX = 320 - g.paddleW / 2 ∧
    ((∃ row ∈ g.bricks, ∃ b ∈ row, b.Visible = true) → (Update inp g).status = "playing") := by
  obtain ⟨hm, hq⟩ := missed_of_low inp g hy hc
  obtain ⟨_, hw, hlv, hlev, hst, hsc, hbr⟩ := afterWall_frame inp g
  have hp : preBrick inp g =
      { afterWall inp g with
        lives := g.lives - 1
        ballX := 320
        ballY := 240
        ballVX := 3 + ((g.level - 1 : Int) : ℚ) * 0.2
        ballVY := -3 - ((g.level - 1 : Int) : ℚ) * 0.2
        paddleX := 320 - g.paddleW / 2 } := by
    show missStep (paddleHitStep (afterWall inp g)) = _
    rw [hq] at hm ⊢
    unfold ballMissed at hm
    simp only [missStep]
    rw [if_pos hm, hlv, hlev, hw]
    have hl' : ¬ g.lives - 1 ≤ 0 := by omega
    rw [if_neg hl']
    simp only [screenWidth, screenHeight]
    norm_num
  have hb : brickStep (preBrick inp g) = preBrick inp g := by
    apply brickStep_low
    · rw [preBrick_bricks, hg.1]
    · rw [hp]
      simp only [ballRadius]
      norm_num
  have hu : Update inp g = winStep (preBrick inp g) := by
    rw [Update_playing inp g hs, hb]
  have hbr' : (preBrick inp g).bricks = g.bricks := preBrick_bricks inp g
  refine ⟨?_, ?_, ?_, ?_, ?_, ?_, ?_, ?_, ?_⟩
  · rw [hu, winStep_lives, hp]
  · rw [hu, winStep_bricks, hbr']
  · rw [hu, winStep_score, preBrick_score]
  · rw [hu, winStep_level, preBrick_level]
  · rw [hu, winStep_paddleW, preBrick_paddleW]
  · rw [hu, winStep_ballX, hp]
  · rw [hu, winStep_ballY, hp]
  · rw [hu, winStep_paddleX, hp]
  · rintro ⟨row, hrow, b, hb', hv⟩
    have hnc : ¬ allCleared (preBrick inp g).bricks = true := by
      rw [hbr', allCleared_iff]
      intro hall
      have := hall row hrow b hb'
      rw [hv] at this
      exact Bool.noConfusion this
    rw [hu]
    simp only [winStep, if_neg hnc]
    rw [hp]
    exact hst.trans hs

/-- Witness of C17 (amended): a miss at level 2 with three lives. -/
theorem Update_miss_respawn_witness :
    missGame.status = "playing" ∧ 1 < missGame.lives ∧
    (Update noKeys missGame).lives = missGame.lives - 1 ∧
    (Update noKeys missGame).bricks = missGame.bricks ∧
    (Update noKeys missGame).ballX = 320 ∧ (Update noKeys missGame).ballY = 240 ∧
    (Update noKeys missGame).status = "playing" := by
  have h := Update_miss_respawn noKeys missGame rfl (by decide) (gridShape_uniformGrid true)
    (by simp [missGame, sampleGame, ballRadius, screenHeight]; norm_num)
    (by simp [afterWall, wallStep, moveStep, paddleStep, noKeys, missGame, sampleGame, ballRadius,
          screenWidth]
        norm_num)
  refine ⟨rfl, by decide, h.1, h.2.1, h.2.2.2.2.2.1, h.2.2.2.2.2.2.1, h.2.2.2.2.2.2.2.2 ?_⟩
  exact ⟨_, List.mem_cons_self _ _, _, List.mem_cons_self _ _, rfl⟩

/-- C18. For every level and every state of the random source, `resetLevel`
produces a grid of exactly 5 x 10 bricks; the brick of each cell is visible if
and only if `level = 1` or the uniform draw taken for that cell, a value in
`[0, 1)`, is strictly greater than 0.2; every colour has alpha 255; and at
level 1 all bricks are visible. -/
theorem resetLevel_grid (g : Game) :
    GridShape (resetLevel g).bricks ∧
    (∀ i j, i < brickRows → j < brickCols →
      0 ≤ cellDraw g.rng i j ∧ cellDraw g.rng i j < 1 ∧
      ∃ b, cellAt (resetLevel g).bricks i j = some b ∧
        (b.Visible = true ↔ (g.level = 1 ∨ cellDraw g.rng i j > 0.2)) ∧
        b.Color.A = 255) ∧
    (g.level = 1 → ∀ row ∈ (resetLevel g).bricks, ∀ b ∈ row, b.Visible = true) := by
  refine ⟨fillGrid_shape g.level g.rng, ?_, resetLevel_level1_visible g⟩
  intro i j hi hj
  exact ⟨(Float64_range _).1, (Float64_range _).2, resetLevel_cell g i j hi hj⟩

/-- Witness of C18: cell `(0, 3)` of a level-4 grid. -/
theorem resetLevel_grid_witness :
    (0 : Nat) < brickRows ∧ (3 : Nat) < brickCols ∧
    ∃ b, cellAt (resetLevel { sampleGame with level := 4 }).bricks 0 3 = some b ∧
      (b.Visible = true ↔ ((4 : Int) = 1 ∨ cellDraw sampleRng 0 3 > 0.2)) ∧ b.Color.A = 255 :=
  ⟨by decide, by decide,
    ((resetLevel_grid { sampleGame with level := 4 }).2.1 0 3 (by decide) (by decide)).2.2⟩

/-- C19. In every state reachable from `NewGame` by any sequence of `Update`
calls, for any inputs and any outcomes of the random source,
`0 <= lives <= 3`, `lives >= 1` whenever the status is Playing, and
`lives = 0` whenever the status is GameOver. A state with status Win has
`lives >= 1`: the tick that loses the last life never ends in Win. -/
theorem reachable_lives (g : Game) (h : Reachable g) :
    0 ≤ g.lives ∧ g.lives ≤ 3 ∧
    (g.status = "playing" → 1 ≤ g.lives) ∧
    (g.status = "gameover" → g.lives = 0) ∧
    (g.status = "win" → 1 ≤ g.lives) := by
  have hinv : LivesInv g := by
    induction h with
    | init rng =>
      exact resetLevel_livesInv _ (by show (1 : Int) ≤ 3; decide) (by show (3 : Int) ≤ 3; decide)
        (by show (1 : Int) ≤ 1; decide)
    | step inp g _ ih => exact Update_livesInv inp g ih
  obtain ⟨h0, h3, _, _, _, hp, hg, hw, _⟩ := hinv
  exact ⟨h0, h3, hp, hg, hw⟩

/-- Witness of C19: the state after one `Update` from a new game. -/
theorem reachable_lives_witness :
    Reachable (Update leftKey (NewGame sampleRng)) ∧
    0 ≤ (Update leftKey (NewGame sampleRng)).lives ∧
    (Update leftKey (NewGame sampleRng)).lives ≤ 3 :=
  ⟨Reachable.step _ _ (Reachable.init sampleRng),
   (reachable_lives _ (Reachable.step _ _ (Reachable.init sampleRng))).1,
   (reachable_lives _ (Reachable.step _ _ (Reachable.init sampleRng))).2.1⟩

/-- C20. For every level `L >= 2` there is an outcome of the random source,
all of whose visibility draws are `<= 0.2`, for which `resetLevel` yields a
5 x 10 grid with no visible brick and status Playing; the next `Update` then
sets the status to Win for every input and keeps score and lives: the level
is won without destroying any brick. -/
theorem cleared_level_wins (g : Game) (hL : 2 ≤ g.level) :
    ∃ rng : Rng,
      (∀ i j, i < brickRows → j < brickCols → cellDraw rng i j ≤ 0.2) ∧
      GridShape (resetLevel { g with rng := rng }).bricks ∧
      (∀ row ∈ (resetLevel { g with rng := rng }).bricks, ∀ b ∈ row, b.Visible = false) ∧
      (resetLevel { g with rng := rng }).status = "playing" ∧
      ∀ inp : Input,
        (Update inp (resetLevel { g with rng := rng })).status = "win" ∧
        (Update inp (resetLevel { g with rng := rng })).score = g.score ∧
        (Update inp (resetLevel { g with rng := rng })).lives = g.lives := by
  have hl : g.level ≠ 1 := by omega
  have hall := resetLevel_zeroRng_cleared g hl
  refine ⟨zeroRng, ?_, fillGrid_shape g.level zeroRng, hall, rfl, ?_⟩
  · intro i j _ _
    rw [cellDraw_zeroRng]; norm_num
  · intro inp
    set r := resetLevel { g with rng := zeroRng } with hr
    have hs : r.status = "playing" := rfl
    have hclr : allCleared r.bricks = true := (allCleared_iff _).2 hall
    have hnm : ¬ ballMissed (paddleHitStep (afterWall inp r)) := by
      intro hm
      have hy := (missed_imp inp r hm).1
      have hsp := speedIncrease_ge g.level (by omega)
      simp only [hr, resetLevel, screenHeight, ballRadius] at hy
      norm_num at hy
      linarith
    have hp : preBrick inp r = paddleHitStep (afterWall inp r) := by
      show missStep (paddleHitStep (afterWall inp r)) = _
      rw [missStep_of_not _ hnm]
    have hclr' : allCleared (preBrick inp r).bricks = true := by
      rw [preBrick_bricks]; exact hclr
    have hb : brickStep (preBrick inp r) = preBrick inp r := brickStep_cleared _ hclr'
    have hu : Update inp r = winStep (preBrick inp r) := by
      rw [Update_playing inp r hs, hb]
    obtain ⟨_, _, hlv, _, _, _, _⟩ := afterWall_frame inp r
    refine ⟨?_, ?_, ?_⟩
    · rw [hu]; simp only [winStep, if_pos hclr']
    · rw [hu, winStep_score, preBrick_score]; rfl
    · rw [hu, winStep_lives, hp, paddleHitStep_lives, hlv]; rfl

/-- Witness of C20 at level 2. -/
theorem cleared_level_wins_witness :
    (2 : Int) ≤ ({ sampleGame with level := 2 } : Game).level ∧
    ∃ rng : Rng,
      (resetLevel { ({ sampleGame with level := 2 } : Game) with rng := rng }).status = "playing" ∧
      ∀ inp : Input,
        (Update inp
          (resetLevel { ({ sampleGame with level := 2 } : Game) with rng := rng })).status = "win" := by
  refine ⟨by decide, ?_⟩
  obtain ⟨rng, _, _, _, h4, h5⟩ := cleared_level_wins { sampleGame with level := 2 } (by decide)
  exact ⟨rng, h4, fun inp => (h5 inp).1⟩

/-! # Theorems on the machine model -/

namespace Machine

/-! ### Rounding -/

theorem halfEven_intCast (m : Int) : halfEven (m : ℚ) = m := by
  simp [halfEven]

theorem halfEven_err (x : ℚ) : |x - (halfEven x : ℚ)| ≤ 1 / 2 := by
  have h1 := Int.floor_le x
  have h2 := Int.lt_floor_add_one x
  unfold halfEven
  rw [abs_le]
  split_ifs with a b c <;> push_cast <;> constructor <;> linarith

theorem le_halfEven (x : ℚ) (m : Int) (h : (m : ℚ) ≤ x) : m ≤ halfEven x := by
  have hf : m ≤ ⌊x⌋ := Int.le_floor.2 h
  unfold halfEven
  split_ifs <;> omega

theorem halfEven_le (x : ℚ) (m : Int) (h : x ≤ (m : ℚ)) : halfEven x ≤ m := by
  have h1 := Int.floor_le x
  have h2 := Int.lt_floor_add_one x
  by_cases hx : x = (m : ℚ)
  · rw [hx, halfEven_intCast]
  · have hlt : x < (m : ℚ) := lt_of_le_of_ne h hx
    have hf : ⌊x⌋ < m := by
      have : (⌊x⌋ : ℚ) < (m : ℚ) := lt_of_le_of_lt h1 hlt
      exact_mod_cast this
    unfold halfEven
    split_ifs <;> omega

theorem halfEven_neg (x : ℚ) : halfEven (-x) = -halfEven x := by
  by_cases hx : (⌊x⌋ : ℚ) = x
  · rw [← hx, ← Int.cast_neg, halfEven_intCast, halfEven_intCast]
  · have h1 := Int.floor_le x
    have h2 := Int.lt_floor_add_one x
    have hlt : (⌊x⌋ : ℚ) < x := lt_of_le_of_ne h1 hx
    have hfl : ⌊-x⌋ = -⌊x⌋ - 1 := by
      rw [Int.floor_eq_iff]
      push_cast
      constructor <;> linarith
    unfold halfEven
    rw [hfl]
    push_cast
    split_ifs <;> first | omega | (exfalso; linarith)

theorem two_zpow_pos (z : Int) : (0 : ℚ) < 2 ^ z := by positivity

/-- The binary logarithm of a rational bracketed by two powers of two. -/
theorem log_eq_of_bracket (q : ℚ) (k : Int) (h1 : (2 : ℚ) ^ k ≤ |q|) (h2 : |q| < 2 ^ (k + 1)) :
    Int.log 2 |q| = k := by
  have hpos : (0 : ℚ) < |q| := lt_of_lt_of_le (two_zpow_pos k) h1
  have a : k ≤ Int.log 2 |q| := (Int.zpow_le_iff_le_log (by norm_num) hpos).1 (by exact_mod_cast h1)
  have b : Int.log 2 |q| < k + 1 :=
    (Int.lt_zpow_iff_log_lt (by norm_num) hpos).1 (by exact_mod_cast h2)
  omega

theorem quantum_eq_of_bracket (q : ℚ) (k : Int) (h1 : (2 : ℚ) ^ k ≤ |q|)
    (h2 : |q| < 2 ^ (k + 1)) : quantum q = max (k - 52) (-1074) := by
  unfold quantum
  rw [log_eq_of_bracket q k h1 h2]

theorem quantum_neg (q : ℚ) : quantum (-q) = quantum q := by
  unfold quantum
  rw [abs_neg]

theorem roundQ_neg (q : ℚ) : roundQ (-q) = -roundQ q := by
  unfold roundQ
  rw [quantum_neg, neg_div, halfEven_neg]
  push_cast
  ring

theorem roundQ_zero : roundQ 0 = 0 := by
  simp [roundQ, halfEven]

/-- The rounding error is at most half a quantum. -/
theorem roundQ_err (q : ℚ) : |roundQ q - q| ≤ 2 ^ quantum q / 2 := by
  have hp := two_zpow_pos (quantum q)
  have h := halfEven_err (q / 2 ^ quantum q)
  have e : roundQ q - q = -((q / 2 ^ quantum q - (halfEven (q / 2 ^ quantum q) : ℚ)) * 2 ^ quantum q) := by
    unfold roundQ
    field_simp
    ring
  rw [e, abs_neg, abs_mul, abs_of_pos hp]
  calc |q / 2 ^ quantum q - (halfEven (q / 2 ^ quantum q) : ℚ)| * 2 ^ quantum q
      ≤ 1 / 2 * 2 ^ quantum q := mul_le_mul_of_nonneg_right h hp.le
    _ = 2 ^ quantum q / 2 := by ring

/-- A value `m * 2 ^ e` with `|m| < 2 ^ 53` and `e >= -1074` is on the grid. -/
theorem roundQ_exact (m e : Int) (hm : |m| < 2 ^ 53) (he : -1074 ≤ e) :
    roundQ ((m : ℚ) * 2 ^ e) = (m : ℚ) * 2 ^ e := by
  by_cases h0 : m = 0
  · subst h0; simp [roundQ_zero]
  have hmq : |(m : ℚ)| < 2 ^ (53 : ℤ) := by
    have h1 : ((|m| : Int) : ℚ) < ((9007199254740992 : Int) : ℚ) := by
      have : |m| < 9007199254740992 := by simpa using hm
      exact_mod_cast this
    rw [Int.cast_abs] at h1
    have e53 : (2 : ℚ) ^ (53 : ℤ) = ((9007199254740992 : Int) : ℚ) := by norm_num
    rw [e53]; exact h1
  have hq : |(m : ℚ) * 2 ^ e| < 2 ^ (53 + e) := by
    rw [abs_mul, abs_of_pos (two_zpow_pos e), zpow_add₀ (by norm_num)]
    exact mul_lt_mul_of_pos_right hmq (two_zpow_pos e)
  have hpos : (0 : ℚ) < |(m : ℚ) * 2 ^ e| := by
    rw [abs_pos]
    exact mul_ne_zero (by exact_mod_cast h0) (two_zpow_pos e).ne'
  have hlog : Int.log 2 |(m : ℚ) * 2 ^ e| < 53 + e :=
    (Int.lt_zpow_iff_log_lt (by norm_num) hpos).1 (by exact_mod_cast hq)
  have hqe : quantum ((m : ℚ) * 2 ^ e) ≤ e := by
    unfold quantum
    exact max_le (by omega) he
  unfold roundQ
  generalize quantum ((m : ℚ) * 2 ^ e) = Q at hqe
  obtain ⟨d, hd⟩ := Int.le.dest hqe
  have hdiv : (m : ℚ) * 2 ^ e / 2 ^ Q = ((m * 2 ^ d : Int) : ℚ) := by
    rw [← hd, zpow_add₀ (by norm_num)]
    push_cast
    field_simp
    ring
  rw [hdiv, halfEven_intCast]
  push_cast
  rw [← hd, zpow_add₀ (by norm_num : (2 : ℚ) ≠ 0)]
  simp only [zpow_natCast]
  ring

/-- In the normal range a lower bound by a power of two survives rounding. -/
theorem le_roundQ_of_pow_le (q : ℚ) (k : Int) (hk : -1022 ≤ k) (h : (2 : ℚ) ^ k ≤ q) :
    (2 : ℚ) ^ k ≤ roundQ q := by
  have hq : 0 < q := lt_of_lt_of_le (two_zpow_pos k) h
  have habs : |q| = q := abs_of_pos hq
  have hlog : k ≤ Int.log 2 |q| := by
    rw [habs]
    exact (Int.zpow_le_iff_le_log (by norm_num) hq).1 (by exact_mod_cast h)
  have hqe : quantum q = Int.log 2 |q| - 52 := by
    unfold quantum
    exact max_eq_left (by omega)
  have hlow : (2 : ℚ) ^ Int.log 2 |q| ≤ q := by
    have := Int.zpow_log_le_self (b := 2) (r := q) (by norm_num) hq
    rw [habs]
    exact_mod_cast this
  have hsplit : (2 : ℚ) ^ Int.log 2 |q| = ((4503599627370496 : Int) : ℚ) * 2 ^ quantum q := by
    have p52 : ((4503599627370496 : Int) : ℚ) = 2 ^ (52 : ℤ) := by norm_num
    rw [p52, hqe, ← zpow_add₀ (by norm_num : (2 : ℚ) ≠ 0)]
    congr 1
    ring
  have hdiv : ((4503599627370496 : Int) : ℚ) ≤ q / 2 ^ quantum q := by
    rw [le_div_iff₀ (two_zpow_pos _), ← hsplit]
    exact hlow
  have hn := le_halfEven _ _ hdiv
  have hn' : ((4503599627370496 : Int) : ℚ) ≤ (halfEven (q / 2 ^ quantum q) : ℚ) := by
    exact_mod_cast hn
  unfold roundQ
  calc (2 : ℚ) ^ k ≤ 2 ^ Int.log 2 |q| := zpow_le_zpow_right₀ (by norm_num) hlog
    _ = ((4503599627370496 : Int) : ℚ) * 2 ^ quantum q := hsplit
    _ ≤ (halfEven (q / 2 ^ quantum q) : ℚ) * 2 ^ quantum q :=
        mul_le_mul_of_nonneg_right hn' (two_zpow_pos _).le

/-- In the normal range the relative rounding error is at most `2 ^ (-53)`. -/
theorem roundQ_rel (q : ℚ) (h : (2 : ℚ) ^ (-1022 : ℤ) ≤ |q|) :
    |roundQ q - q| ≤ 2 ^ (-53 : ℤ) * |q| := by
  have hpos : (0 : ℚ) < |q| := lt_of_lt_of_le (two_zpow_pos _) h
  have hlog : -1022 ≤ Int.log 2 |q| :=
    (Int.zpow_le_iff_le_log (by norm_num) hpos).1 (by exact_mod_cast h)
  have hqe : quantum q = Int.log 2 |q| - 52 := by
    unfold quantum
    exact max_eq_left (by omega)
  have hlow : (2 : ℚ) ^ Int.log 2 |q| ≤ |q| := by
    have := Int.zpow_log_le_self (b := 2) (r := |q|) (by norm_num) hpos
    exact_mod_cast this
  have hsplit : (2 : ℚ) ^ quantum q / 2 = 2 ^ (-53 : ℤ) * 2 ^ Int.log 2 |q| := by
    rw [hqe, ← zpow_add₀ (by norm_num : (2 : ℚ) ≠ 0)]
    have : (-53 : ℤ) + Int.log 2 |q| = (Int.log 2 |q| - 52) + (-1) := by ring
    rw [this, zpow_add₀ (by norm_num : (2 : ℚ) ≠ 0)]
    norm_num
    ring
  calc |roundQ q - q| ≤ 2 ^ quantum q / 2 := roundQ_err q
    _ = 2 ^ (-53 : ℤ) * 2 ^ Int.log 2 |q| := hsplit
    _ ≤ 2 ^ (-53 : ℤ) * |q| := mul_le_mul_of_nonneg_left hlow (two_zpow_pos _).le

/-- Evaluation of `roundQ` at a value bracketed by two powers of two. -/
theorem roundQ_eval (q : ℚ) (k e n : Int) (h1 : (2 : ℚ) ^ k ≤ |q|) (h2 : |q| < 2 ^ (k + 1))
    (he : e = max (k - 52) (-1074)) (hn : halfEven (q / 2 ^ e) = n) :
    roundQ q = (n : ℚ) * 2 ^ e := by
  unfold roundQ
  rw [quantum_eq_of_bracket q k h1 h2, ← he, hn]

/-! ### Basic facts on `F64` -/

theorem F64.neg_neg (a : F64) : F64.neg (F64.neg a) = a := by
  cases a <;> simp [F64.neg]

/-- Rounding commutes with negation. -/
theorem F64.round_neg (q : ℚ) : F64.round (-q) = F64.neg (F64.round q) := by
  unfold F64.round
  rw [roundQ_neg, abs_neg]
  split_ifs with h
  · have hq : q ≠ 0 := by
      rintro rfl
      rw [roundQ_zero] at h
      norm_num at h
    simp only [F64.neg, F64.inf.injEq]
    rcases lt_or_gt_of_ne hq with h' | h'
    · have : ¬ (-q < 0) := by linarith
      simp [h', this]
    · have : ¬ (q < 0) := by linarith
      have h2 : -q < 0 := by linarith
      simp [h2, this]
  · rfl

/-- A value on the grid below `2 ^ 1024` is rounded to itself. -/
theorem F64.round_of_exact (q : ℚ) (h : roundQ q = q) (hlt : |q| < 2 ^ (1024 : ℤ)) :
    F64.round q = F64.fin q := by
  unfold F64.round
  rw [h, if_neg (not_le.2 hlt)]

/-- An integer of magnitude below `2 ^ 53` is a binary64 value. -/
theorem F64.round_int (n : Int) (h : |n| < 2 ^ 53) : F64.round (n : ℚ) = F64.fin (n : ℚ) := by
  have e := roundQ_exact n 0 h (by norm_num)
  simp only [zpow_zero, mul_one] at e
  apply F64.round_of_exact _ e
  have h1 : ((|n| : Int) : ℚ) < ((9007199254740992 : Int) : ℚ) := by
    have : |n| < 9007199254740992 := by simpa using h
    exact_mod_cast this
  rw [Int.cast_abs] at h1
  calc |(n : ℚ)| < ((9007199254740992 : Int) : ℚ) := h1
    _ ≤ 2 ^ (1024 : ℤ) := by norm_num

theorem F64.round_zero : F64.round 0 = F64.fin 0 := by
  simpa using F64.round_int 0 (by norm_num)

theorem F64.round_one : F64.round 1 = F64.fin 1 := by
  simpa using F64.round_int 1 (by norm_num)

/-- A numeral below `2 ^ 53` is a binary64 value. -/
theorem F64.round_ofNat (n : ℕ) [n.AtLeastTwo] (h : n < 9007199254740992) :
    F64.round (no_index (OfNat.ofNat n)) = F64.fin (OfNat.ofNat n) := by
  have e := F64.round_int (n : Int) (by rw [abs_of_nonneg (by positivity)]; exact_mod_cast h)
  simpa using e

theorem F64.add_fin (a b : ℚ) : F64.add (F64.fin a) (F64.fin b) = F64.round (a + b) := by
  simp only [F64.add]

theorem F64.neg_fin (a : ℚ) : F64.neg (F64.fin a) = F64.fin (-a) := by
  simp only [F64.neg]

theorem F64.sub_fin (a b : ℚ) : F64.sub (F64.fin a) (F64.fin b) = F64.round (a - b) := by
  simp only [F64.sub, F64.neg, F64.add, sub_eq_add_neg]

theorem F64.mul_fin (a b : ℚ) : F64.mul (F64.fin a) (F64.fin b) = F64.round (a * b) := by
  simp only [F64.mul]

theorem F64.divConst_fin (a c : ℚ) : F64.divConst (F64.fin a) c = F64.round (a / c) := by
  simp only [F64.divConst]

theorem F64.lt_fin (a b : ℚ) : F64.lt (F64.fin a) (F64.fin b) = decide (a < b) := by
  simp only [F64.lt]

theorem F64.gt_fin (a b : ℚ) : F64.gt (F64.fin a) (F64.fin b) = decide (b < a) := by
  simp only [F64.gt, F64.lt]

theorem F64.le_fin (a b : ℚ) : F64.le (F64.fin a) (F64.fin b) = decide (a ≤ b) := by
  simp only [F64.le]

/-- Evaluation of `F64.round` at a value bracketed by two powers of two. -/
theorem F64.round_eval (q : ℚ) (k e n : Int) (h1 : (2 : ℚ) ^ k ≤ |q|) (h2 : |q| < 2 ^ (k + 1))
    (he : e = max (k - 52) (-1074)) (hn : halfEven (q / 2 ^ e) = n)
    (hov : |(n : ℚ) * 2 ^ e| < 2 ^ (1024 : ℤ)) : F64.round q = F64.fin ((n : ℚ) * 2 ^ e) := by
  unfold F64.round
  rw [roundQ_eval q k e n h1 h2 he hn, if_neg (not_le.2 hov)]

/-- The constant `0.1` as a binary64 value. -/
theorem F64.round_tenth :
    F64.round 0.1 = F64.fin (3602879701896397 / 36028797018963968) := by
  have h := F64.round_eval 0.1 (-4) (-56) 7205759403792794
    (by norm_num [abs_of_pos]) (by norm_num [abs_of_pos]) (by norm_num)
    (by norm_num [halfEven]) (by norm_num [abs_of_pos])
  rw [h]
  norm_num

/-- The constant `0.2` as a binary64 value. -/
theorem F64.round_fifth :
    F64.round 0.2 = F64.fin (3602879701896397 / 18014398509481984) := by
  have h := F64.round_eval 0.2 (-3) (-55) 7205759403792794
    (by norm_num [abs_of_pos]) (by norm_num [abs_of_pos]) (by norm_num)
    (by norm_num [halfEven]) (by norm_num [abs_of_pos])
  rw [h]
  norm_num

/-! ### Order facts on rounding -/

/-- In the normal range an upper bound by a power of two survives rounding. -/
theorem roundQ_le_of_le_pow (q : ℚ) (k : Int) (hk : -1022 ≤ k) (h : q ≤ (2 : ℚ) ^ k) :
    roundQ q ≤ (2 : ℚ) ^ k := by
  by_cases h0 : q ≤ 0
  · have hd : q / 2 ^ quantum q ≤ ((0 : Int) : ℚ) := by
      rw [Int.cast_zero]
      exact div_nonpos_of_nonpos_of_nonneg h0 (two_zpow_pos _).le
    have hn := halfEven_le _ _ hd
    have hn' : (halfEven (q / 2 ^ quantum q) : ℚ) ≤ 0 := by exact_mod_cast hn
    unfold roundQ
    calc (halfEven (q / 2 ^ quantum q) : ℚ) * 2 ^ quantum q ≤ 0 :=
          mul_nonpos_of_nonpos_of_nonneg hn' (two_zpow_pos _).le
      _ ≤ 2 ^ k := (two_zpow_pos k).le
  · have hq : 0 < q := lt_of_not_le h0
    have habs : |q| = q := abs_of_pos hq
    have hlt : q < (2 : ℚ) ^ (k + 1) :=
      lt_of_le_of_lt h (zpow_lt_zpow_right₀ (by norm_num) (by omega))
    have hlog : Int.log 2 |q| < k + 1 := by
      rw [habs]
      exact (Int.lt_zpow_iff_log_lt (by norm_num) hq).1 (by exact_mod_cast hlt)
    have hqe : quantum q ≤ k := by
      unfold quantum
      exact max_le (by omega) (by omega)
    unfold roundQ
    generalize quantum q = Q at hqe
    obtain ⟨d, hd⟩ := Int.le.dest hqe
    have hsplit : (2 : ℚ) ^ k = ((2 ^ d : Int) : ℚ) * 2 ^ Q := by
      rw [← hd, zpow_add₀ (by norm_num : (2 : ℚ) ≠ 0)]
      push_cast
      simp only [zpow_natCast]
      ring
    have hdiv : q / 2 ^ Q ≤ ((2 ^ d : Int) : ℚ) := by
      rw [div_le_iff₀ (two_zpow_pos _), ← hsplit]
      exact h
    have hn := halfEven_le _ _ hdiv
    have hn' : (halfEven (q / 2 ^ Q) : ℚ) ≤ ((2 ^ d : Int) : ℚ) := by exact_mod_cast hn
    rw [hsplit]
    exact mul_le_mul_of_nonneg_right hn' (two_zpow_pos _).le

/-- A binary64 value below 8 is at most `8 - 2 ^ (-50)`. -/
theorem roundQ_lt_eight (t : ℚ) (h : roundQ t < 8) : roundQ t ≤ 8 - 2 ^ (-50 : ℤ) := by
  by_cases h8 : (8 : ℚ) ≤ t
  · have := le_roundQ_of_pow_le t 3 (by norm_num) (by norm_num; exact h8)
    norm_num at this
    linarith
  by_cases h4 : t < 4
  · have := roundQ_le_of_le_pow t 2 (by norm_num) (by norm_num; exact h4.le)
    norm_num at this ⊢
    linarith
  have h4' : (4 : ℚ) ≤ t := not_lt.1 h4
  have h8' : t < 8 := not_le.1 h8
  have habs : |t| = t := abs_of_pos (by linarith)
  have hq : quantum t = -50 := by
    rw [quantum_eq_of_bracket t 2 (by rw [habs]; norm_num; exact h4')
      (by rw [habs]; norm_num; exact h8')]
    norm_num
  unfold roundQ at h ⊢
  rw [hq] at h ⊢
  have hn : (halfEven (t / 2 ^ (-50 : ℤ)) : ℚ) < ((9007199254740992 : Int) : ℚ) := by
    have e : ((9007199254740992 : Int) : ℚ) = 8 / 2 ^ (-50 : ℤ) := by norm_num
    rw [e, lt_div_iff₀ (two_zpow_pos _)]
    exact h
  have hn' : halfEven (t / 2 ^ (-50 : ℤ)) ≤ 9007199254740991 := by
    have : halfEven (t / 2 ^ (-50 : ℤ)) < 9007199254740992 := by exact_mod_cast hn
    omega
  have hn'' : (halfEven (t / 2 ^ (-50 : ℤ)) : ℚ) ≤ ((9007199254740991 : Int) : ℚ) := by
    exact_mod_cast hn'
  calc (halfEven (t / 2 ^ (-50 : ℤ)) : ℚ) * 2 ^ (-50 : ℤ)
      ≤ ((9007199254740991 : Int) : ℚ) * 2 ^ (-50 : ℤ) :=
        mul_le_mul_of_nonneg_right hn'' (two_zpow_pos _).le
    _ = 8 - 2 ^ (-50 : ℤ) := by norm_num

/-- A binary64 value above 632 is at least `632 + 2 ^ (-43)`. -/
theorem roundQ_gt_632 (t : ℚ) (h : 632 < roundQ t) : 632 + 2 ^ (-43 : ℤ) ≤ roundQ t := by
  by_cases h1 : (1024 : ℚ) ≤ t
  · have := le_roundQ_of_pow_le t 10 (by norm_num) (by norm_num; exact h1)
    norm_num at this ⊢
    linarith
  by_cases h5 : t < 512
  · have := roundQ_le_of_le_pow t 9 (by norm_num) (by norm_num; exact h5.le)
    norm_num at this
    linarith
  have h5' : (512 : ℚ) ≤ t := not_lt.1 h5
  have h1' : t < 1024 := not_le.1 h1
  have habs : |t| = t := abs_of_pos (by linarith)
  have hq : quantum t = -43 := by
    rw [quantum_eq_of_bracket t 9 (by rw [habs]; norm_num; exact h5')
      (by rw [habs]; norm_num; exact h1')]
    norm_num
  unfold roundQ at h ⊢
  rw [hq] at h ⊢
  have hn : ((5559130790035456 : Int) : ℚ) < (halfEven (t / 2 ^ (-43 : ℤ)) : ℚ) := by
    have e : ((5559130790035456 : Int) : ℚ) = 632 / 2 ^ (-43 : ℤ) := by norm_num
    rw [e, div_lt_iff₀ (two_zpow_pos _)]
    exact h
  have hn' : 5559130790035457 ≤ halfEven (t / 2 ^ (-43 : ℤ)) := by
    have : 5559130790035456 < halfEven (t / 2 ^ (-43 : ℤ)) := by exact_mod_cast hn
    omega
  have hn'' : ((5559130790035457 : Int) : ℚ) ≤ (halfEven (t / 2 ^ (-43 : ℤ)) : ℚ) := by
    exact_mod_cast hn'
  calc (632 : ℚ) + 2 ^ (-43 : ℤ) = ((5559130790035457 : Int) : ℚ) * 2 ^ (-43 : ℤ) := by norm_num
    _ ≤ (halfEven (t / 2 ^ (-43 : ℤ)) : ℚ) * 2 ^ (-43 : ℤ) :=
        mul_le_mul_of_nonneg_right hn'' (two_zpow_pos _).le

/-- A value of at most `-2 ^ (-50)` rounds to a negative binary64 value. -/
theorem F64.round_lt_zero (s : ℚ) (h : s ≤ -(2 ^ (-50 : ℤ))) :
    F64.lt (F64.round s) (F64.fin 0) = true := by
  have hs : s < 0 := lt_of_le_of_lt h (neg_lt_zero.2 (two_zpow_pos _))
  have hr : roundQ s ≤ -(2 ^ (-50 : ℤ)) := by
    have := le_roundQ_of_pow_le (-s) (-50) (by norm_num) (by linarith)
    rw [roundQ_neg] at this
    linarith
  unfold F64.round
  split_ifs
  · simp [F64.lt, hs]
  · have : roundQ s < 0 := lt_of_le_of_lt hr (neg_lt_zero.2 (two_zpow_pos _))
    simp [F64.lt, this]

/-- A value of at least `640 + 2 ^ (-43)` rounds to a binary64 value above 640. -/
theorem F64.round_gt_640 (s : ℚ) (h : 640 + 2 ^ (-43 : ℤ) ≤ s) :
    F64.gt (F64.round s) (F64.fin 640) = true := by
  have hp := two_zpow_pos (-43)
  have hs : ¬ s < 0 := by linarith
  have hr : 640 < roundQ s := by
    by_cases h1 : (1024 : ℚ) ≤ s
    · have := le_roundQ_of_pow_le s 10 (by norm_num) (by norm_num; exact h1)
      norm_num at this
      linarith
    · have h1' : s < 1024 := not_le.1 h1
      have habs : |s| = s := abs_of_pos (by linarith)
      have hq : quantum s = -43 := by
        rw [quantum_eq_of_bracket s 9 (by rw [habs]; norm_num; linarith)
          (by rw [habs]; norm_num; exact h1')]
        norm_num
      have he := roundQ_err s
      rw [hq, abs_le] at he
      have he1 := he.1
      generalize (2 : ℚ) ^ (-43 : ℤ) = x at h hp he1
      linarith
  unfold F64.round
  split_ifs
  · simp [F64.gt, F64.lt, hs]
  · simp [F64.gt, F64.lt, hr]

/-! ### Fields that a block of `Update` leaves alone -/

@[simp] theorem machine_paddleStep_ballX (inp : Input) (g : Game) : (paddleStep inp g).ballX = g.ballX := by
  simp only [paddleStep]; split_ifs <;> rfl

@[simp] theorem machine_paddleStep_ballY (inp : Input) (g : Game) : (paddleStep inp g).ballY = g.ballY := by
  simp only [paddleStep]; split_ifs <;> rfl

@[simp] theorem machine_paddleStep_ballVX (inp : Input) (g : Game) : (paddleStep inp g).ballVX = g.ballVX := by
  simp only [paddleStep]; split_ifs <;> rfl

@[simp] theorem machine_paddleStep_ballVY (inp : Input) (g : Game) : (paddleStep inp g).ballVY = g.ballVY := by
  simp only [paddleStep]; split_ifs <;> rfl

@[simp] theorem machine_paddleStep_paddleW (inp : Input) (g : Game) : (paddleStep inp g).paddleW = g.paddleW := by
  simp only [paddleStep]; split_ifs <;> rfl

@[simp] theorem machine_paddleStep_bricks (inp : Input) (g : Game) : (paddleStep inp g).bricks = g.bricks := by
  simp only [paddleStep]; split_ifs <;> rfl

@[simp] theorem machine_paddleStep_score (inp : Input) (g : Game) : (paddleStep inp g).score = g.score := by
  simp only [paddleStep]; split_ifs <;> rfl

@[simp] theorem machine_paddleStep_lives (inp : Input) (g : Game) : (paddleStep inp g).lives = g.lives := by
  simp only [paddleStep]; split_ifs <;> rfl

@[simp] theorem machine_paddleStep_level (inp : Input) (g : Game) : (paddleStep inp g).level = g.level := by
  simp only [paddleStep]; split_ifs <;> rfl

@[simp] theorem machine_paddleStep_status (inp : Input) (g : Game) : (paddleStep inp g).status = g.status := by
  simp only [paddleStep]; split_ifs <;> rfl

@[simp] theorem machine_paddleStep_rng (inp : Input) (g : Game) : (paddleStep inp g).rng = g.rng := by
  simp only [paddleStep]; split_ifs <;> rfl

@[simp] theorem machine_moveStep_ballVX (g : Game) : (moveStep g).ballVX = g.ballVX := rfl

@[simp] theorem machine_moveStep_ballVY (g : Game) : (moveStep g).ballVY = g.ballVY := rfl

@[simp] theorem machine_moveStep_paddleX (g : Game) : (moveStep g).paddleX = g.paddleX := rfl

@[simp] theorem machine_moveStep_paddleW (g : Game) : (moveStep g).paddleW = g.paddleW := rfl

@[simp] theorem machine_moveStep_bricks (g : Game) : (moveStep g).bricks = g.bricks := rfl

@[simp] theorem machine_moveStep_score (g : Game) : (moveStep g).score = g.score := rfl

@[simp] theorem machine_moveStep_lives (g : Game) : (moveStep g).lives = g.lives := rfl

@[simp] theorem machine_moveStep_level (g : Game) : (moveStep g).level = g.level := rfl

@[simp] theorem machine_moveStep_status (g : Game) : (moveStep g).status = g.status := rfl

@[simp] theorem machine_moveStep_rng (g : Game) : (moveStep g).rng = g.rng := rfl

@[simp] theorem machine_wallStep_paddleX (g : Game) : (wallStep g).paddleX = g.paddleX := by
  simp only [wallStep]; split_ifs <;> rfl

@[simp] theorem machine_wallStep_paddleW (g : Game) : (wallStep g).paddleW = g.paddleW := by
  simp only [wallStep]; split_ifs <;> rfl

@[simp] theorem machine_wallStep_bricks (g : Game) : (wallStep g).bricks = g.bricks := by
  simp only [wallStep]; split_ifs <;> rfl

@[simp] theorem machine_wallStep_score (g : Game) : (wallStep g).score = g.score := by
  simp only [wallStep]; split_ifs <;> rfl

@[simp] theorem machine_wallStep_lives (g : Game) : (wallStep g).lives = g.lives := by
  simp only [wallStep]; split_ifs <;> rfl

@[simp] theorem machine_wallStep_level (g : Game) : (wallStep g).level = g.level := by
  simp only [wallStep]; split_ifs <;> rfl

@[simp] theorem machine_wallStep_status (g : Game) : (wallStep g).status = g.status := by
  simp only [wallStep]; split_ifs <;> rfl

@[simp] theorem machine_wallStep_rng (g : Game) : (wallStep g).rng = g.rng := by
  simp only [wallStep]; split_ifs <;> rfl

@[simp] theorem machine_paddleHitStep_ballX (g : Game) : (paddleHitStep g).ballX = g.ballX := by
  simp only [paddleHitStep]; split_ifs <;> rfl

@[simp] theorem machine_paddleHitStep_paddleX (g : Game) : (paddleHitStep g).paddleX = g.paddleX := by
  simp only [paddleHitStep]; split_ifs <;> rfl

@[simp] theorem machine_paddleHitStep_paddleW (g : Game) : (paddleHitStep g).paddleW = g.paddleW := by
  simp only [paddleHitStep]; split_ifs <;> rfl

@[simp] theorem machine_paddleHitStep_bricks (g : Game) : (paddleHitStep g).bricks = g.bricks := by
  simp only [paddleHitStep]; split_ifs <;> rfl

@[simp] theorem machine_paddleHitStep_score (g : Game) : (paddleHitStep g).score = g.score := by
  simp only [paddleHitStep]; split_ifs <;> rfl

@[simp] theorem machine_paddleHitStep_lives (g : Game) : (paddleHitStep g).lives = g.lives := by
  simp only [paddleHitStep]; split_ifs <;> rfl

@[simp] theorem machine_paddleHitStep_level (g : Game) : (paddleHitStep g).level = g.level := by
  simp only [paddleHitStep]; split_ifs <;> rfl

@[simp] theorem machine_paddleHitStep_status (g : Game) : (paddleHitStep g).status = g.status := by
  simp only [paddleHitStep]; split_ifs <;> rfl

@[simp] theorem machine_paddleHitStep_rng (g : Game) : (paddleHitStep g).rng = g.rng := by
  simp only [paddleHitStep]; split_ifs <;> rfl

@[simp] theorem machine_missStep_paddleW (g : Game) : (missStep g).paddleW = g.paddleW := by
  simp only [missStep]; split_ifs <;> rfl

@[simp] theorem machine_missStep_bricks (g : Game) : (missStep g).bricks = g.bricks := by
  simp only [missStep]; split_ifs <;> rfl

@[simp] theorem machine_missStep_score (g : Game) : (missStep g).score = g.score := by
  simp only [missStep]; split_ifs <;> rfl

@[simp] theorem machine_missStep_level (g : Game) : (missStep g).level = g.level := by
  simp only [missStep]; split_ifs <;> rfl

@[simp] theorem machine_missStep_rng (g : Game) : (missStep g).rng = g.rng := by
  simp only [missStep]; split_ifs <;> rfl

@[simp] theorem machine_brickStep_ballX (g : Game) : (brickStep g).ballX = g.ballX := rfl

@[simp] theorem machine_brickStep_ballY (g : Game) : (brickStep g).ballY = g.ballY := rfl

@[simp] theorem machine_brickStep_ballVX (g : Game) : (brickStep g).ballVX = g.ballVX := rfl

@[simp] theorem machine_brickStep_paddleX (g : Game) : (brickStep g).paddleX = g.paddleX := rfl

@[simp] theorem machine_brickStep_paddleW (g : Game) : (brickStep g).paddleW = g.paddleW := rfl

@[simp] theorem machine_brickStep_lives (g : Game) : (brickStep g).lives = g.lives := rfl

@[simp] theorem machine_brickStep_level (g : Game) : (brickStep g).level = g.level := rfl

@[simp] theorem machine_brickStep_status (g : Game) : (brickStep g).status = g.status := rfl

@[simp] theorem machine_brickStep_rng (g : Game) : (brickStep g).rng = g.rng := rfl

@[simp] theorem machine_winStep_ballX (g : Game) : (winStep g).ballX = g.ballX := by
  simp only [winStep]; split_ifs <;> rfl

@[simp] theorem machine_winStep_ballY (g : Game) : (winStep g).ballY = g.ballY := by
  simp only [winStep]; split_ifs <;> rfl

@[simp] theorem machine_winStep_ballVX (g : Game) : (winStep g).ballVX = g.ballVX := by
  simp only [winStep]; split_ifs <;> rfl

@[simp] theorem machine_winStep_ballVY (g : Game) : (winStep g).ballVY = g.ballVY := by
  simp only [winStep]; split_ifs <;> rfl

@[simp] theorem machine_winStep_paddleX (g : Game) : (winStep g).paddleX = g.paddleX := by
  simp only [winStep]; split_ifs <;> rfl

@[simp] theorem machine_winStep_paddleW (g : Game) : (winStep g).paddleW = g.paddleW := by
  simp only [winStep]; split_ifs <;> rfl

@[simp] theorem machine_winStep_bricks (g : Game) : (winStep g).bricks = g.bricks := by
  simp only [winStep]; split_ifs <;> rfl

@[simp] theorem machine_winStep_score (g : Game) : (winStep g).score = g.score := by
  simp only [winStep]; split_ifs <;> rfl

@[simp] theorem machine_winStep_lives (g : Game) : (winStep g).lives = g.lives := by
  simp only [winStep]; split_ifs <;> rfl

@[simp] theorem machine_winStep_level (g : Game) : (winStep g).level = g.level := by
  simp only [winStep]; split_ifs <;> rfl

@[simp] theorem machine_winStep_rng (g : Game) : (winStep g).rng = g.rng := by
  simp only [winStep]; split_ifs <;> rfl

/-! ### Wrapping integers -/

theorem wrapInt_of_range (n : Int) (h1 : minInt ≤ n) (h2 : n ≤ maxInt) : wrapInt n = n := by
  unfold wrapInt minInt maxInt at *
  omega

theorem wrapInt_wrapInt_add (a b : Int) : wrapInt (wrapInt a + b) = wrapInt (a + b) := by
  unfold wrapInt
  omega

theorem wrapInt_range (n : Int) : minInt ≤ wrapInt n ∧ wrapInt n ≤ maxInt := by
  unfold wrapInt minInt maxInt
  omega

/-- Adding 10 with wrap-around `n` times is exact while the sum stays in range. -/
theorem iterate_add10 (n : Nat) (sc : Int) (h1 : minInt ≤ sc) (h2 : sc + 10 * (n : Int) ≤ maxInt) :
    (fun s => wrapInt (s + 10))^[n] sc = sc + 10 * (n : Int) := by
  induction n generalizing sc with
  | zero => simp
  | succ n ih =>
    rw [Function.iterate_succ_apply]
    have hw : wrapInt (sc + 10) = sc + 10 := by
      apply wrapInt_of_range
      · unfold minInt at *; omega
      · push_cast at h2; omega
    rw [hw, ih (sc + 10) (by unfold minInt at *; omega) (by push_cast at h2 ⊢; omega)]
    push_cast
    ring

/-- Negating `n` times keeps the value for even `n` and negates it for odd `n`. -/
theorem iterate_neg (n : Nat) (v : F64) :
    F64.neg^[n] v = if n % 2 = 0 then v else F64.neg v := by
  induction n generalizing v with
  | zero => simp
  | succ n ih =>
    rw [Function.iterate_succ_apply, ih (F64.neg v), F64.neg_neg]
    have : n % 2 = 0 ∨ n % 2 = 1 := by omega
    rcases this with h | h
    · have h' : (n + 1) % 2 ≠ 0 := by omega
      rw [if_pos h, if_neg h']
    · have h' : (n + 1) % 2 = 0 := by omega
      have h'' : n % 2 ≠ 0 := by omega
      rw [if_neg h'', if_pos h']

/-! ### The brick-collision loops -/

/-- One iteration of the inner collision loop. -/
theorem machine_brickRowLoop_cons (x y : F64) (i j : Nat) (b : Brick) (bs : List Brick)
    (vy : F64) (sc : Int) :
    brickRowLoop x y i j (b :: bs) vy sc =
      (afterHit x y i j b ::
        (brickRowLoop x y i (j + 1) bs
          (if b.Visible && overlaps x y i j then F64.neg vy else vy)
          (if b.Visible && overlaps x y i j then wrapInt (sc + 10) else sc)).1,
       (brickRowLoop x y i (j + 1) bs
          (if b.Visible && overlaps x y i j then F64.neg vy else vy)
          (if b.Visible && overlaps x y i j then wrapInt (sc + 10) else sc)).2) := by
  cases hv : b.Visible <;> cases ho : overlaps x y i j <;> simp [brickRowLoop, afterHit, hv, ho]

/-- Result of the inner collision loop: every cell is tested once against the
fixed ball position; each hit negates `ballVY` and adds 10 to the score, with
wrap-around. -/
theorem machine_brickRowLoop_spec (x y : F64) (i : Nat) :
    ∀ (row : List Brick) (j : Nat) (vy : F64) (sc : Int),
    (∀ n, (brickRowLoop x y i j row vy sc).1.get? n = (row.get? n).map (afterHit x y i (j + n))) ∧
    (brickRowLoop x y i j row vy sc).2.1 = F64.neg^[rowHitsFrom x y i j row] vy ∧
    (brickRowLoop x y i j row vy sc).2.2 =
      (fun s => wrapInt (s + 10))^[rowHitsFrom x y i j row] sc := by
  intro row
  induction row with
  | nil => intro j vy sc; simp [brickRowLoop, rowHitsFrom]
  | cons b bs ih =>
    intro j vy sc
    rw [machine_brickRowLoop_cons]
    obtain ⟨h1, h2, h3⟩ := ih (j + 1) (if b.Visible && overlaps x y i j then F64.neg vy else vy)
      (if b.Visible && overlaps x y i j then wrapInt (sc + 10) else sc)
    refine ⟨?_, ?_, ?_⟩
    · intro n
      cases n with
      | zero => simp
      | succ k =>
        simp only [List.get?_cons_succ]
        rw [h1 k]
        have e : j + 1 + k = j + (k + 1) := by omega
        rw [e]
    · simp only [rowHitsFrom]
      rw [h2]
      split_ifs
      · rw [Nat.add_comm 1 _, Function.iterate_succ_apply]
      · simp
    · simp only [rowHitsFrom]
      rw [h3]
      split_ifs
      · rw [Nat.add_comm 1 _, Function.iterate_succ_apply]
      · simp

/-- Result of the nested collision loops over the rows from row `i` on. -/
theorem machine_brickGridLoop_spec (x y : F64) :
    ∀ (rows : List (List Brick)) (i : Nat) (vy : F64) (sc : Int),
    (brickGridLoop x y i rows vy sc).1.length = rows.length ∧
    (∀ m n, ((brickGridLoop x y i rows vy sc).1.getD m []).get? n =
      ((rows.getD m []).get? n).map (afterHit x y (i + m) n)) ∧
    (brickGridLoop x y i rows vy sc).2.1 = F64.neg^[gridHitsFrom x y i rows] vy ∧
    (brickGridLoop x y i rows vy sc).2.2 =
      (fun s => wrapInt (s + 10))^[gridHitsFrom x y i rows] sc := by
  intro rows
  induction rows with
  | nil => intro i vy sc; simp [brickGridLoop, gridHitsFrom]
  | cons row rows ih =>
    intro i vy sc
    obtain ⟨r1, r2, r3⟩ := machine_brickRowLoop_spec x y i row 0 vy sc
    obtain ⟨h0, h1, h2, h3⟩ := ih (i + 1) (brickRowLoop x y i 0 row vy sc).2.1
      (brickRowLoop x y i 0 row vy sc).2.2
    simp only [brickGridLoop, gridHitsFrom]
    refine ⟨?_, ?_, ?_, ?_⟩
    · simp [h0]
    · intro m n
      cases m with
      | zero =>
        simp only [List.getD_cons_zero, Nat.add_zero]
        rw [r1 n, Nat.zero_add]
      | succ k =>
        simp only [List.getD_cons_succ]
        rw [h1 k n]
        have e : i + 1 + k = i + (k + 1) := by omega
        rw [e]
    · rw [h2, r2, Nat.add_comm (rowHitsFrom x y i 0 row) _, Function.iterate_add_apply]
    · rw [h3, r3, Nat.add_comm (rowHitsFrom x y i 0 row) _, Function.iterate_add_apply]

/-- The recursive hit count of a row as a sum over its columns. -/
theorem machine_rowHitsFrom_eq_sum (x y : F64) (i : Nat) : ∀ (row : List Brick) (j : Nat),
    rowHitsFrom x y i j row = ∑ n ∈ Finset.range row.length,
      if hitAt x y i (j + n) (row.get? n) then 1 else 0 := by
  intro row
  induction row with
  | nil => intro j; simp [rowHitsFrom]
  | cons b bs ih =>
    intro j
    simp only [rowHitsFrom, List.length_cons]
    rw [Finset.sum_range_succ', ih (j + 1)]
    simp only [List.get?_cons_succ, List.get?_cons_zero, Nat.add_zero, hitAt]
    have e : ∀ n, j + 1 + n = j + (n + 1) := fun n => by omega
    simp only [e]
    exact add_comm _ _

/-- The recursive hit count of a grid as a sum over its cells. -/
theorem machine_gridHitsFrom_eq_sum (x y : F64) : ∀ (rows : List (List Brick)) (i : Nat),
    gridHitsFrom x y i rows = ∑ m ∈ Finset.range rows.length,
      ∑ n ∈ Finset.range (rows.getD m []).length,
        if hitAt x y (i + m) n ((rows.getD m []).get? n) then 1 else 0 := by
  intro rows
  induction rows with
  | nil => intro i; simp [gridHitsFrom]
  | cons row rows ih =>
    intro i
    simp only [gridHitsFrom, List.length_cons]
    rw [Finset.sum_range_succ', ih (i + 1), machine_rowHitsFrom_eq_sum]
    simp only [List.getD_cons_succ, List.getD_cons_zero, Nat.add_zero, Nat.zero_add]
    have e : ∀ m, i + 1 + m = i + (m + 1) := fun m => by omega
    simp only [e]
    exact add_comm _ _

/-- The hit count met by the loops is the number of hit cells of the grid. -/
theorem machine_gridHitsFrom_zero (x y : F64) (grid : List (List Brick)) :
    gridHitsFrom x y 0 grid = hitCount x y grid := by
  rw [machine_gridHitsFrom_eq_sum]
  simp only [hitCount, isHit, cellAt, Nat.zero_add]

/-! ### The simulation step -/

/-- In a Playing state `Update` runs the seven blocks of the simulation step. -/
theorem machine_Update_playing (inp : Input) (g : Game) (hs : g.status = "playing") :
    Update inp g = winStep (brickStep (preBrick inp g)) := by
  unfold Update
  simp [hs]

/-- The blocks before the brick loop keep grid, score, level and paddle width. -/
theorem machine_preBrick_frame (inp : Input) (g : Game) :
    (preBrick inp g).bricks = g.bricks ∧ (preBrick inp g).score = g.score ∧
    (preBrick inp g).level = g.level ∧ (preBrick inp g).paddleW = g.paddleW := by
  simp [preBrick, afterWall]

/-- The blocks before the paddle collision keep everything but the ball and
the paddle position. -/
theorem machine_afterWall_frame (inp : Input) (g : Game) :
    (afterWall inp g).paddleX = (paddleStep inp g).paddleX ∧
    (afterWall inp g).paddleW = g.paddleW ∧
    (afterWall inp g).lives = g.lives ∧
    (afterWall inp g).level = g.level ∧
    (afterWall inp g).status = g.status ∧
    (afterWall inp g).score = g.score ∧
    (afterWall inp g).bricks = g.bricks := by
  simp [afterWall]

/-- The grid, `ballVY` and score after `Update` in a Playing state. -/
theorem machine_Update_playing_bricks (inp : Input) (g : Game) (hs : g.status = "playing") :
    (Update inp g).bricks.length = g.bricks.length ∧
    (∀ i j, cellAt (Update inp g).bricks i j =
      (cellAt g.bricks i j).map (afterHit (preBrick inp g).ballX (preBrick inp g).ballY i j)) ∧
    (Update inp g).ballVY =
      F64.neg^[hitCount (preBrick inp g).ballX (preBrick inp g).ballY g.bricks]
        (preBrick inp g).ballVY ∧
    (Update inp g).score =
      (fun s => wrapInt (s + 10))^[hitCount (preBrick inp g).ballX (preBrick inp g).ballY
        g.bricks] g.score := by
  rw [machine_Update_playing inp g hs]
  set p := preBrick inp g with hp
  obtain ⟨h0, h1, h2, h3⟩ := machine_brickGridLoop_spec p.ballX p.ballY p.bricks 0 p.ballVY p.score
  obtain ⟨hb, hsc, _, _⟩ := machine_preBrick_frame inp g
  have e2 : (brickStep p).bricks = (brickGridLoop p.ballX p.ballY 0 p.bricks p.ballVY p.score).1 :=
    rfl
  have e3 : (brickStep p).ballVY =
      (brickGridLoop p.ballX p.ballY 0 p.bricks p.ballVY p.score).2.1 := rfl
  have e4 : (brickStep p).score =
      (brickGridLoop p.ballX p.ballY 0 p.bricks p.ballVY p.score).2.2 := rfl
  refine ⟨?_, ?_, ?_, ?_⟩
  · rw [machine_winStep_bricks, e2, h0, hb]
  · intro i j
    rw [machine_winStep_bricks, e2]
    have := h1 i j
    rw [Nat.zero_add] at this
    simp only [cellAt]
    rw [this, hb]
  · rw [machine_winStep_ballVY, e3, h2, machine_gridHitsFrom_zero, hb]
  · rw [machine_winStep_score, e4, h3, machine_gridHitsFrom_zero, hb, hsc]

/-! ### The wall, paddle-collision and miss blocks -/

/-- A ball clamped to the left wall is not past the right wall. -/
theorem machine_clamped_left_not_right :
    F64.gt (F64.add (F64.fin (ballRadius : ℚ)) (F64.fin (ballRadius : ℚ)))
      (F64.fin (screenWidth : ℚ)) = false := by
  norm_num [ballRadius, screenWidth, F64.add_fin, F64.gt_fin, F64.round_ofNat]

/-- A side bounce negates `ballVX` exactly once. -/
theorem machine_wallStep_ballVX_of_side (g : Game)
    (h : F64.lt (F64.sub g.ballX (F64.fin (ballRadius : ℚ))) (F64.fin 0) = true ∨
      F64.gt (F64.add g.ballX (F64.fin (ballRadius : ℚ))) (F64.fin (screenWidth : ℚ)) = true) :
    (wallStep g).ballVX = F64.neg g.ballVX := by
  simp only [wallStep]
  by_cases h1 : F64.lt (F64.sub g.ballX (F64.fin (ballRadius : ℚ))) (F64.fin 0) = true
  · rw [if_pos h1]
    dsimp only
    rw [machine_clamped_left_not_right]
    simp only [Bool.false_eq_true, if_false]
    split_ifs <;> rfl
  · have h2 := h.resolve_left h1
    rw [if_neg h1, if_pos h2]
    split_ifs <;> rfl

/-- The wall block negates `ballVY` exactly when the top test holds. -/
theorem machine_wallStep_ballVY (g : Game) :
    (wallStep g).ballVY =
      if F64.lt (F64.sub g.ballY (F64.fin (ballRadius : ℚ))) (F64.fin 0) then F64.neg g.ballVY
      else g.ballVY := by
  simp only [wallStep]
  split_ifs <;> rfl

/-- The wall block changes nothing when none of its three tests holds. -/
theorem machine_wallStep_of_inside (g : Game)
    (h1 : F64.lt (F64.sub g.ballX (F64.fin (ballRadius : ℚ))) (F64.fin 0) = false)
    (h2 : F64.gt (F64.add g.ballX (F64.fin (ballRadius : ℚ))) (F64.fin (screenWidth : ℚ)) = false)
    (h3 : F64.lt (F64.sub g.ballY (F64.fin (ballRadius : ℚ))) (F64.fin 0) = false) :
    wallStep g = g := by
  simp [wallStep, h1, h2, h3]

theorem machine_paddleHitStep_of_not (g : Game) (h : paddleCollides g = false) :
    paddleHitStep g = g := by
  simp [paddleHitStep, h]

theorem machine_missStep_of_not (g : Game) (h : ballMissed g = false) : missStep g = g := by
  simp [missStep, h]

/-- Without paddle collision and miss the brick loop starts from the state
after the wall block. -/
theorem machine_preBrick_of_not (inp : Input) (g : Game)
    (hnp : paddleCollides (afterWall inp g) = false)
    (hnm : ballMissed (afterWall inp g) = false) : preBrick inp g = afterWall inp g := by
  show missStep (paddleHitStep (afterWall inp g)) = afterWall inp g
  rw [machine_paddleHitStep_of_not _ hnp, machine_missStep_of_not _ hnm]

/-! ### Evaluation of ticks without bounce -/

/-- A tick with no key held in which the moved ball `(x, y)` is inside the
walls, above the paddle band and not missed: the blocks before the brick loop
only move the ball. -/
theorem machine_preBrick_free (g : Game) (x y xl xr yt yb : ℚ)
    (hx : F64.add g.ballX g.ballVX = F64.fin x) (hy : F64.add g.ballY g.ballVY = F64.fin y)
    (hxl : F64.sub (F64.fin x) (F64.fin 8) = F64.fin xl)
    (hxr : F64.add (F64.fin x) (F64.fin 8) = F64.fin xr)
    (hyt : F64.sub (F64.fin y) (F64.fin 8) = F64.fin yt)
    (hyb : F64.add (F64.fin y) (F64.fin 8) = F64.fin yb)
    (h1 : 0 ≤ xl) (h2 : xr ≤ 640) (h3 : 0 ≤ yt) (h4 : yt ≤ 480) (h5 : yb ≤ 464) :
    afterWall noKeys g = { g with ballX := F64.fin x, ballY := F64.fin y } ∧
    paddleCollides (afterWall noKeys g) = false ∧
    ballMissed (paddleHitStep (afterWall noKeys g)) = false ∧
    preBrick noKeys g = { g with ballX := F64.fin x, ballY := F64.fin y } := by
  have c8 : ((ballRadius : Nat) : ℚ) = 8 := by norm_num [ballRadius]
  have c640 : ((screenWidth : Nat) : ℚ) = 640 := by norm_num [screenWidth]
  have c480 : ((screenHeight : Nat) : ℚ) = 480 := by norm_num [screenHeight]
  have c464 : ((screenHeight - paddleHeight : Nat) : ℚ) = 464 := by
    norm_num [screenHeight, paddleHeight]
  have hm : moveStep (paddleStep noKeys g) =
      { g with ballX := F64.fin x, ballY := F64.fin y } := by
    simp only [moveStep, paddleStep, noKeys, Bool.false_eq_true, if_false]
    rw [hx, hy]
  have hw : afterWall noKeys g = { g with ballX := F64.fin x, ballY := F64.fin y } := by
    simp only [afterWall]
    rw [hm]
    apply machine_wallStep_of_inside
    · show F64.lt (F64.sub (F64.fin x) (F64.fin (ballRadius : ℚ))) (F64.fin 0) = false
      rw [c8, hxl, F64.lt_fin]
      exact decide_eq_false (not_lt.2 h1)
    · show F64.gt (F64.add (F64.fin x) (F64.fin (ballRadius : ℚ))) (F64.fin (screenWidth : ℚ)) =
        false
      rw [c8, c640, hxr, F64.gt_fin]
      exact decide_eq_false (not_lt.2 h2)
    · show F64.lt (F64.sub (F64.fin y) (F64.fin (ballRadius : ℚ))) (F64.fin 0) = false
      rw [c8, hyt, F64.lt_fin]
      exact decide_eq_false (not_lt.2 h3)
  have hnp : paddleCollides (afterWall noKeys g) = false := by
    rw [hw]
    have : F64.gt (F64.add (F64.fin y) (F64.fin (ballRadius : ℚ)))
        (F64.fin ((screenHeight - paddleHeight : Nat) : ℚ)) = false := by
      rw [c8, c464, hyb, F64.gt_fin]
      exact decide_eq_false (not_lt.2 h5)
    simp only [paddleCollides, this, Bool.false_and]
  have hnm : ballMissed (paddleHitStep (afterWall noKeys g)) = false := by
    rw [machine_paddleHitStep_of_not _ hnp, hw]
    show F64.gt (F64.sub (F64.fin y) (F64.fin (ballRadius : ℚ))) (F64.fin (screenHeight : ℚ)) =
      false
    rw [c8, c480, hyt, F64.gt_fin]
    exact decide_eq_false (not_lt.2 h4)
  refine ⟨hw, hnp, hnm, ?_⟩
  rw [machine_preBrick_of_not _ _ hnp (by rw [← machine_paddleHitStep_of_not _ hnp]; exact hnm), hw]

/-- A small natural number is a binary64 value. -/
theorem F64.round_small (n : Int) (h0 : 0 ≤ n) (h : n < 10000) :
    F64.round (n : ℚ) = F64.fin (n : ℚ) := by
  apply F64.round_int
  rw [abs_of_nonneg h0]
  calc n < 10000 := h
    _ ≤ 2 ^ 53 := by norm_num

/-- The left edge of the bricks of a column, as a binary64 value. -/
theorem machine_brickX_eq (j : Nat) (hj : j < 100) :
    brickX j = F64.fin ((j : ℚ) * 60 + 4) := by
  have h1 : wrapInt ((j : Int) * (brickW + brickGap : Nat) + (brickGap : Nat)) = (j : Int) * 60 + 4 := by
    simp only [brickW, brickGap]
    apply wrapInt_of_range <;> simp only [minInt, maxInt] <;> push_cast <;> omega
  unfold brickX F64.ofInt
  rw [h1, F64.round_small _ (by omega) (by omega)]
  push_cast
  rfl

/-- The top edge of the bricks of a row, as a binary64 value. -/
theorem machine_brickY_eq (i : Nat) (hi : i < 100) :
    brickY i = F64.fin ((i : ℚ) * 28 + 4) := by
  have h1 : wrapInt ((i : Int) * (brickH + brickGap : Nat) + (brickGap : Nat)) = (i : Int) * 28 + 4 := by
    simp only [brickH, brickGap]
    apply wrapInt_of_range <;> simp only [minInt, maxInt] <;> push_cast <;> omega
  unfold brickY F64.ofInt
  rw [h1, F64.round_small _ (by omega) (by omega)]
  push_cast
  rfl

/-- The overlap test of the code in terms of the four rounded ball edges. -/
theorem machine_overlaps_eval (x y : F64) (xl xr yt yb : ℚ) (i j : Nat)
    (hxl : F64.sub x (F64.fin 8) = F64.fin xl) (hxr : F64.add x (F64.fin 8) = F64.fin xr)
    (hyt : F64.sub y (F64.fin 8) = F64.fin yt) (hyb : F64.add y (F64.fin 8) = F64.fin yb)
    (hi : i < 100) (hj : j < 100) :
    overlaps x y i j =
      (decide ((j : ℚ) * 60 + 4 < xr) && decide (xl < (j : ℚ) * 60 + 60) &&
        decide ((i : ℚ) * 28 + 4 < yb) && decide (yt < (i : ℚ) * 28 + 28)) := by
  have c8 : ((ballRadius : Nat) : ℚ) = 8 := by norm_num [ballRadius]
  have c56 : ((brickW : Nat) : ℚ) = 56 := by norm_num [brickW]
  have c24 : ((brickH : Nat) : ℚ) = 24 := by norm_num [brickH]
  have e1 : F64.add (F64.fin ((j : ℚ) * 60 + 4)) (F64.fin 56) = F64.fin ((j : ℚ) * 60 + 60) := by
    rw [F64.add_fin]
    have h2 := F64.round_small ((j : Int) * 60 + 60) (by omega) (by omega)
    push_cast at h2
    rw [← h2]
    congr 1
    ring
  have e2 : F64.add (F64.fin ((i : ℚ) * 28 + 4)) (F64.fin 24) = F64.fin ((i : ℚ) * 28 + 28) := by
    rw [F64.add_fin]
    have h2 := F64.round_small ((i : Int) * 28 + 28) (by omega) (by omega)
    push_cast at h2
    rw [← h2]
    congr 1
    ring
  unfold overlaps
  rw [c8, c56, c24, hxl, hxr, hyt, hyb, machine_brickX_eq j hj, machine_brickY_eq i hi, e1, e2,
    F64.gt_fin, F64.gt_fin, F64.lt_fin, F64.lt_fin]

/-- The number of bricks of the full grid hit by a ball whose rounded edges
are `48 + 2 ^ (-47)`, `64`, `12` and `28`: the brick of cell `(0, 0)` only. -/
theorem machine_hitCount_edge (x y : F64)
    (hxl : F64.sub x (F64.fin 8) = F64.fin (48 + 2 ^ (-47 : ℤ)))
    (hxr : F64.add x (F64.fin 8) = F64.fin 64)
    (hyt : F64.sub y (F64.fin 8) = F64.fin 12) (hyb : F64.add y (F64.fin 8) = F64.fin 28) :
    hitCount x y (uniformGrid true) = 1 := by
  rw [← machine_gridHitsFrom_zero]
  simp [gridHitsFrom, rowHitsFrom, uniformGrid, List.replicate, brickRows, brickCols,
    machine_overlaps_eval x y _ _ _ _ _ _ hxl hxr hyt hyb]
  norm_num

/-- The number of bricks of the full grid hit by a ball whose rounded edges
are 22, 38, 12 and 28: the brick of cell `(0, 0)` only. -/
theorem machine_hitCount_one (x y : F64)
    (hxl : F64.sub x (F64.fin 8) = F64.fin 22) (hxr : F64.add x (F64.fin 8) = F64.fin 38)
    (hyt : F64.sub y (F64.fin 8) = F64.fin 12) (hyb : F64.add y (F64.fin 8) = F64.fin 28) :
    hitCount x y (uniformGrid true) = 1 := by
  rw [← machine_gridHitsFrom_zero]
  simp [gridHitsFrom, rowHitsFrom, uniformGrid, List.replicate, brickRows, brickCols,
    machine_overlaps_eval x y _ _ _ _ _ _ hxl hxr hyt hyb]
  norm_num

/-- The number of bricks of the full grid hit by a ball whose rounded edges
are 22, 38, 18 and 34: the bricks of the cells `(0, 0)` and `(1, 0)`. -/
theorem machine_hitCount_two (x y : F64)
    (hxl : F64.sub x (F64.fin 8) = F64.fin 22) (hxr : F64.add x (F64.fin 8) = F64.fin 38)
    (hyt : F64.sub y (F64.fin 8) = F64.fin 18) (hyb : F64.add y (F64.fin 8) = F64.fin 34) :
    hitCount x y (uniformGrid true) = 2 := by
  rw [← machine_gridHitsFrom_zero]
  simp [gridHitsFrom, rowHitsFrom, uniformGrid, List.replicate, brickRows, brickCols,
    machine_overlaps_eval x y _ _ _ _ _ _ hxl hxr hyt hyb]
  norm_num

/-- Adding 10 with wrap-around `n` times adds `10 * n` modulo `2 ^ 64`. -/
theorem iterate_add10_wrap (n : Nat) (sc : Int) (h1 : minInt ≤ sc) (h2 : sc ≤ maxInt) :
    (fun s => wrapInt (s + 10))^[n] sc = wrapInt (sc + 10 * (n : Int)) := by
  induction n with
  | zero => simp [wrapInt_of_range sc h1 h2]
  | succ n ih =>
    rw [Function.iterate_succ_apply', ih, wrapInt_wrapInt_add]
    congr 1
    push_cast
    ring

/-! ### Evaluation of the brick sample states -/

theorem machine_edge_move :
    F64.add (F64.fin (53 + 2 ^ (-47 : ℤ))) (F64.fin 3) = F64.fin (56 + 2 ^ (-47 : ℤ)) := by
  rw [F64.add_fin]
  have h := F64.round_eval (53 + 2 ^ (-47 : ℤ) + 3) 5 (-47) 7881299347898369
    (by norm_num [abs_of_pos]) (by norm_num [abs_of_pos]) (by norm_num)
    (by norm_num [halfEven]) (by norm_num [abs_of_pos])
  rw [h]
  congr 1
  norm_num

/-- The left edge of the ball of `edgeGame` after the move is exact. -/
theorem machine_edge_left :
    F64.sub (F64.fin (56 + 2 ^ (-47 : ℤ))) (F64.fin 8) = F64.fin (48 + 2 ^ (-47 : ℤ)) := by
  rw [F64.sub_fin]
  have h := F64.round_eval (56 + 2 ^ (-47 : ℤ) - 8) 5 (-47) 6755399441055745
    (by norm_num [abs_of_pos]) (by norm_num [abs_of_pos]) (by norm_num)
    (by norm_num [halfEven]) (by norm_num [abs_of_pos])
  rw [h]
  congr 1
  norm_num

/-- The right edge of the ball of `edgeGame` after the move, `64 + 2 ^ (-47)`
exactly, is a tie between 64 and `64 + 2 ^ (-46)` and rounds to 64. -/
theorem machine_edge_right :
    F64.add (F64.fin (56 + 2 ^ (-47 : ℤ))) (F64.fin 8) = F64.fin 64 := by
  rw [F64.add_fin]
  have h := F64.round_eval (56 + 2 ^ (-47 : ℤ) + 8) 6 (-46) 4503599627370496
    (by norm_num [abs_of_pos]) (by norm_num [abs_of_pos]) (by norm_num)
    (by norm_num [halfEven]) (by norm_num [abs_of_pos])
  rw [h]
  congr 1
  norm_num

theorem machine_add_20_8 : F64.add (F64.fin 20) (F64.fin 8) = F64.fin 28 := by
  norm_num [F64.add_fin, F64.round_ofNat]

theorem machine_sub_20_8 : F64.sub (F64.fin 20) (F64.fin 8) = F64.fin 12 := by
  norm_num [F64.sub_fin, F64.round_ofNat]

theorem machine_add_23_m3 : F64.add (F64.fin 23) (F64.fin (-3)) = F64.fin 20 := by
  norm_num [F64.add_fin, F64.round_ofNat]

theorem machine_add_27_3 : F64.add (F64.fin 27) (F64.fin 3) = F64.fin 30 := by
  norm_num [F64.add_fin, F64.round_ofNat]

theorem machine_add_30_8 : F64.add (F64.fin 30) (F64.fin 8) = F64.fin 38 := by
  norm_num [F64.add_fin, F64.round_ofNat]

theorem machine_sub_30_8 : F64.sub (F64.fin 30) (F64.fin 8) = F64.fin 22 := by
  norm_num [F64.sub_fin, F64.round_ofNat]

/-- The ball of `edgeGame` moves to `(56 + 2 ^ (-47), 20)` without any bounce. -/
theorem machine_preBrick_edgeGame :
    afterWall noKeys edgeGame =
      { edgeGame with ballX := F64.fin (56 + 2 ^ (-47 : ℤ)), ballY := F64.fin 20 } ∧
    paddleCollides (afterWall noKeys edgeGame) = false ∧
    ballMissed (paddleHitStep (afterWall noKeys edgeGame)) = false ∧
    preBrick noKeys edgeGame =
      { edgeGame with ballX := F64.fin (56 + 2 ^ (-47 : ℤ)), ballY := F64.fin 20 } :=
  machine_preBrick_free edgeGame _ _ _ _ _ _ machine_edge_move machine_add_23_m3
    machine_edge_left machine_edge_right machine_sub_20_8 machine_add_20_8
    (by norm_num) (by norm_num) (by norm_num) (by norm_num) (by norm_num)

/-- The ball of `cornerGame` moves to `(30, 20)` without any bounce, whatever
the score. -/
theorem machine_preBrick_cornerGame (sc : Int) :
    preBrick noKeys { cornerGame with score := sc } =
      { cornerGame with score := sc, ballX := F64.fin 30, ballY := F64.fin 20 } :=
  (machine_preBrick_free { cornerGame with score := sc } _ _ _ _ _ _ machine_add_27_3
    machine_add_23_m3 machine_sub_30_8 machine_add_30_8 machine_sub_20_8 machine_add_20_8
    (by norm_num) (by norm_num) (by norm_num) (by norm_num) (by norm_num)).2.2.2

/-- The code hits exactly one brick of the full grid in the tick of `edgeGame`. -/
theorem machine_hitCount_edgeGame :
    hitCount (F64.fin (56 + 2 ^ (-47 : ℤ))) (F64.fin 20) (uniformGrid true) = 1 :=
  machine_hitCount_edge _ _ machine_edge_left machine_edge_right machine_sub_20_8 machine_add_20_8

/-- The code hits exactly one brick of the full grid at `(30, 20)`. -/
theorem machine_hitCount_corner :
    hitCount (F64.fin 30) (F64.fin 20) (uniformGrid true) = 1 :=
  machine_hitCount_one _ _ machine_sub_30_8 machine_add_30_8 machine_sub_20_8 machine_add_20_8

/-- In exact arithmetic the box of a ball centred at `(56 + 2 ^ (-47), 20)`
strictly overlaps the boxes of two bricks of the full grid, those of the cells
`(0, 0)` and `(0, 1)`. -/
theorem exact_hitCount_edge :
    Breakout.hitCount (56 + 2 ^ (-47 : ℤ)) 20 (uniformGrid true) = 2 ∧
    Breakout.isHit (56 + 2 ^ (-47 : ℤ)) 20 (uniformGrid true) 0 1 = true := by
  constructor
  · rw [← Breakout.gridHitsFrom_zero]
    simp [Breakout.gridHitsFrom, Breakout.rowHitsFrom, uniformGrid, Breakout.overlaps,
      Breakout.brickX, Breakout.brickY, brickRows, brickCols, brickW, brickH, brickGap,
      ballRadius, List.replicate]
    norm_num
  · simp [Breakout.isHit, Breakout.hitAt, cellAt, uniformGrid, Breakout.overlaps,
      Breakout.brickX, Breakout.brickY, brickRows, brickCols, brickW, brickH, brickGap,
      ballRadius, List.replicate]
    norm_num

/-! ### The ball stays inside the walls -/

/-- A finite binary64 sum is a rounded value. -/
theorem F64.add_grid (a b : F64) (q : ℚ) (h : F64.add a b = F64.fin q) : ∃ t, q = roundQ t := by
  cases a <;> cases b <;> simp only [F64.add] at h
  case fin.fin x y =>
    unfold F64.round at h
    split_ifs at h
    injection h with h
    exact ⟨x + y, h.symm⟩
  all_goals first | cases h | (split_ifs at h)

/-- A sum of two finite binary64 values is not NaN. -/
theorem F64.add_ne_nan (a b : F64) (ha : a.isFinite = true) (hb : b.isFinite = true) :
    F64.add a b ≠ F64.nan := by
  cases a <;> cases b <;> simp only [F64.isFinite, Bool.false_eq_true] at ha hb
  simp only [F64.add, F64.round]
  split_ifs <;> simp

/-- The horizontal position after the wall block. -/
theorem machine_wallStep_ballX (g : Game) :
    (wallStep g).ballX =
      if F64.gt (F64.add (if F64.lt (F64.sub g.ballX (F64.fin 8)) (F64.fin 0) then F64.fin 8
          else g.ballX) (F64.fin 8)) (F64.fin 640) then F64.fin 632
      else if F64.lt (F64.sub g.ballX (F64.fin 8)) (F64.fin 0) then F64.fin 8 else g.ballX := by
  have c8 : ((ballRadius : Nat) : ℚ) = 8 := by norm_num [ballRadius]
  have c640 : ((screenWidth : Nat) : ℚ) = 640 := by norm_num [screenWidth]
  have c632 : ((screenWidth - ballRadius : Nat) : ℚ) = 632 := by norm_num [screenWidth, ballRadius]
  simp only [wallStep, c8, c640, c632]
  split_ifs <;> rfl

/-- The vertical position after the wall block. -/
theorem machine_wallStep_ballY (g : Game) :
    (wallStep g).ballY =
      if F64.lt (F64.sub g.ballY (F64.fin 8)) (F64.fin 0) then F64.fin 8 else g.ballY := by
  have c8 : ((ballRadius : Nat) : ℚ) = 8 := by norm_num [ballRadius]
  simp only [wallStep, c8]
  split_ifs <;> rfl

/-- A binary64 position whose left-wall test fails is at least 8. -/
theorem machine_left_test (t : ℚ)
    (h : F64.lt (F64.sub (F64.fin (roundQ t)) (F64.fin 8)) (F64.fin 0) = false) :
    8 ≤ roundQ t := by
  by_contra hlt
  have h1 := roundQ_lt_eight t (not_le.1 hlt)
  rw [F64.sub_fin, F64.round_lt_zero _ (by linarith)] at h
  exact Bool.noConfusion h

/-- A binary64 position whose right-wall test fails is at most 632. -/
theorem machine_right_test (t : ℚ)
    (h : F64.gt (F64.add (F64.fin (roundQ t)) (F64.fin 8)) (F64.fin 640) = false) :
    roundQ t ≤ 632 := by
  by_contra hgt
  have h1 := roundQ_gt_632 t (not_le.1 hgt)
  rw [F64.add_fin, F64.round_gt_640 _ (by linarith)] at h
  exact Bool.noConfusion h

/-- The wall block puts a ball whose horizontal position is a binary64 number
or an infinity inside the side walls. -/
theorem machine_wallStep_ballX_inside (g : Game) (hn : g.ballX ≠ F64.nan)
    (hg : ∀ q, g.ballX = F64.fin q → ∃ t, q = roundQ t) :
    F64.le (F64.fin 8) (wallStep g).ballX = true ∧
    F64.le (wallStep g).ballX (F64.fin 632) = true := by
  have hc : F64.gt (F64.add (F64.fin 8) (F64.fin 8)) (F64.fin 640) = false := by
    have := machine_clamped_left_not_right
    simp only [ballRadius, screenWidth] at this
    norm_num at this
    exact this
  rw [machine_wallStep_ballX]
  generalize g.ballX = x at hn hg
  cases x with
  | nan => exact absurd rfl hn
  | inf s =>
    cases s
    · simp [F64.sub, F64.neg, F64.add, F64.lt, F64.gt, F64.le]
      norm_num
    · have hl : F64.lt (F64.sub (F64.inf true) (F64.fin 8)) (F64.fin 0) = true := by
        simp [F64.sub, F64.neg, F64.add, F64.lt]
      simp only [hl, if_true, hc, Bool.false_eq_true, if_false, F64.le_fin, decide_eq_true_eq]
      norm_num
  | fin q =>
    obtain ⟨t, rfl⟩ := hg q rfl
    by_cases hl : F64.lt (F64.sub (F64.fin (roundQ t)) (F64.fin 8)) (F64.fin 0) = true
    · simp only [hl, if_true, hc, Bool.false_eq_true, if_false, F64.le_fin, decide_eq_true_eq]
      norm_num
    · have hl' : F64.lt (F64.sub (F64.fin (roundQ t)) (F64.fin 8)) (F64.fin 0) = false := by
        simpa using hl
      have h8 := machine_left_test t hl'
      simp only [hl', Bool.false_eq_true, if_false]
      by_cases hr : F64.gt (F64.add (F64.fin (roundQ t)) (F64.fin 8)) (F64.fin 640) = true
      · simp only [hr, if_true, F64.le_fin, decide_eq_true_eq]
        norm_num
      · have hr' : F64.gt (F64.add (F64.fin (roundQ t)) (F64.fin 8)) (F64.fin 640) = false := by
          simpa using hr
        have h632 := machine_right_test t hr'
        simp only [hr', Bool.false_eq_true, if_false, F64.le_fin, decide_eq_true_eq]
        exact ⟨h8, h632⟩

/-- The wall block puts a ball whose vertical position is a binary64 number or
an infinity below the top wall. -/
theorem machine_wallStep_ballY_inside (g : Game) (hn : g.ballY ≠ F64.nan)
    (hg : ∀ q, g.ballY = F64.fin q → ∃ t, q = roundQ t) :
    F64.le (F64.fin 8) (wallStep g).ballY = true := by
  rw [machine_wallStep_ballY]
  generalize g.ballY = y at hn hg
  cases y with
  | nan => exact absurd rfl hn
  | inf s =>
    cases s
    · simp [F64.sub, F64.neg, F64.add, F64.lt, F64.le]
    · simp [F64.sub, F64.neg, F64.add, F64.lt, F64.le]
  | fin q =>
    obtain ⟨t, rfl⟩ := hg q rfl
    by_cases hl : F64.lt (F64.sub (F64.fin (roundQ t)) (F64.fin 8)) (F64.fin 0) = true
    · simp only [hl, if_true, F64.le_fin, decide_eq_true_eq]
      norm_num
    · have hl' : F64.lt (F64.sub (F64.fin (roundQ t)) (F64.fin 8)) (F64.fin 0) = false := by
        simpa using hl
      have h8 := machine_left_test t hl'
      simp only [hl', Bool.false_eq_true, if_false, F64.le_fin, decide_eq_true_eq]
      exact h8

/-- The paddle block keeps `ballY` or sets it to 456. -/
theorem machine_paddleHitStep_ballY_cases (g : Game) :
    (paddleHitStep g).ballY = g.ballY ∨ (paddleHitStep g).ballY = F64.fin 456 := by
  have h456 : F64.sub (F64.fin ((screenHeight - paddleHeight : Nat) : ℚ))
      (F64.fin (ballRadius : ℚ)) = F64.fin 456 := by
    norm_num [screenHeight, paddleHeight, ballRadius, F64.sub_fin, F64.round_ofNat]
  simp only [paddleHitStep]
  split_ifs
  · right; exact h456
  · left; rfl

/-- The miss block keeps the ball position or puts the ball at `(320, 240)`. -/
theorem machine_missStep_ball_cases (g : Game) :
    ((missStep g).ballX = g.ballX ∧ (missStep g).ballY = g.ballY) ∨
    ((missStep g).ballX = F64.fin 320 ∧ (missStep g).ballY = F64.fin 240) := by
  have c320 : ((screenWidth / 2 : Nat) : ℚ) = 320 := by norm_num [screenWidth]
  have c240 : ((screenHeight / 2 : Nat) : ℚ) = 240 := by norm_num [screenHeight]
  simp only [missStep]
  split_ifs
  · left; exact ⟨rfl, rfl⟩
  · right; exact ⟨by rw [← c320], by rw [← c240]⟩
  · left; exact ⟨rfl, rfl⟩

/-- The ball of a Playing state after `Update` is the ball at the start of the
brick loop. -/
theorem machine_Update_ball (inp : Input) (g : Game) (hs : g.status = "playing") :
    (Update inp g).ballX = (preBrick inp g).ballX ∧
    (Update inp g).ballY = (preBrick inp g).ballY := by
  rw [machine_Update_playing inp g hs]
  exact ⟨by rw [machine_winStep_ballX, machine_brickStep_ballX],
    by rw [machine_winStep_ballY, machine_brickStep_ballY]⟩

/-- The horizontal bounds after the blocks before the brick loop. -/
theorem machine_preBrick_ballX_inside (inp : Input) (g : Game)
    (hx : F64.add g.ballX g.ballVX ≠ F64.nan) :
    F64.le (F64.fin 8) (preBrick inp g).ballX = true ∧
    F64.le (preBrick inp g).ballX (F64.fin 632) = true := by
  have hmx : (moveStep (paddleStep inp g)).ballX = F64.add g.ballX g.ballVX := by
    simp [moveStep]
  have hw := machine_wallStep_ballX_inside (moveStep (paddleStep inp g)) (by rw [hmx]; exact hx)
    (by rw [hmx]; exact F64.add_grid _ _)
  rcases machine_missStep_ball_cases (paddleHitStep (afterWall inp g)) with h | h
  · show F64.le (F64.fin 8) (missStep (paddleHitStep (afterWall inp g))).ballX = true ∧
      F64.le (missStep (paddleHitStep (afterWall inp g))).ballX (F64.fin 632) = true
    rw [h.1, machine_paddleHitStep_ballX]
    exact hw
  · show F64.le (F64.fin 8) (missStep (paddleHitStep (afterWall inp g))).ballX = true ∧
      F64.le (missStep (paddleHitStep (afterWall inp g))).ballX (F64.fin 632) = true
    rw [h.1, F64.le_fin, F64.le_fin]
    norm_num

/-- The vertical bound after the blocks before the brick loop. -/
theorem machine_preBrick_ballY_inside (inp : Input) (g : Game)
    (hy : F64.add g.ballY g.ballVY ≠ F64.nan) :
    F64.le (F64.fin 8) (preBrick inp g).ballY = true := by
  have hmy : (moveStep (paddleStep inp g)).ballY = F64.add g.ballY g.ballVY := by
    simp [moveStep]
  have hw := machine_wallStep_ballY_inside (moveStep (paddleStep inp g)) (by rw [hmy]; exact hy)
    (by rw [hmy]; exact F64.add_grid _ _)
  show F64.le (F64.fin 8) (missStep (paddleHitStep (afterWall inp g))).ballY = true
  rcases machine_missStep_ball_cases (paddleHitStep (afterWall inp g)) with h | h
  · rw [h.2]
    rcases machine_paddleHitStep_ballY_cases (afterWall inp g) with h2 | h2
    · rw [h2]; exact hw
    · rw [h2, F64.le_fin]; norm_num
  · rw [h.2, F64.le_fin]; norm_num

/-! ### The ball speed of a level -/

/-- Rounding a positive value of the normal range gives a finite binary64
value with relative error at most `2 ^ (-53)`. -/
theorem F64.round_rel (q : ℚ) (h1' : 1 / 1000 ≤ q) (h2' : q ≤ 10 ^ (30 : ℕ)) :
    ∃ r : ℚ, F64.round q = F64.fin r ∧
      q * (1 - 1 / 9007199254740992) ≤ r ∧ r ≤ q * (1 + 1 / 9007199254740992) := by
  have p1000 : (10 : ℚ) ^ (30 : ℕ) ≤ 2 ^ (1000 : ℤ) := by
    have : (2 : ℚ) ^ (1000 : ℤ) = 2 ^ (100 : ℤ) * 2 ^ (900 : ℤ) := by
      rw [← zpow_add₀ (by norm_num : (2 : ℚ) ≠ 0)]
      norm_num
    rw [this]
    have h900 : (1 : ℚ) ≤ 2 ^ (900 : ℤ) := one_le_zpow₀ (by norm_num) (by norm_num)
    calc (10 : ℚ) ^ (30 : ℕ) ≤ 2 ^ (100 : ℤ) * 1 := by norm_num
      _ ≤ 2 ^ (100 : ℤ) * 2 ^ (900 : ℤ) :=
          mul_le_mul_of_nonneg_left h900 (two_zpow_pos _).le
  have pmin : (2 : ℚ) ^ (-1022 : ℤ) ≤ 1 / 1000 := by
    have : (2 : ℚ) ^ (-1022 : ℤ) = 2 ^ (-10 : ℤ) * 2 ^ (-1012 : ℤ) := by
      rw [← zpow_add₀ (by norm_num : (2 : ℚ) ≠ 0)]
      norm_num
    rw [this]
    have hle : (2 : ℚ) ^ (-1012 : ℤ) ≤ 1 := zpow_le_one_of_nonpos₀ (by norm_num) (by norm_num)
    calc (2 : ℚ) ^ (-10 : ℤ) * 2 ^ (-1012 : ℤ) ≤ 2 ^ (-10 : ℤ) * 1 :=
          mul_le_mul_of_nonneg_left hle (two_zpow_pos _).le
      _ ≤ 1 / 1000 := by norm_num
  have h1 : (2 : ℚ) ^ (-1022 : ℤ) ≤ q := le_trans pmin h1'
  have h2 : q ≤ 2 ^ (1000 : ℤ) := le_trans h2' p1000
  have hq : 0 < q := lt_of_lt_of_le (two_zpow_pos _) h1
  have habs : |q| = q := abs_of_pos hq
  have hr := roundQ_rel q (by rw [habs]; exact h1)
  have e53 : (2 : ℚ) ^ (-53 : ℤ) = 1 / 9007199254740992 := by norm_num
  rw [habs, e53, abs_le] at hr
  have hlo : q * (1 - 1 / 9007199254740992) ≤ roundQ q := by linarith [hr.1]
  have hhi : roundQ q ≤ q * (1 + 1 / 9007199254740992) := by linarith [hr.2]
  have hpos : 0 ≤ roundQ q := by
    have : 0 ≤ q * (1 - 1 / 9007199254740992) := mul_nonneg hq.le (by norm_num)
    linarith
  have hlt : |roundQ q| < 2 ^ (1024 : ℤ) := by
    rw [abs_of_nonneg hpos]
    have h3 : q * (1 + 1 / 9007199254740992) ≤ 2 ^ (1000 : ℤ) * 2 :=
      mul_le_mul h2 (by norm_num) (by norm_num) (two_zpow_pos _).le
    have h4 : (2 : ℚ) ^ (1000 : ℤ) * 2 < 2 ^ (1024 : ℤ) := by
      have : (2 : ℚ) ^ (1024 : ℤ) = 2 ^ (1000 : ℤ) * 2 ^ (24 : ℤ) := by
        rw [← zpow_add₀ (by norm_num : (2 : ℚ) ≠ 0)]
        norm_num
      rw [this]
      exact mul_lt_mul_of_pos_left (by norm_num) (two_zpow_pos _)
    linarith
  refine ⟨roundQ q, ?_, hlo, hhi⟩
  unfold F64.round
  rw [if_neg (not_le.2 hlt)]

/-- The velocity that `resetLevel` computes at level 1 is exactly 3. -/
theorem machine_speed_level1 : F64.mul (F64.fin 3) (speedIncrease 1) = F64.fin 3 ∧
    F64.mul (F64.fin (-3)) (speedIncrease 1) = F64.fin (-3) := by
  have h0 : wrapInt (1 - 1) = 0 := by decide
  have h1 : F64.mul (F64.fin 0) (F64.fin (3602879701896397 / 18014398509481984)) = F64.fin 0 := by
    rw [F64.mul_fin, zero_mul, F64.round_zero]
  have h2 : F64.add (F64.fin 1) (F64.fin 0) = F64.fin 1 := by
    rw [F64.add_fin, add_zero, F64.round_one]
  have h3 : F64.mul (F64.fin 3) (F64.fin 1) = F64.fin 3 := by
    rw [F64.mul_fin, mul_one]
    norm_num [F64.round_ofNat]
  have h4 : F64.mul (F64.fin (-3)) (F64.fin 1) = F64.fin (-3) := by
    rw [F64.mul_fin, mul_one, F64.round_neg]
    norm_num [F64.round_ofNat, F64.neg_fin]
  have hs : speedIncrease 1 = F64.fin 1 := by
    unfold speedIncrease F64.ofInt
    rw [h0, Int.cast_zero, F64.round_zero, F64.round_fifth, h1, h2]
  rw [hs]
  exact ⟨h3, h4⟩

/-- The velocity that `resetLevel` computes at a level from 2 on is finite,
positive, and within a relative error of `2 ^ (-50)` of
`3 * (1 + (level - 1) * 0.2)`. -/
theorem machine_speed_level (level : Int) (h2 : 2 ≤ level) (hM : level ≤ maxInt) :
    ∃ v : ℚ, F64.mul (F64.fin 3) (speedIncrease level) = F64.fin v ∧
      F64.mul (F64.fin (-3)) (speedIncrease level) = F64.fin (-v) ∧ 0 < v ∧
      |v - 3 * (1 + ((level : ℚ) - 1) * 0.2)| ≤
        2 ^ (-50 : ℤ) * (3 * (1 + ((level : ℚ) - 1) * 0.2)) := by
  have hw : wrapInt (level - 1) = level - 1 := by
    apply wrapInt_of_range <;> simp only [minInt, maxInt] at * <;> omega
  have hx1 : (1 : ℚ) ≤ (level : ℚ) - 1 := by
    have : (2 : ℚ) ≤ (level : ℚ) := by exact_mod_cast h2
    linarith
  have hx2 : (level : ℚ) - 1 ≤ 9223372036854775807 := by
    have : (level : ℚ) ≤ ((9223372036854775807 : Int) : ℚ) := by
      have : level ≤ 9223372036854775807 := by simpa [maxInt] using hM
      exact_mod_cast this
    push_cast at this
    linarith
  -- float64(level - 1)
  obtain ⟨n, hn, hn1, hn2⟩ := F64.round_rel ((level : ℚ) - 1) (by linarith)
    (by linarith)
  -- float64(level - 1) * 0.2
  obtain ⟨p, hp, hp1, hp2⟩ := F64.round_rel (n * (3602879701896397 / 18014398509481984))
    (by linarith) (by linarith)
  -- 1 + float64(level - 1) * 0.2
  obtain ⟨s, hs, hs1, hs2⟩ := F64.round_rel (1 + p) (by linarith)
    (by linarith)
  -- 3 * speedIncrease
  obtain ⟨v, hv, hv1, hv2⟩ := F64.round_rel (3 * s) (by linarith)
    (by linarith)
  have hsp : speedIncrease level = F64.fin s := by
    unfold speedIncrease F64.ofInt
    rw [hw, F64.round_fifth]
    push_cast
    rw [hn, F64.mul_fin, hp, F64.add_fin, hs]
  have e50 : (2 : ℚ) ^ (-50 : ℤ) = 1 / 1125899906842624 := by norm_num
  refine ⟨v, ?_, ?_, by linarith, ?_⟩
  · rw [hsp, F64.mul_fin, hv]
  · rw [hsp, F64.mul_fin, neg_mul, F64.round_neg, hv, F64.neg_fin]
  · rw [e50, abs_le]
    norm_num
    constructor <;> linarith

/-! ### The claims on the ball, the score and the level counter -/

/-- The code's overlap test fails for the cell `(0, 1)` in the tick of
`edgeGame`: the rounded right edge of the ball is 64, the left edge of the
brick. -/
theorem machine_edge_miss_cell :
    overlaps (F64.fin (56 + 2 ^ (-47 : ℤ))) (F64.fin 20) 0 1 = false := by
  rw [machine_overlaps_eval _ _ _ _ _ _ 0 1 machine_edge_left machine_edge_right machine_sub_20_8
    machine_add_20_8 (by norm_num) (by norm_num)]
  norm_num

/-- C3, counterexample. (i) In `edgeGame` the ball is at
`(56 + 2 ^ (-47), 20)` when the brick loop runs. In exact arithmetic its box
strictly overlaps the boxes of two visible bricks, those of the cells `(0, 0)`
and `(0, 1)`, so the claim predicts a score increase of 20. The code compares
the rounded right edge `64` with the left edge `64` of the second brick: the
score grows by 10 only and the brick of cell `(0, 1)` stays visible.
(ii) In `richGame` one brick is hit and the score is `MaxInt64 - 5`: the new
score is `MinInt64 + 4`, not the old score plus 10. -/
theorem machine_brick_hits_counterexample :
    (edgeGame.status = "playing" ∧
      (preBrick noKeys edgeGame).ballX = F64.fin (56 + 2 ^ (-47 : ℤ)) ∧
      (preBrick noKeys edgeGame).ballY = F64.fin 20 ∧
      Breakout.hitCount (56 + 2 ^ (-47 : ℤ)) 20 edgeGame.bricks = 2 ∧
      Breakout.isHit (56 + 2 ^ (-47 : ℤ)) 20 edgeGame.bricks 0 1 = true ∧
      (Update noKeys edgeGame).score = edgeGame.score + 10 ∧
      (cellAt (Update noKeys edgeGame).bricks 0 1).map Brick.Visible = some true) ∧
    (richGame.status = "playing" ∧ richGame.score = maxInt - 5 ∧
      hitCount (preBrick noKeys richGame).ballX (preBrick noKeys richGame).ballY
        richGame.bricks = 1 ∧
      (Update noKeys richGame).score = minInt + 4 ∧
      (Update noKeys richGame).score ≠ richGame.score + 10) := by
  have he := machine_preBrick_edgeGame.2.2.2
  have hr : preBrick noKeys richGame =
      { cornerGame with score := maxInt - 5, ballX := F64.fin 30, ballY := F64.fin 20 } :=
    machine_preBrick_cornerGame (maxInt - 5)
  have hke : hitCount (preBrick noKeys edgeGame).ballX (preBrick noKeys edgeGame).ballY
      edgeGame.bricks = 1 := by
    rw [he]; exact machine_hitCount_edgeGame
  have hkr : hitCount (preBrick noKeys richGame).ballX (preBrick noKeys richGame).ballY
      richGame.bricks = 1 := by
    rw [hr]; exact machine_hitCount_corner
  have hse : (Update noKeys edgeGame).score = edgeGame.score + 10 := by
    rw [(machine_Update_playing_bricks noKeys edgeGame rfl).2.2.2, hke]
    decide
  have hsr : (Update noKeys richGame).score = minInt + 4 := by
    rw [(machine_Update_playing_bricks noKeys richGame rfl).2.2.2, hkr]
    decide
  refine ⟨⟨rfl, by rw [he], by rw [he], exact_hitCount_edge.1, exact_hitCount_edge.2, hse, ?_⟩,
    ⟨rfl, rfl, hkr, hsr, ?_⟩⟩
  · have hcell : cellAt edgeGame.bricks 0 1 =
        some { Visible := true, Color := { R := 200, G := 30, B := 30, A := 255 } } := by decide
    rw [(machine_Update_playing_bricks noKeys edgeGame rfl).2.1 0 1, he, hcell]
    simp only [Option.map_some', afterHit, machine_edge_miss_cell, Bool.and_false,
      Bool.false_eq_true, if_false]
  · rw [hsr]
    decide

/-- C3, amended. For every Playing state whose score is an `int` and every
input, let `p` be the state after the paddle, move, wall, paddle-collision and
miss blocks and `k` the number of visible bricks for which the overlap test of
the code holds at the ball of `p` (the test of lines 198-201, which compares
the binary64 sums `ballX + 8`, `ballX - 8`, `ballY + 8`, `ballY - 8` with the
brick edges). Then `Update` keeps the number of rows, every cell holds its old
brick, made invisible exactly when it was one of these `k` bricks, and the
score becomes `score + 10 * k` wrapped to 64 bits, which is exactly
`score + 10 * k` when that sum is at most `MaxInt64`. -/
theorem machine_Update_brick_hits (inp : Input) (g : Game) (hs : g.status = "playing")
    (hlo : minInt ≤ g.score) (hhi : g.score ≤ maxInt) :
    (Update inp g).bricks.length = g.bricks.length ∧
    (∀ i j, cellAt (Update inp g).bricks i j =
      (cellAt g.bricks i j).map (afterHit (preBrick inp g).ballX (preBrick inp g).ballY i j)) ∧
    (Update inp g).score =
      wrapInt (g.score +
        10 * (hitCount (preBrick inp g).ballX (preBrick inp g).ballY g.bricks : Int)) ∧
    (g.score + 10 * (hitCount (preBrick inp g).ballX (preBrick inp g).ballY g.bricks : Int)
        ≤ maxInt →
      (Update inp g).score =
        g.score + 10 * (hitCount (preBrick inp g).ballX (preBrick inp g).ballY g.bricks : Int)) := by
  obtain ⟨h1, h2, _, h4⟩ := machine_Update_playing_bricks inp g hs
  refine ⟨h1, h2, ?_, ?_⟩
  · rw [h4, iterate_add10_wrap _ _ hlo hhi]
  · intro h
    rw [h4, iterate_add10 _ _ hlo h]

/-- Witness of C3 (amended): at level 1 with all bricks visible the ball hits
the brick of cell `(0, 0)` only, and the score grows by exactly 10. -/
theorem machine_Update_brick_hits_witness :
    cornerGame.status = "playing" ∧ minInt ≤ cornerGame.score ∧ cornerGame.score ≤ maxInt ∧
    hitCount (preBrick noKeys cornerGame).ballX (preBrick noKeys cornerGame).ballY
      cornerGame.bricks = 1 ∧
    (Update noKeys cornerGame).score = cornerGame.score + 10 ∧
    (cellAt (Update noKeys cornerGame).bricks 0 0).map Brick.Visible = some false := by
  have hc : preBrick noKeys cornerGame =
      { cornerGame with ballX := F64.fin 30, ballY := F64.fin 20 } :=
    machine_preBrick_cornerGame 0
  have hk : hitCount (preBrick noKeys cornerGame).ballX (preBrick noKeys cornerGame).ballY
      cornerGame.bricks = 1 := by
    rw [hc]; exact machine_hitCount_corner
  have h := machine_Update_brick_hits noKeys cornerGame rfl (by decide) (by decide)
  have ho : overlaps (F64.fin 30) (F64.fin 20) 0 0 = true := by
    rw [machine_overlaps_eval _ _ _ _ _ _ 0 0 machine_sub_30_8 machine_add_30_8 machine_sub_20_8
      machine_add_20_8 (by norm_num) (by norm_num)]
    norm_num
  refine ⟨rfl, by decide, by decide, hk, ?_, ?_⟩
  · have h3 := h.2.2.2
    rw [hk] at h3
    exact h3 (by decide)
  · have hcell : cellAt cornerGame.bricks 0 0 =
        some { Visible := true, Color := { R := 200, G := 30, B := 30, A := 255 } } := by decide
    rw [h.2.1 0 0, hc, hcell]
    simp only [Option.map_some', afterHit, ho, Bool.and_true, if_true]

/-- The velocity that `resetLevel` computes at level 2: the binary64 product
`3 * 1.2` is `3.5999999999999996...`, one unit in the last place below the
binary64 value nearest to `3.6`. -/
theorem machine_speed_level2 :
    F64.mul (F64.fin 3) (speedIncrease 2) = F64.fin (2026619832316723 / 562949953421312) := by
  have h0 : wrapInt (2 - 1) = 1 := by decide
  have h1 : F64.mul (F64.fin 1) (F64.fin (3602879701896397 / 18014398509481984)) =
      F64.fin (3602879701896397 / 18014398509481984) := by
    rw [F64.mul_fin, one_mul]
    have h := F64.round_eval (3602879701896397 / 18014398509481984) (-3) (-55) 7205759403792794
      (by norm_num [abs_of_pos]) (by norm_num [abs_of_pos]) (by norm_num)
      (by norm_num [halfEven]) (by norm_num [abs_of_pos])
    rw [h]
    congr 1
    norm_num
  have h2 : F64.add (F64.fin 1) (F64.fin (3602879701896397 / 18014398509481984)) =
      F64.fin (5404319552844595 / 4503599627370496) := by
    rw [F64.add_fin]
    have h := F64.round_eval (1 + 3602879701896397 / 18014398509481984) 0 (-52) 5404319552844595
      (by norm_num [abs_of_pos]) (by norm_num [abs_of_pos]) (by norm_num)
      (by norm_num [halfEven]) (by norm_num [abs_of_pos])
    rw [h]
    congr 1
    norm_num
  have h3 : F64.mul (F64.fin 3) (F64.fin (5404319552844595 / 4503599627370496)) =
      F64.fin (2026619832316723 / 562949953421312) := by
    rw [F64.mul_fin]
    have h := F64.round_eval (3 * (5404319552844595 / 4503599627370496)) 1 (-51) 8106479329266892
      (by norm_num [abs_of_pos]) (by norm_num [abs_of_pos]) (by norm_num)
      (by norm_num [halfEven]) (by norm_num [abs_of_pos])
    rw [h]
    congr 1
    norm_num
  have hs : speedIncrease 2 = F64.fin (5404319552844595 / 4503599627370496) := by
    unfold speedIncrease F64.ofInt
    rw [h0, Int.cast_one, F64.round_one, F64.round_fifth, h1, h2]
  rw [hs, h3]

/-- The ball that `resetLevel` sets up. -/
theorem machine_resetLevel_sets_ball (g : Game) :
    (resetLevel g).level = g.level ∧
    (resetLevel g).ballX = F64.fin 320 ∧ (resetLevel g).ballY = F64.fin 240 ∧
    (resetLevel g).ballVX = F64.mul (F64.fin 3) (speedIncrease g.level) ∧
    (resetLevel g).ballVY = F64.mul (F64.fin (-3)) (speedIncrease g.level) := by
  have c320 : ((screenWidth / 2 : Nat) : ℚ) = 320 := by norm_num [screenWidth]
  have c240 : ((screenHeight / 2 : Nat) : ℚ) = 240 := by norm_num [screenHeight]
  refine ⟨rfl, ?_, ?_, rfl, rfl⟩
  · rw [← c320]; rfl
  · rw [← c240]; rfl

/-- C5, counterexample. At level 2 the claim gives `ballVX = 3 * (1 + 1 * 0.2)
= 18/5`. The code computes the product in binary64 and sets
`ballVX = 2026619832316723 / 2 ^ 49 = 3.5999999999999996...`, which is neither
`18/5` nor the binary64 value nearest to it. -/
theorem machine_resetLevel_ball_counterexample :
    (1 : Int) ≤ ({ sampleGame with level := 2 } : Game).level ∧
    (resetLevel { sampleGame with level := 2 }).ballVX =
      F64.fin (2026619832316723 / 562949953421312) ∧
    (2026619832316723 / 562949953421312 : ℚ) ≠ 3 * (1 + (((2 : Int) : ℚ) - 1) * 0.2) ∧
    F64.fin (2026619832316723 / 562949953421312) ≠ F64.round (3 * (1 + (((2 : Int) : ℚ) - 1) * 0.2)) := by
  have hr : F64.round (3 * (1 + (((2 : Int) : ℚ) - 1) * 0.2)) =
      F64.fin (8106479329266893 / 2251799813685248) := by
    have h := F64.round_eval (3 * (1 + (((2 : Int) : ℚ) - 1) * 0.2)) 1 (-51) 8106479329266893
      (by norm_num [abs_of_pos]) (by norm_num [abs_of_pos]) (by norm_num)
      (by norm_num [halfEven]) (by norm_num [abs_of_pos])
    rw [h]
    congr 1
    norm_num
  refine ⟨by decide, ?_, by norm_num, ?_⟩
  · rw [(machine_resetLevel_sets_ball _).2.2.2.1]
    exact machine_speed_level2
  · rw [hr]
    intro h
    injection h with h
    norm_num at h

/-- C5, amended. For every level `L` with `1 <= L <= MaxInt64` and every state
of the random source, `resetLevel` keeps the level and puts the ball at the
screen centre (320, 240). Its velocity is `(v, -v)` for a finite binary64
value `v > 0`, so it points right and up: `v` is the result of
`3 * (1 + float64(L - 1) * 0.2)` with every operation rounded to binary64,
which differs from the exact value `3 * (1 + (L - 1) * 0.2)` by a relative
error of at most `2 ^ (-50)`, and is exactly 3 at level 1. -/
theorem machine_resetLevel_ball (g : Game) (hL : 1 ≤ g.level) (hM : g.level ≤ maxInt) :
    (resetLevel g).level = g.level ∧
    (resetLevel g).ballX = F64.fin 320 ∧ (resetLevel g).ballY = F64.fin 240 ∧
    ∃ v : ℚ, (resetLevel g).ballVX = F64.fin v ∧ (resetLevel g).ballVY = F64.fin (-v) ∧
      (resetLevel g).ballVX = F64.mul (F64.fin 3) (speedIncrease g.level) ∧ 0 < v ∧
      |v - 3 * (1 + ((g.level : ℚ) - 1) * 0.2)| ≤
        2 ^ (-50 : ℤ) * (3 * (1 + ((g.level : ℚ) - 1) * 0.2)) ∧
      (g.level = 1 → v = 3) := by
  obtain ⟨h1, h2, h3, h4, h5⟩ := machine_resetLevel_sets_ball g
  refine ⟨h1, h2, h3, ?_⟩
  by_cases hl : g.level = 1
  · refine ⟨3, ?_, ?_, h4, by norm_num, ?_, fun _ => rfl⟩
    · rw [h4, hl]; exact machine_speed_level1.1
    · rw [h5, hl]; exact machine_speed_level1.2
    · rw [hl]; norm_num
  · obtain ⟨v, hv1, hv2, hv3, hv4⟩ := machine_speed_level g.level (by omega) hM
    exact ⟨v, by rw [h4, hv1], by rw [h5, hv2], h4, hv3, hv4, fun h => absurd h hl⟩

/-- Witness of C5 (amended) at level 3. -/
theorem machine_resetLevel_ball_witness :
    (1 : Int) ≤ ({ sampleGame with level := 3 } : Game).level ∧
    ({ sampleGame with level := 3 } : Game).level ≤ maxInt ∧
    (resetLevel { sampleGame with level := 3 }).ballX = F64.fin 320 ∧
    (resetLevel { sampleGame with level := 3 }).ballY = F64.fin 240 ∧
    ∃ v : ℚ, (resetLevel { sampleGame with level := 3 }).ballVX = F64.fin v ∧
      (resetLevel { sampleGame with level := 3 }).ballVY = F64.fin (-v) ∧ 0 < v ∧
      |v - 3 * (1 + (((3 : Int) : ℚ) - 1) * 0.2)| ≤
        2 ^ (-50 : ℤ) * (3 * (1 + (((3 : Int) : ℚ) - 1) * 0.2)) := by
  obtain ⟨_, h2, h3, v, h4, h5, _, h6, h7, _⟩ :=
    machine_resetLevel_ball { sampleGame with level := 3 } (by decide) (by decide)
  exact ⟨by decide, by decide, h2, h3, v, h4, h5, h6, h7⟩

/-- C10, counterexample. In a Win state at level `MaxInt64`, an `Update` with
the space key held wraps the level to `MinInt64`: it is not incremented by 1. -/
theorem machine_win_confirm_counterexample :
    winMaxGame.status = "win" ∧ spaceKey.space = true ∧
    winMaxGame.level = 9223372036854775807 ∧
    (Update spaceKey winMaxGame).level = -9223372036854775808 ∧
    (Update spaceKey winMaxGame).level ≠ winMaxGame.level + 1 := by
  have h : Update spaceKey winMaxGame =
      resetLevel { winMaxGame with level := wrapInt (winMaxGame.level + 1) } := by
    unfold Update
    simp [winMaxGame, spaceKey]
  have hl : (Update spaceKey winMaxGame).level = -9223372036854775808 := by
    rw [h]
    show wrapInt (winMaxGame.level + 1) = -9223372036854775808
    decide
  refine ⟨rfl, rfl, by decide, hl, ?_⟩
  rw [hl]
  decide

/-- C10, amended. In a state with status Win and `level < MaxInt64`, an
`Update` with the space key held is `resetLevel` run at the incremented level:
the level grows by exactly 1, score and lives are kept, the grid is the one
`resetLevel` generates for the new level, and the status is Playing. -/
theorem machine_Update_win_confirm (inp : Input) (g : Game)
    (hs : g.status = "win") (hk : inp.space = true)
    (hlo : minInt ≤ g.level) (hhi : g.level < maxInt) :
    Update inp g = resetLevel { g with level := g.level + 1 } ∧
    (Update inp g).level = g.level + 1 ∧
    (Update inp g).score = g.score ∧
    (Update inp g).lives = g.lives ∧
    (Update inp g).bricks = (fillGrid (g.level + 1) brickRows g.rng).1 ∧
    (Update inp g).status = "playing" := by
  have hw : wrapInt (g.level + 1) = g.level + 1 := by
    apply wrapInt_of_range <;> omega
  have h : Update inp g = resetLevel { g with level := g.level + 1 } := by
    unfold Update
    simp [hs, hk, hw]
  rw [h]
  exact ⟨rfl, rfl, rfl, rfl, rfl, rfl⟩

/-- Witness of C10 (amended): a Win at level 2 with score 470 and 2 lives. -/
theorem machine_Update_win_confirm_witness :
    ({ sampleGame with status := "win", level := 2, score := 470, lives := 2 } : Game).status
      = "win" ∧
    spaceKey.space = true ∧
    (Update spaceKey { sampleGame with status := "win", level := 2, score := 470, lives := 2 }).level
      = 2 + 1 ∧
    (Update spaceKey { sampleGame with status := "win", level := 2, score := 470, lives := 2 }).score
      = 470 :=
  ⟨rfl, rfl, (machine_Update_win_confirm _ _ rfl rfl (by decide) (by decide)).2.1,
    (machine_Update_win_confirm _ _ rfl rfl (by decide) (by decide)).2.2.1⟩

/-- No binary64 value is below itself. -/
theorem F64.lt_irrefl (a : F64) : F64.lt a a = false := by
  cases a <;> simp [F64.lt]

/-- The ball of `paddleGame` moves to `(303, 458)` without any bounce. -/
theorem machine_afterWall_paddleGame : afterWall noKeys paddleGame =
    { paddleGame with ballX := F64.fin 303, ballY := F64.fin 458 } := by
  norm_num [afterWall, wallStep, moveStep, paddleStep, noKeys, paddleGame, sampleGame, screenWidth,
    ballRadius, F64.add_fin, F64.sub_fin, F64.neg_fin, F64.lt_fin, F64.gt_fin, F64.round_ofNat, F64.round_neg]

/-- The paddle-collision test holds for `paddleGame`. -/
theorem machine_paddleCollides_paddleGame : paddleCollides (afterWall noKeys paddleGame) = true := by
  rw [machine_afterWall_paddleGame]
  norm_num [paddleCollides, paddleGame, sampleGame, screenHeight, paddleHeight, ballRadius,
    F64.add_fin, F64.sub_fin, F64.neg_fin, F64.lt_fin, F64.gt_fin, F64.round_ofNat, F64.round_neg]

/-- The rounded horizontal velocity the paddle block computes for `paddleGame`:
`3 + (303 - 320) * 0.1` evaluates to `1.2999999999999998...` in binary64. -/
theorem machine_english_paddleGame :
    F64.add (F64.fin 3)
      (F64.mul (F64.sub (F64.fin 303) (F64.add (F64.fin 272) (F64.divConst (F64.fin 96) 2)))
        (F64.round 0.1)) = F64.fin (1463669878895411 / 1125899906842624) := by
  have h1 : F64.sub (F64.fin 303) (F64.add (F64.fin 272) (F64.divConst (F64.fin 96) 2)) =
      F64.fin (-17) := by
    norm_num [F64.divConst_fin, F64.add_fin, F64.sub_fin, F64.neg_fin, F64.round_ofNat, F64.round_neg]
  have h2 : F64.round (-17 * (3602879701896397 / 36028797018963968)) =
      F64.fin (-1914029841632461 / 1125899906842624) := by
    have h := F64.round_eval (-17 * (3602879701896397 / 36028797018963968)) 0 (-52)
      (-7656119366529844)
      (by norm_num [abs_of_neg]) (by norm_num [abs_of_neg]) (by norm_num)
      (by norm_num [halfEven]) (by norm_num [abs_of_neg])
    rw [h]
    norm_num
  have h3 : F64.round (3 + -1914029841632461 / 1125899906842624) =
      F64.fin (1463669878895411 / 1125899906842624) := by
    have h := F64.round_eval (3 + -1914029841632461 / 1125899906842624) 0 (-52)
      5854679515581644
      (by norm_num [abs_of_pos]) (by norm_num [abs_of_pos]) (by norm_num)
      (by norm_num [halfEven]) (by norm_num [abs_of_pos])
    rw [h]
    norm_num
  rw [h1, F64.round_tenth, F64.mul_fin, h2, F64.add_fin, h3]

/-- C12, counterexample. For `paddleGame` the ball lands at `x = 303` on a
paddle at `px = 272` of width 96, so the claimed new `ballVX` is
`3 + (303 - 320) * 0.1 = 13/10`. The paddle block sets
`1463669878895411 / 2 ^ 50 = 1.2999999999999998...` instead. -/
theorem machine_paddle_collision_counterexample :
    paddleGame.status = "playing" ∧
    (afterWall noKeys paddleGame).ballX = F64.fin 303 ∧
    (paddleStep noKeys paddleGame).paddleX = F64.fin 272 ∧
    paddleGame.paddleW = F64.fin 96 ∧
    paddleGame.ballVX = F64.fin 3 ∧
    paddleCollides (afterWall noKeys paddleGame) = true ∧
    (paddleHitStep (afterWall noKeys paddleGame)).ballVX =
      F64.fin (1463669878895411 / 1125899906842624) ∧
    (1463669878895411 / 1125899906842624 : ℚ) ≠ 3 + (303 - (272 + 96 / 2)) * 0.1 := by
  refine ⟨rfl, by rw [machine_afterWall_paddleGame], rfl, rfl, rfl,
    machine_paddleCollides_paddleGame, ?_, by norm_num⟩
  simp only [paddleHitStep, machine_paddleCollides_paddleGame, if_true]
  rw [machine_afterWall_paddleGame]
  exact machine_english_paddleGame

/-- C12, amended. For every Playing state and input, write `(x, y)` for the
ball position after the move and wall blocks and `px` for the paddle position
after the paddle block. The paddle-collision test is `y + 8 > 464` and
`px < x < px + paddleW`, both strict, each sum rounded to binary64. When it
holds, the block sets `ballY` to 456, negates `ballVY` and sets `ballVX` to
the binary64 result of `ballVX + (x - (px + paddleW / 2)) * 0.1`, every
operation rounded; when it fails, as for `x = px` or `x = px + paddleW`, the
block changes nothing. -/
theorem machine_paddle_collision_step (inp : Input) (g : Game) (hs : g.status = "playing") :
    Update inp g = winStep (brickStep (missStep (paddleHitStep (afterWall inp g)))) ∧
    (paddleCollides (afterWall inp g) =
      (F64.gt (F64.add (afterWall inp g).ballY (F64.fin 8)) (F64.fin 464) &&
        F64.gt (afterWall inp g).ballX (paddleStep inp g).paddleX &&
        F64.lt (afterWall inp g).ballX (F64.add (paddleStep inp g).paddleX g.paddleW))) ∧
    (paddleCollides (afterWall inp g) = true →
      paddleHitStep (afterWall inp g) =
        { afterWall inp g with
          ballY := F64.fin 456
          ballVY := F64.neg (afterWall inp g).ballVY
          ballVX := F64.add (afterWall inp g).ballVX
            (F64.mul
              (F64.sub (afterWall inp g).ballX
                (F64.add (paddleStep inp g).paddleX (F64.divConst g.paddleW 2)))
              (F64.round 0.1)) }) ∧
    (paddleCollides (afterWall inp g) = false → paddleHitStep (afterWall inp g) = afterWall inp g) ∧
    (((afterWall inp g).ballX = (paddleStep inp g).paddleX ∨
        (afterWall inp g).ballX = F64.add (paddleStep inp g).paddleX g.paddleW) →
      paddleCollides (afterWall inp g) = false) := by
  obtain ⟨hx, hw, _⟩ := machine_afterWall_frame inp g
  have h456 : F64.sub (F64.fin ((screenHeight - paddleHeight : Nat) : ℚ)) (F64.fin (ballRadius : ℚ)) =
      F64.fin 456 := by
    norm_num [screenHeight, paddleHeight, ballRadius, F64.sub_fin, F64.round_ofNat]
  refine ⟨?_, ?_, ?_, ?_, ?_⟩
  · rw [machine_Update_playing inp g hs]; rfl
  · simp only [paddleCollides, hx, hw, ballRadius, screenHeight, paddleHeight]
    norm_num
  · intro h
    simp only [paddleHitStep, h, if_true]
    rw [h456, hx, hw]
  · intro h
    simp only [paddleHitStep, h]
    rfl
  · rintro (h | h)
    · have hlt : F64.gt (afterWall inp g).ballX (afterWall inp g).paddleX = false := by
        rw [hx, ← h]
        exact F64.lt_irrefl _
      simp [paddleCollides, hlt]
    · have hlt : F64.lt (afterWall inp g).ballX
          (F64.add (afterWall inp g).paddleX (afterWall inp g).paddleW) = false := by
        rw [hx, hw, ← h]
        exact F64.lt_irrefl _
      simp [paddleCollides, hlt]

/-- Witness of C12 (amended): the ball lands 17 units left of the paddle centre. -/
theorem machine_paddle_collision_step_witness :
    paddleGame.status = "playing" ∧
    paddleCollides (afterWall noKeys paddleGame) = true ∧
    (paddleHitStep (afterWall noKeys paddleGame)).ballY = F64.fin 456 ∧
    (paddleHitStep (afterWall noKeys paddleGame)).ballVY =
      F64.neg (afterWall noKeys paddleGame).ballVY := by
  have h := (machine_paddle_collision_step noKeys paddleGame rfl).2.2.1
    machine_paddleCollides_paddleGame
  refine ⟨rfl, machine_paddleCollides_paddleGame, ?_, ?_⟩
  · rw [h]
  · rw [h]

/-- The state `nanGame` after the blocks before the brick loop: every test
on the NaN position fails, and the position stays NaN. -/
theorem machine_preBrick_nanGame :
    preBrick noKeys nanGame = { nanGame with ballX := F64.nan, ballY := F64.fin 237 } := by
  have c8 : ((ballRadius : Nat) : ℚ) = 8 := by norm_num [ballRadius]
  have c480 : ((screenHeight : Nat) : ℚ) = 480 := by norm_num [screenHeight]
  have c464 : ((screenHeight - paddleHeight : Nat) : ℚ) = 464 := by
    norm_num [screenHeight, paddleHeight]
  have hy : F64.add (F64.fin 240) (F64.fin (-3)) = F64.fin 237 := by
    norm_num [F64.add_fin, F64.round_ofNat]
  have hyt : F64.sub (F64.fin 237) (F64.fin 8) = F64.fin 229 := by
    norm_num [F64.sub_fin, F64.round_ofNat]
  have hyb : F64.add (F64.fin 237) (F64.fin 8) = F64.fin 245 := by
    norm_num [F64.add_fin, F64.round_ofNat]
  have hx : F64.add F64.nan (F64.fin 3) = F64.nan := rfl
  have hxl : F64.sub F64.nan (F64.fin (ballRadius : ℚ)) = F64.nan := rfl
  have hxr : F64.add F64.nan (F64.fin (ballRadius : ℚ)) = F64.nan := rfl
  have hlt : ∀ b, F64.lt F64.nan b = false := fun b => rfl
  have hgt : ∀ b, F64.gt F64.nan b = false := fun b => by cases b <;> rfl
  have hm : moveStep (paddleStep noKeys nanGame) =
      { nanGame with ballX := F64.nan, ballY := F64.fin 237 } := by
    simp only [moveStep, paddleStep, noKeys, nanGame, sampleGame, Bool.false_eq_true, if_false]
    rw [hx, hy]
  have hw : afterWall noKeys nanGame =
      { nanGame with ballX := F64.nan, ballY := F64.fin 237 } := by
    simp only [afterWall]
    rw [hm]
    apply machine_wallStep_of_inside
    · show F64.lt (F64.sub F64.nan (F64.fin (ballRadius : ℚ))) (F64.fin 0) = false
      rw [hxl, hlt]
    · show F64.gt (F64.add F64.nan (F64.fin (ballRadius : ℚ))) (F64.fin (screenWidth : ℚ)) = false
      rw [hxr, hgt]
    · show F64.lt (F64.sub (F64.fin 237) (F64.fin (ballRadius : ℚ))) (F64.fin 0) = false
      rw [c8, hyt, F64.lt_fin]
      norm_num
  have hnp : paddleCollides (afterWall noKeys nanGame) = false := by
    rw [hw]
    have : F64.gt (F64.add (F64.fin 237) (F64.fin (ballRadius : ℚ)))
        (F64.fin ((screenHeight - paddleHeight : Nat) : ℚ)) = false := by
      rw [c8, c464, hyb, F64.gt_fin]
      norm_num
    simp only [paddleCollides, this, Bool.false_and]
  have hnm : ballMissed (afterWall noKeys nanGame) = false := by
    rw [hw]
    show F64.gt (F64.sub (F64.fin 237) (F64.fin (ballRadius : ℚ))) (F64.fin (screenHeight : ℚ)) =
      false
    rw [c8, c480, hyt, F64.gt_fin]
    norm_num
  rw [machine_preBrick_of_not _ _ hnp hnm, hw]

/-- C13, counterexample. In the Playing state `nanGame` the horizontal ball
position is NaN. Every comparison with NaN is false, so no wall test holds,
and after `Update` the position is still NaN: neither `8 <= ballX` nor
`ballX <= 632` holds. -/
theorem machine_ball_inside_counterexample :
    nanGame.status = "playing" ∧ nanGame.ballX = F64.nan ∧
    (Update noKeys nanGame).ballX = F64.nan ∧
    F64.le (F64.fin 8) (Update noKeys nanGame).ballX = false ∧
    F64.le (Update noKeys nanGame).ballX (F64.fin 632) = false := by
  have h : (Update noKeys nanGame).ballX = F64.nan := by
    rw [(machine_Update_ball noKeys nanGame rfl).1, machine_preBrick_nanGame]
  refine ⟨rfl, rfl, h, ?_, ?_⟩
  · rw [h]; rfl
  · rw [h]; rfl

/-- C13, amended. For every Playing state and every input: if the moved
horizontal position `ballX + ballVX` (a binary64 sum) is not NaN, then after
`Update` the ball centre satisfies `8 <= ballX <= 632`; if the moved vertical
position `ballY + ballVY` is not NaN, then after `Update` `ballY >= 8`. The
sums are not NaN whenever position and velocity are finite, however large:
a sum that overflows to an infinity is clamped as well. -/
theorem machine_Update_ball_inside (inp : Input) (g : Game) (hs : g.status = "playing") :
    (F64.add g.ballX g.ballVX ≠ F64.nan →
      F64.le (F64.fin 8) (Update inp g).ballX = true ∧
      F64.le (Update inp g).ballX (F64.fin 632) = true) ∧
    (F64.add g.ballY g.ballVY ≠ F64.nan → F64.le (F64.fin 8) (Update inp g).ballY = true) ∧
    (g.ballX.isFinite = true → g.ballVX.isFinite = true →
      g.ballY.isFinite = true → g.ballVY.isFinite = true →
      F64.le (F64.fin 8) (Update inp g).ballX = true ∧
      F64.le (Update inp g).ballX (F64.fin 632) = true ∧
      F64.le (F64.fin 8) (Update inp g).ballY = true) := by
  obtain ⟨ex, ey⟩ := machine_Update_ball inp g hs
  rw [ex, ey]
  refine ⟨machine_preBrick_ballX_inside inp g, machine_preBrick_ballY_inside inp g, ?_⟩
  intro h1 h2 h3 h4
  have hx := machine_preBrick_ballX_inside inp g (F64.add_ne_nan _ _ h1 h2)
  exact ⟨hx.1, hx.2, machine_preBrick_ballY_inside inp g (F64.add_ne_nan _ _ h3 h4)⟩

/-- Witness of C13 (amended): a ball at `x = 2 ^ 1023` with velocity
`(2 ^ 1023, -10 ^ 9)`, whose moved position overflows to an infinity. -/
theorem machine_Update_ball_inside_witness :
    ({ sampleGame with
        ballX := F64.fin (2 ^ (1023 : ℤ)), ballVX := F64.fin (2 ^ (1023 : ℤ)),
        ballVY := F64.fin (-1000000000) } : Game).status = "playing" ∧
    F64.le (F64.fin 8) (Update noKeys { sampleGame with
        ballX := F64.fin (2 ^ (1023 : ℤ)), ballVX := F64.fin (2 ^ (1023 : ℤ)),
        ballVY := F64.fin (-1000000000) }).ballX = true ∧
    F64.le (Update noKeys { sampleGame with
        ballX := F64.fin (2 ^ (1023 : ℤ)), ballVX := F64.fin (2 ^ (1023 : ℤ)),
        ballVY := F64.fin (-1000000000) }).ballX (F64.fin 632) = true ∧
    F64.le (F64.fin 8) (Update noKeys { sampleGame with
        ballX := F64.fin (2 ^ (1023 : ℤ)), ballVX := F64.fin (2 ^ (1023 : ℤ)),
        ballVY := F64.fin (-1000000000) }).ballY = true :=
  ⟨rfl, (machine_Update_ball_inside noKeys _ rfl).2.2 rfl rfl rfl rfl⟩

/-- The state `absorbGame` after the move and wall blocks: the sum
`8 + (-2 ^ (-60))` rounds to 8, so no wall test holds. -/
theorem machine_afterWall_absorbGame : afterWall noKeys absorbGame =
    { absorbGame with ballX := F64.fin 8, ballY := F64.fin 297 } := by
  have hx : F64.add (F64.fin 8) (F64.fin (-(2 ^ (-60 : ℤ)))) = F64.fin 8 := by
    rw [F64.add_fin]
    have h := F64.round_eval (8 + -(2 ^ (-60 : ℤ))) 2 (-50) 9007199254740992
      (by norm_num [abs_of_pos]) (by norm_num [abs_of_pos]) (by norm_num)
      (by norm_num [halfEven]) (by norm_num [abs_of_pos])
    rw [h]
    norm_num
  have hm : moveStep (paddleStep noKeys absorbGame) =
      { absorbGame with ballX := F64.fin 8, ballY := F64.fin 297 } := by
    have hy : F64.add (F64.fin 300) (F64.fin (-3)) = F64.fin 297 := by
      norm_num [F64.add_fin, F64.round_ofNat]
    simp only [moveStep, paddleStep, noKeys, absorbGame, sampleGame, Bool.false_eq_true, if_false]
    rw [hx, hy]
  simp only [afterWall]
  rw [hm]
  apply machine_wallStep_of_inside <;>
    norm_num [ballRadius, screenWidth, F64.add_fin, F64.sub_fin, F64.lt_fin, F64.gt_fin,
      F64.round_ofNat, F64.round_zero]

/-- The state `leftWallGame` after the move and wall blocks: a bounce off the
left wall. -/
theorem machine_afterWall_leftWallGame : afterWall noKeys leftWallGame =
    { leftWallGame with ballX := F64.fin 8, ballY := F64.fin 297, ballVX := F64.fin 3 } := by
  have hx : F64.add (F64.fin 10) (F64.fin (-3)) = F64.fin 7 := by
    norm_num [F64.add_fin, F64.round_ofNat]
  have hy : F64.add (F64.fin 300) (F64.fin (-3)) = F64.fin 297 := by
    norm_num [F64.add_fin, F64.round_ofNat]
  have hm : moveStep (paddleStep noKeys leftWallGame) =
      { leftWallGame with ballX := F64.fin 7, ballY := F64.fin 297 } := by
    simp only [moveStep, paddleStep, noKeys, leftWallGame, sampleGame, Bool.false_eq_true,
      if_false]
    rw [hx, hy]
  have h1 : F64.lt (F64.sub (F64.fin 7) (F64.fin (ballRadius : ℚ))) (F64.fin 0) = true := by
    norm_num [ballRadius, F64.sub_fin, F64.lt_fin, F64.neg_fin, F64.round_neg, F64.round_one]
  have h3 : F64.lt (F64.sub (F64.fin 297) (F64.fin (ballRadius : ℚ))) (F64.fin 0) = false := by
    norm_num [ballRadius, F64.sub_fin, F64.lt_fin, F64.round_ofNat]
  simp only [afterWall]
  rw [hm]
  simp only [wallStep, leftWallGame, sampleGame, h1, h3, machine_clamped_left_not_right, if_true,
    Bool.false_eq_true, if_false, F64.neg_fin, neg_neg]
  norm_num [ballRadius]

/-- C14, counterexample. In `absorbGame` the ball is at `x = 8` with
`ballVX = -2 ^ (-60)`, so the moved left edge `8 - 2 ^ (-60) - 8` is negative
in exact arithmetic; the tick has no paddle collision and no miss. The
binary64 sum `8 + (-2 ^ (-60))` is 8, the test of line 148 fails, and `ballVX`
after `Update` is its old value, not the negation. -/
theorem machine_wall_bounce_counterexample :
    absorbGame.status = "playing" ∧
    paddleCollides (afterWall noKeys absorbGame) = false ∧
    ballMissed (paddleHitStep (afterWall noKeys absorbGame)) = false ∧
    absorbGame.ballX = F64.fin 8 ∧ absorbGame.ballVX = F64.fin (-(2 ^ (-60 : ℤ))) ∧
    (8 : ℚ) + -(2 ^ (-60 : ℤ)) - 8 < 0 ∧
    (Update noKeys absorbGame).ballVX = absorbGame.ballVX ∧
    (Update noKeys absorbGame).ballVX ≠ F64.neg absorbGame.ballVX := by
  have hnp : paddleCollides (afterWall noKeys absorbGame) = false := by
    rw [machine_afterWall_absorbGame]
    norm_num [paddleCollides, absorbGame, sampleGame, ballRadius, screenHeight, paddleHeight,
      F64.add_fin, F64.gt_fin, F64.lt_fin, F64.round_ofNat]
  have hnm : ballMissed (paddleHitStep (afterWall noKeys absorbGame)) = false := by
    rw [machine_paddleHitStep_of_not _ hnp, machine_afterWall_absorbGame]
    norm_num [ballMissed, ballRadius, screenHeight, F64.sub_fin, F64.gt_fin, F64.round_ofNat]
  have hp : preBrick noKeys absorbGame = afterWall noKeys absorbGame :=
    machine_preBrick_of_not _ _ hnp (by rw [← machine_paddleHitStep_of_not _ hnp]; exact hnm)
  have hv : (Update noKeys absorbGame).ballVX = absorbGame.ballVX := by
    rw [machine_Update_playing _ _ rfl, machine_winStep_ballVX, machine_brickStep_ballVX, hp,
      machine_afterWall_absorbGame]
  refine ⟨rfl, hnp, hnm, rfl, rfl, by norm_num, hv, ?_⟩
  rw [hv]
  simp only [absorbGame, F64.neg_fin, neg_neg]
  intro h
  injection h with h
  norm_num at h

/-- C14, amended. For every Playing state and input of a tick without paddle
collision and without miss, write `m` for the state after the move block,
whose ball position is the binary64 sum of position and velocity. If the test
of line 148, `m.ballX - 8 < 0`, or the test of line 152, `m.ballX + 8 > 640`,
holds in binary64, `ballVX` after `Update` is the negation of its value
before; if the test of line 156, `m.ballY - 8 < 0`, holds in binary64 and the
brick loop hits no brick, `ballVY` after `Update` is the negation of its value
before; and when none of the three tests holds, the wall block changes
nothing. -/
theorem machine_wall_bounce (inp : Input) (g : Game) (hs : g.status = "playing")
    (hnp : paddleCollides (afterWall inp g) = false)
    (hnm : ballMissed (paddleHitStep (afterWall inp g)) = false) :
    (moveStep (paddleStep inp g)).ballX = F64.add g.ballX g.ballVX ∧
    (moveStep (paddleStep inp g)).ballY = F64.add g.ballY g.ballVY ∧
    ((F64.lt (F64.sub (F64.add g.ballX g.ballVX) (F64.fin 8)) (F64.fin 0) = true ∨
        F64.gt (F64.add (F64.add g.ballX g.ballVX) (F64.fin 8)) (F64.fin 640) = true) →
      (Update inp g).ballVX = F64.neg g.ballVX) ∧
    (F64.lt (F64.sub (F64.add g.ballY g.ballVY) (F64.fin 8)) (F64.fin 0) = true →
      hitCount (preBrick inp g).ballX (preBrick inp g).ballY g.bricks = 0 →
      (Update inp g).ballVY = F64.neg g.ballVY) ∧
    (F64.lt (F64.sub (F64.add g.ballX g.ballVX) (F64.fin 8)) (F64.fin 0) = false →
      F64.gt (F64.add (F64.add g.ballX g.ballVX) (F64.fin 8)) (F64.fin 640) = false →
      F64.lt (F64.sub (F64.add g.ballY g.ballVY) (F64.fin 8)) (F64.fin 0) = false →
      wallStep (moveStep (paddleStep inp g)) = moveStep (paddleStep inp g)) := by
  have hp : preBrick inp g = afterWall inp g :=
    machine_preBrick_of_not _ _ hnp (by rw [← machine_paddleHitStep_of_not _ hnp]; exact hnm)
  have hmx : (moveStep (paddleStep inp g)).ballX = F64.add g.ballX g.ballVX := by
    simp [moveStep]
  have hmy : (moveStep (paddleStep inp g)).ballY = F64.add g.ballY g.ballVY := by
    simp [moveStep]
  have hmvx : (moveStep (paddleStep inp g)).ballVX = g.ballVX := by simp
  have hmvy : (moveStep (paddleStep inp g)).ballVY = g.ballVY := by simp
  have c8 : ((ballRadius : Nat) : ℚ) = 8 := by norm_num [ballRadius]
  have c640 : ((screenWidth : Nat) : ℚ) = 640 := by norm_num [screenWidth]
  refine ⟨hmx, hmy, ?_, ?_, ?_⟩
  · intro h
    rw [machine_Update_playing inp g hs, machine_winStep_ballVX, machine_brickStep_ballVX, hp]
    simp only [afterWall]
    rw [machine_wallStep_ballVX_of_side, hmvx]
    rw [hmx, c8, c640]
    exact h
  · intro h hk
    rw [(machine_Update_playing_bricks inp g hs).2.2.1, hk, hp]
    simp only [afterWall, Function.iterate_zero, id_eq]
    rw [machine_wallStep_ballVY, hmy, hmvy, c8, if_pos h]
  · intro h1 h2 h3
    apply machine_wallStep_of_inside
    · rw [hmx, c8]; exact h1
    · rw [hmx, c8, c640]; exact h2
    · rw [hmy, c8]; exact h3

/-- Witness of C14 (amended): a bounce off the left wall. -/
theorem machine_wall_bounce_witness :
    leftWallGame.status = "playing" ∧
    F64.lt (F64.sub (F64.add leftWallGame.ballX leftWallGame.ballVX) (F64.fin 8)) (F64.fin 0) =
      true ∧
    (Update noKeys leftWallGame).ballVX = F64.neg leftWallGame.ballVX := by
  have hx : F64.lt (F64.sub (F64.add leftWallGame.ballX leftWallGame.ballVX) (F64.fin 8))
      (F64.fin 0) = true := by
    norm_num [leftWallGame, sampleGame, F64.add_fin, F64.sub_fin, F64.lt_fin, F64.neg_fin,
      F64.round_ofNat, F64.round_neg, F64.round_one]
  have hnp : paddleCollides (afterWall noKeys leftWallGame) = false := by
    rw [machine_afterWall_leftWallGame]
    norm_num [paddleCollides, leftWallGame, sampleGame, ballRadius, screenHeight, paddleHeight,
      F64.add_fin, F64.gt_fin, F64.lt_fin, F64.round_ofNat]
  have hnm : ballMissed (paddleHitStep (afterWall noKeys leftWallGame)) = false := by
    rw [machine_paddleHitStep_of_not _ hnp, machine_afterWall_leftWallGame]
    norm_num [ballMissed, ballRadius, screenHeight, F64.sub_fin, F64.gt_fin, F64.round_ofNat]
  exact ⟨rfl, hx, (machine_wall_bounce noKeys leftWallGame rfl hnp hnm).2.2.1 (Or.inl hx)⟩

theorem machine_add_29_m3 : F64.add (F64.fin 29) (F64.fin (-3)) = F64.fin 26 := by
  norm_num [F64.add_fin, F64.round_ofNat]

theorem machine_add_26_8 : F64.add (F64.fin 26) (F64.fin 8) = F64.fin 34 := by
  norm_num [F64.add_fin, F64.round_ofNat]

theorem machine_sub_26_8 : F64.sub (F64.fin 26) (F64.fin 8) = F64.fin 18 := by
  norm_num [F64.sub_fin, F64.round_ofNat]

/-- The ball of `twoHitGame` moves to `(30, 26)` without any bounce. -/
theorem machine_preBrick_twoHitGame :
    afterWall noKeys twoHitGame =
      { twoHitGame with ballX := F64.fin 30, ballY := F64.fin 26 } ∧
    paddleCollides (afterWall noKeys twoHitGame) = false ∧
    ballMissed (paddleHitStep (afterWall noKeys twoHitGame)) = false ∧
    preBrick noKeys twoHitGame =
      { twoHitGame with ballX := F64.fin 30, ballY := F64.fin 26 } :=
  machine_preBrick_free twoHitGame _ _ _ _ _ _ machine_add_27_3 machine_add_29_m3
    machine_sub_30_8 machine_add_30_8 machine_sub_26_8 machine_add_26_8
    (by norm_num) (by norm_num) (by norm_num) (by norm_num) (by norm_num)

/-- Without top bounce, paddle collision and miss, the vertical velocity at
the start of the brick loop is the one before the tick. -/
theorem machine_preBrick_ballVY (inp : Input) (g : Game)
    (hnt : F64.lt (F64.sub (F64.add g.ballY g.ballVY) (F64.fin 8)) (F64.fin 0) = false)
    (hnp : paddleCollides (afterWall inp g) = false)
    (hnm : ballMissed (paddleHitStep (afterWall inp g)) = false) :
    (preBrick inp g).ballVY = g.ballVY := by
  have hp : preBrick inp g = afterWall inp g :=
    machine_preBrick_of_not _ _ hnp (by rw [← machine_paddleHitStep_of_not _ hnp]; exact hnm)
  have hmy : (moveStep (paddleStep inp g)).ballY = F64.add g.ballY g.ballVY := by
    simp [moveStep]
  have hmvy : (moveStep (paddleStep inp g)).ballVY = g.ballVY := by simp
  have c8 : ((ballRadius : Nat) : ℚ) = 8 := by norm_num [ballRadius]
  rw [hp]
  simp only [afterWall]
  rw [machine_wallStep_ballVY, hmy, hmvy, c8, hnt]
  simp

/-- C15, counterexample. In `edgeGame` the tick has no top-wall bounce, no
paddle collision and no miss, and the ball is at `(56 + 2 ^ (-47), 20)` when
the brick loop runs. In exact arithmetic its box strictly overlaps the boxes
of two visible bricks, so the claim predicts `ballVY` unchanged. The code
hits one brick only, the rounded right edge of the ball being 64, and `ballVY`
changes from -3 to 3. -/
theorem machine_brick_bounce_parity_counterexample :
    edgeGame.status = "playing" ∧
    F64.lt (F64.sub (F64.add edgeGame.ballY edgeGame.ballVY) (F64.fin 8)) (F64.fin 0) = false ∧
    paddleCollides (afterWall noKeys edgeGame) = false ∧
    ballMissed (paddleHitStep (afterWall noKeys edgeGame)) = false ∧
    (preBrick noKeys edgeGame).ballX = F64.fin (56 + 2 ^ (-47 : ℤ)) ∧
    (preBrick noKeys edgeGame).ballY = F64.fin 20 ∧
    Breakout.hitCount (56 + 2 ^ (-47 : ℤ)) 20 edgeGame.bricks = 2 ∧
    edgeGame.ballVY = F64.fin (-3) ∧
    (Update noKeys edgeGame).ballVY = F64.fin 3 := by
  obtain ⟨_, hnp, hnm, he⟩ := machine_preBrick_edgeGame
  have hnt : F64.lt (F64.sub (F64.add edgeGame.ballY edgeGame.ballVY) (F64.fin 8)) (F64.fin 0) =
      false := by
    show F64.lt (F64.sub (F64.add (F64.fin 23) (F64.fin (-3))) (F64.fin 8)) (F64.fin 0) = false
    rw [machine_add_23_m3, machine_sub_20_8, F64.lt_fin]
    norm_num
  have hk : hitCount (preBrick noKeys edgeGame).ballX (preBrick noKeys edgeGame).ballY
      edgeGame.bricks = 1 := by
    rw [he]; exact machine_hitCount_edgeGame
  refine ⟨rfl, hnt, hnp, hnm, by rw [he], by rw [he], exact_hitCount_edge.1, rfl, ?_⟩
  rw [(machine_Update_playing_bricks noKeys edgeGame rfl).2.2.1, hk, he]
  simp only [Function.iterate_one, edgeGame, sampleGame, F64.neg_fin, neg_neg]

/-- C15, amended. For every Playing state and input of a tick without
top-wall bounce (the binary64 test `ballY + ballVY - 8 < 0` of line 156
fails), paddle collision or miss, `ballVY` after `Update` is its value before
the tick negated `k` times, that is, unchanged when `k` is even and negated
when `k` is odd, where `k` is the number of visible bricks for which the
overlap test of the code (lines 198-201, on binary64 sums) holds in that tick. -/
theorem machine_brick_bounce_parity (inp : Input) (g : Game) (hs : g.status = "playing")
    (hnt : F64.lt (F64.sub (F64.add g.ballY g.ballVY) (F64.fin 8)) (F64.fin 0) = false)
    (hnp : paddleCollides (afterWall inp g) = false)
    (hnm : ballMissed (paddleHitStep (afterWall inp g)) = false) :
    (Update inp g).ballVY =
      if hitCount (preBrick inp g).ballX (preBrick inp g).ballY g.bricks % 2 = 0 then g.ballVY
      else F64.neg g.ballVY := by
  rw [(machine_Update_playing_bricks inp g hs).2.2.1, machine_preBrick_ballVY inp g hnt hnp hnm,
    iterate_neg]

/-- Witness of C15 (amended): two bricks are hit at once, and `ballVY` is
unchanged. -/
theorem machine_brick_bounce_parity_witness :
    twoHitGame.status = "playing" ∧
    hitCount (preBrick noKeys twoHitGame).ballX (preBrick noKeys twoHitGame).ballY
      twoHitGame.bricks = 2 ∧
    (Update noKeys twoHitGame).ballVY = twoHitGame.ballVY := by
  obtain ⟨_, hnp, hnm, hp⟩ := machine_preBrick_twoHitGame
  have hnt : F64.lt (F64.sub (F64.add twoHitGame.ballY twoHitGame.ballVY) (F64.fin 8))
      (F64.fin 0) = false := by
    show F64.lt (F64.sub (F64.add (F64.fin 29) (F64.fin (-3))) (F64.fin 8)) (F64.fin 0) = false
    rw [machine_add_29_m3, machine_sub_26_8, F64.lt_fin]
    norm_num
  have hk : hitCount (preBrick noKeys twoHitGame).ballX (preBrick noKeys twoHitGame).ballY
      twoHitGame.bricks = 2 := by
    rw [hp]
    exact machine_hitCount_two _ _ machine_sub_30_8 machine_add_30_8 machine_sub_26_8
      machine_add_26_8
  have h := machine_brick_bounce_parity noKeys twoHitGame rfl hnt hnp hnm
  rw [hk] at h
  exact ⟨rfl, hk, h⟩

end Machine

end Breakout
